import Mathlib

/-!
# A priority work-queue thread pool: shallow embedding of `list.h` and `threadpool.cpp`

The embedding follows the C source function by function.

* Pointers to `struct list_entry` are values of `Ptr`: the null pointer, the
  address of one of the three band heads that live inside the pool, or the
  address of the `link` member of an item.  `link` is the first member of
  `threadpool_item_t`, so `container_of(entry, threadpool_item_t, link)` has the
  same address as `entry`.
* The cells those pointers refer to are held in `Mem`; a load or store through
  the null pointer is a fault (`none`).
* `unsigned int` and `uint32_t` are natural numbers reduced modulo `2 ^ 32`,
  `uint64_t` modulo `2 ^ 64`.
* An item is named by a natural number; `Ptr.link item` is the address of its
  link.  Its two callbacks are always present (the assertions of lines 270-271
  hold), and calling them is recorded, not executed: what a callback does to
  the pool is a further call of a pool function.
* Calls of user callbacks and of the provider are recorded in a trace of
  `Event`s.  A failed `assert` is recorded as `Event.assert_failed line` (the
  line of the `assert` in `threadpool.cpp`) and execution goes on as in a build
  with `NDEBUG`; a build with assertions enabled stops at the first such event.
-/

namespace Threadpool

/-! ## Memory of list entries (`list.h`) -/

/-- Value of a `struct list_entry *`. -/
inductive Ptr
  | null
  | queue_normal
  | queue_low
  | queue_high
  | link (item : Nat)
  deriving DecidableEq, Repr

/-- The C type `struct list_entry`. -/
structure list_entry where
  next : Ptr
  prev : Ptr
  deriving DecidableEq, Repr

/-- Contents of every list entry, by address. -/
abbrev Mem := Ptr → list_entry

/-- Read `*p`. -/
def load (m : Mem) (p : Ptr) : Option list_entry :=
  if p = Ptr.null then none else some (m p)

/-- The assignment `p->next = v`. -/
def store_next (m : Mem) (p v : Ptr) : Option Mem :=
  if p = Ptr.null then none else some (Function.update m p { m p with next := v })

/-- The assignment `p->prev = v`. -/
def store_prev (m : Mem) (p v : Ptr) : Option Mem :=
  if p = Ptr.null then none else some (Function.update m p { m p with prev := v })

/-- The function `list_init`: `head->next = head->prev = head`. -/
def list_init (m : Mem) (head : Ptr) : Option Mem := do
  let m1 ← store_prev m head head
  store_next m1 head head

/-- The function `list_empty`: `head->next == head`. -/
def list_empty (m : Mem) (head : Ptr) : Option Bool := do
  let h ← load m head
  pure (decide (h.next = head))

/-- The function `list_remove_entry`. -/
def list_remove_entry (m : Mem) (entry : Ptr) : Option (Bool × Mem) := do
  let e ← load m entry
  let next := e.next
  let prev := e.prev
  let m1 ← store_next m prev next
  let m2 ← store_prev m1 next prev
  pure (decide (next = prev), m2)

/-- The function `list_remove_head`. -/
def list_remove_head (m : Mem) (head : Ptr) : Option (Ptr × Mem) := do
  let h ← load m head
  let entry := h.next
  let e ← load m entry
  let next := e.next
  let m1 ← store_next m head next
  let m2 ← store_prev m1 next head
  pure (entry, m2)

/-- The function `list_insert_tail`. -/
def list_insert_tail (m : Mem) (head entry : Ptr) : Option Mem := do
  let h ← load m head
  let prev := h.prev
  let m1 ← store_next m entry head
  let m2 ← store_prev m1 entry prev
  let m3 ← store_next m2 prev entry
  store_prev m3 head entry

/-! ## Events, constants and the pool record (`threadpool.h`, `threadpool.cpp`) -/

/-- Calls that leave the pool, and failed assertions. -/
inductive Event
  | action (item : Nat)
  | release (item : Nat)
  | provider_submit
  | provider_submit_lost_work (active_threads threads : Nat)
  | provider_close
  | shutdown_handler (handler context : Nat)
  | assert_failed (line : Nat)
  deriving DecidableEq, Repr

/-- Trace of `assert(c)` written at `line`. -/
def check (c : Bool) (line : Nat) : List Event :=
  if c then [] else [Event.assert_failed line]

/-- Number of values of `unsigned int` and `uint32_t`. -/
def UINT32 : Nat := 2 ^ 32

/-- Number of values of `uint64_t`. -/
def UINT64 : Nat := 2 ^ 64

/-- The C expression `x + 1` on `uint32_t`. -/
def inc32 (x : Nat) : Nat := (x + 1) % UINT32

/-- The C expression `x - 1` on `uint32_t`. -/
def dec32 (x : Nat) : Nat := (x + (UINT32 - 1)) % UINT32

def THREAD_POOL_KEEP_ALIVE_TIMEOUT : Nat := 150000

def THREAD_POOL_PRIORITY_NONE : Nat := 0
def THREAD_POOL_PRIORITY_LOW : Nat := 1
def THREAD_POOL_PRIORITY_NORMAL : Nat := 5
def THREAD_POOL_PRIORITY_HIGH : Nat := 9

/-- Value of `EINVAL` in `errno.h`. -/
def EINVAL : Nat := 22
/-- Value of `ENOMEM` in `errno.h`. -/
def ENOMEM : Nat := 12
/-- Value of `ECANCELED` in `errno.h`. -/
def ECANCELED : Nat := 125

/-- The enumeration `shutdown_state_t`. -/
inductive shutdown_state_t
  | SHUTDOWN_STATE_NONE
  | SHUTDOWN_STATE_WAIT
  | SHUTDOWN_STATE_ABORT
  | SHUTDOWN_STATE_COMPLETE
  deriving DecidableEq, Repr

open shutdown_state_t

/-- The struct `threadpool_queue_t`.  The three band heads are the cells of
`mem` at `Ptr.queue_normal`, `Ptr.queue_low` and `Ptr.queue_high`; `mem` also
holds the `link` of every item. -/
structure threadpool_queue where
  mem : Mem
  size : Nat

/-- The struct `threadpool`.  `provider` and `shutdown_handler` are pointers,
`0` being the null pointer.  The mutex is not a field: every function below is
entered at the instant it acquires the mutex. -/
structure threadpool where
  queue : threadpool_queue
  provider : Nat
  threads : Nat
  active_threads : Nat
  max_threads : Nat
  shutdown_state : shutdown_state_t
  shutdown_handler_called : Bool
  last_tick_count : Nat
  shutdown_handler : Nat
  shutdown_handler_context : Nat

/-! ## The queue -/

/-- The function `threadpool_queue_isvalid`. -/
def threadpool_queue_isvalid (queue : threadpool_queue) : Option Bool := do
  let n ← list_empty queue.mem Ptr.queue_normal
  let l ← list_empty queue.mem Ptr.queue_low
  let h ← list_empty queue.mem Ptr.queue_high
  if !n || !l || !h then pure (decide (queue.size ≠ 0))
  else pure (decide (queue.size = 0))

/-- The function `threadpool_queue_isempty`: result and the trace of its assertion. -/
def threadpool_queue_isempty (queue : threadpool_queue) : Option (Bool × List Event) := do
  let v ← threadpool_queue_isvalid queue
  pure (decide (queue.size = 0), check v 55)

/-- The function `threadpool_queue_push`. -/
def threadpool_queue_push (queue : threadpool_queue) (item : Nat) (priority : Nat) :
    Option (threadpool_queue × List Event) := do
  let e ← list_empty queue.mem (Ptr.link item)
  if !e then pure (queue, [Event.assert_failed 65])
  else
    let m ←
      if priority = THREAD_POOL_PRIORITY_LOW then
        list_insert_tail queue.mem Ptr.queue_low (Ptr.link item)
      else if priority = THREAD_POOL_PRIORITY_HIGH then
        list_insert_tail queue.mem Ptr.queue_high (Ptr.link item)
      else
        list_insert_tail queue.mem Ptr.queue_normal (Ptr.link item)
    let q1 : threadpool_queue := { mem := m, size := inc32 queue.size }
    let v ← threadpool_queue_isvalid q1
    pure (q1, check v 75)

/-- The chain of `if`/`else if` of `threadpool_queue_pop` that selects a band
and removes its head; `Ptr.null` when no branch is taken. -/
def pop_entry (m : Mem) : Option (Ptr × Mem) := do
  let h ← list_empty m Ptr.queue_high
  if !h then list_remove_head m Ptr.queue_high
  else
    let n ← list_empty m Ptr.queue_normal
    if !n then list_remove_head m Ptr.queue_normal
    else
      let l ← list_empty m Ptr.queue_low
      if !l then list_remove_head m Ptr.queue_low
      else pure (Ptr.null, m)

/-- The function `threadpool_queue_pop`.  The result is the address of the
item (`Ptr.null` for `nullptr`). -/
def threadpool_queue_pop (queue : threadpool_queue) :
    Option (Ptr × threadpool_queue × List Event) := do
  let v ← threadpool_queue_isvalid queue
  let t0 := check v 84
  if queue.size = 0 then pure (Ptr.null, queue, t0)
  else
    let r ← pop_entry queue.mem
    let entry := r.1
    if entry = Ptr.null then
      pure (Ptr.null, { queue with mem := r.2 }, t0 ++ [Event.assert_failed 99])
    else
      let m1 ← list_init r.2 entry
      let q1 : threadpool_queue := { mem := m1, size := dec32 queue.size }
      let v1 ← threadpool_queue_isvalid q1
      pure (entry, q1, t0 ++ check v1 104)

/-- The function `threadpool_queue_remove`. -/
def threadpool_queue_remove (queue : threadpool_queue) (item : Nat) :
    Option (Bool × threadpool_queue × List Event) := do
  let e ← list_empty queue.mem (Ptr.link item)
  if !e then pure (false, queue, [])
  else
    let emp ← threadpool_queue_isempty queue
    if emp.1 then pure (false, queue, emp.2 ++ [Event.assert_failed 117])
    else
      let r ← list_remove_entry queue.mem (Ptr.link item)
      let m2 ← list_init r.2 (Ptr.link item)
      let q1 : threadpool_queue :=
        { mem := m2, size := if queue.size > 0 then dec32 queue.size else queue.size }
      let v ← threadpool_queue_isvalid q1
      pure (true, q1, emp.2 ++ check v 125)

/-! ## The pool -/

/-- How a call of a pool function ends.  `fault`: a load, store or call through
a null or wild pointer.  `deadlock`: the calling thread locks the mutex it
already holds; it never returns and the mutex stays held.  `out_of_fuel`: the
bound given to the drain loop was too small. -/
inductive Outcome (α : Type)
  | returned (ret : α) (pool : threadpool) (trace : List Event)
  | fault (trace : List Event)
  | deadlock (pool : threadpool) (trace : List Event)
  | out_of_fuel

/-- The outcome `o` reached after the events `t`. -/
def Outcome.after {α : Type} (t : List Event) : Outcome α → Outcome α
  | Outcome.returned r p u => Outcome.returned r p (t ++ u)
  | Outcome.fault u => Outcome.fault (t ++ u)
  | Outcome.deadlock p u => Outcome.deadlock p (t ++ u)
  | Outcome.out_of_fuel => Outcome.out_of_fuel

/-- Sequential composition: run `f` from where `o` returned. -/
def Outcome.andThen {α β : Type} (o : Outcome α) (f : α → threadpool → Outcome β) : Outcome β :=
  match o with
  | Outcome.returned r p t => (f r p).after t
  | Outcome.fault t => Outcome.fault t
  | Outcome.deadlock p t => Outcome.deadlock p t
  | Outcome.out_of_fuel => Outcome.out_of_fuel

/-- The function `threadpool_get_tickcount`; `clock` is what `clock_gettime`
delivers (`none` when it fails, else `tv_sec` and `tv_nsec`). -/
def threadpool_get_tickcount (clock : Option (Nat × Nat)) : Nat :=
  match clock with
  | none => 0
  | some (tv_sec, tv_nsec) => (tv_sec * 1000 + tv_nsec / 1000000) % UINT64

/-- The function `threadpool_keepalive_locked`; `tick_count` is the value that
`threadpool_get_tickcount()` returns when it is called. -/
def threadpool_keepalive_locked (pool : threadpool) (tick_count : Nat) : Outcome Unit :=
  if pool.active_threads < pool.threads then
    if (tick_count + (UINT64 - pool.last_tick_count % UINT64)) % UINT64
        ≥ THREAD_POOL_KEEP_ALIVE_TIMEOUT then
      let p1 := { pool with last_tick_count := tick_count }
      if p1.provider = 0 then Outcome.fault []
      else Outcome.returned () p1
        [Event.provider_submit_lost_work p1.active_threads p1.threads]
    else Outcome.returned () pool []
  else Outcome.returned () pool []

/-- Lines 160-176 of `thread_pool_async_dequeue`: the tick update and the two
over-grant checks.  The flag tells whether the drain loop is entered. -/
def dequeue_entry (pool : threadpool) (tick_count : Nat) : threadpool × Bool :=
  let p1 := { pool with last_tick_count := tick_count }
  if p1.active_threads ≥ p1.threads then (p1, false)
  else
    let p2 := { p1 with active_threads := inc32 p1.active_threads }
    if p2.active_threads > p2.threads then
      ({ p2 with threads := dec32 p2.threads, active_threads := dec32 p2.active_threads }, false)
    else (p2, true)

/-- One pass through the body of the `while (true)` loop. -/
inductive Iteration
  | item (pool : threadpool) (trace : List Event)
  | empty (pool : threadpool) (trace : List Event)
  | fault (trace : List Event)

/-- Lines 180-202 of `thread_pool_async_dequeue`: the three assertions, the
snapshot of `shutdown_state`, the pop, and the callbacks of the popped item
(run with the mutex released).  `Iteration.empty` is the `break`. -/
def dequeue_iteration (pool : threadpool) : Iteration :=
  let t0 := check (decide (pool.threads ≥ 1)) 183
    ++ check (decide (pool.threads ≥ pool.active_threads)) 184
    ++ check (decide (pool.shutdown_state ≠ SHUTDOWN_STATE_COMPLETE)) 185
  let shutdown_state := pool.shutdown_state
  match threadpool_queue_pop pool.queue with
  | none => Iteration.fault t0
  | some (Ptr.null, q, t1) => Iteration.empty { pool with queue := q } (t0 ++ t1)
  | some (Ptr.link item, q, t1) =>
    Iteration.item { pool with queue := q }
      (t0 ++ t1
        ++ (if shutdown_state ≠ SHUTDOWN_STATE_ABORT then [Event.action item] else [])
        ++ [Event.release item])
  | some (_, _, t1) => Iteration.fault (t0 ++ t1)

/-- Lines 205-224 of `thread_pool_async_dequeue`: the two decrements and the
terminal-quiescence check, with the call of the shutdown handler. -/
def dequeue_exit (pool : threadpool) : Outcome Unit :=
  let p1 := { pool with threads := dec32 pool.threads }
  let p2 := { p1 with active_threads := dec32 p1.active_threads }
  if p2.shutdown_state = SHUTDOWN_STATE_NONE ∨ p2.active_threads ≠ 0
      ∨ p2.shutdown_handler_called = true then
    Outcome.returned () p2 []
  else
    match threadpool_queue_isempty p2.queue with
    | none => Outcome.fault []
    | some (e, t0) =>
      let p3 := { p2 with shutdown_handler_called := true }
      Outcome.returned () p3
        (t0 ++ check e 214
          ++ (if p3.shutdown_handler ≠ 0 then
                [Event.shutdown_handler p3.shutdown_handler p3.shutdown_handler_context]
              else []))

/-- The `while (true)` loop of `thread_pool_async_dequeue`, at most `fuel`
passes; it returns at the `break`. -/
def dequeue_loop : Nat → threadpool → Outcome Unit
  | 0, _ => Outcome.out_of_fuel
  | fuel + 1, pool =>
    match dequeue_iteration pool with
    | Iteration.fault t => Outcome.fault t
    | Iteration.empty p t => Outcome.returned () p t
    | Iteration.item p t => (dequeue_loop fuel p).after t

/-- The function `thread_pool_async_dequeue`, run without interference: the
callbacks do not call back into the pool and no other thread runs between the
critical sections. -/
def thread_pool_async_dequeue (fuel : Nat) (pool : threadpool) (tick_count : Nat) :
    Outcome Unit :=
  match dequeue_entry pool tick_count with
  | (p, false) => Outcome.returned () p []
  | (p, true) => (dequeue_loop fuel p).andThen (fun _ p1 => dequeue_exit p1)

/-- The function `threadpool_create`.  `ppool` is the pointer argument (`0` for
null), `heap` the memory in which the caller's items live, `malloc_ok` tells
whether `malloc` succeeds and `mutex_init` is the result of
`pthread_mutex_init`.  The second component is what was stored to `*ppool`:
`none` nothing, `some none` the null pointer, `some (some pool)` the new pool. -/
def threadpool_create (ppool : Nat) (max_threads : Nat) (shutdown_handler : Nat)
    (shutdown_handler_context : Nat) (heap : Mem) (malloc_ok : Bool) (mutex_init : Nat) :
    Nat × Option (Option threadpool) :=
  if ppool = 0 ∨ max_threads = 0 then (EINVAL, none)
  else if malloc_ok = false then (ENOMEM, some none)
  else if mutex_init ≠ 0 then (mutex_init, some none)
  else
    let zeroed : Mem := fun p =>
      match p with
      | Ptr.queue_normal => { next := Ptr.null, prev := Ptr.null }
      | Ptr.queue_low => { next := Ptr.null, prev := Ptr.null }
      | Ptr.queue_high => { next := Ptr.null, prev := Ptr.null }
      | q => heap q
    (mutex_init, some (some
      { queue := { mem := zeroed, size := 0 }
        provider := 0
        threads := 0
        active_threads := 0
        max_threads := max_threads
        shutdown_state := SHUTDOWN_STATE_NONE
        shutdown_handler_called := false
        last_tick_count := 0
        shutdown_handler := shutdown_handler
        shutdown_handler_context := shutdown_handler_context }))

/-- The function `threadpool_submit`.  `tick1` and `tick2` are the clock
readings of the keep-alive probe and of line 295, `provider_result` is what
`provider->submit()` returns. -/
def threadpool_submit (pool : threadpool) (item : Nat) (priority : Nat)
    (tick1 tick2 : Nat) (provider_result : Bool) : Outcome Nat :=
  if pool.shutdown_state ≠ SHUTDOWN_STATE_NONE then
    Outcome.returned ECANCELED pool [Event.release item]
  else
    (threadpool_keepalive_locked pool tick1).andThen fun _ p1 =>
      match threadpool_queue_push p1.queue item priority with
      | none => Outcome.fault []
      | some (q, t) =>
        let p2 := { p1 with queue := q }
        if p2.threads ≥ p2.max_threads then Outcome.returned 0 p2 t
        else
          let p3 := { p2 with threads := inc32 p2.threads, last_tick_count := tick2 }
          if p3.provider = 0 then Outcome.fault t
          else if provider_result = false then
            Outcome.returned ECANCELED p3 (t ++ [Event.provider_submit])
          else Outcome.returned 0 p3 (t ++ [Event.provider_submit])

/-- The function `threadpool_submitex`. -/
def threadpool_submitex (pool : threadpool) (item : Nat)
    (tick1 tick2 : Nat) (provider_result : Bool) : Outcome Nat :=
  threadpool_submit pool item THREAD_POOL_PRIORITY_NORMAL tick1 tick2 provider_result

/-- The function `threadpool_keepalive`.  `held` tells whether the calling
thread already holds the pool mutex when it calls. -/
def threadpool_keepalive (held : Bool) (pool : threadpool) (tick_count : Nat) :
    Outcome Unit :=
  if held then Outcome.deadlock pool []
  else threadpool_keepalive_locked pool tick_count

/-- The function `threadpool_cancel`. -/
def threadpool_cancel (pool : threadpool) (item : Nat) : Outcome Bool :=
  match threadpool_queue_remove pool.queue item with
  | none => Outcome.fault []
  | some (ret, q, t) =>
    let p1 := { pool with queue := q }
    if !ret then Outcome.returned false p1 t
    else Outcome.returned true p1 (t ++ [Event.release item])

/-- The function `threadpool_shutdown`. -/
def threadpool_shutdown (pool : threadpool) (abortive : Bool) (tick_count : Nat) :
    Outcome Unit :=
  if pool.shutdown_state ≠ SHUTDOWN_STATE_NONE then
    Outcome.returned () pool [Event.assert_failed 346]
  else
    let p1 := { pool with
      shutdown_state := if abortive ≠ false then SHUTDOWN_STATE_ABORT else SHUTDOWN_STATE_WAIT }
    if p1.threads > 0 ∨ p1.active_threads > 0 then
      threadpool_keepalive true p1 tick_count
    else
      match threadpool_queue_isempty p1.queue with
      | none => Outcome.fault []
      | some (e, t0) =>
        let t1 := t0 ++ check e 361 ++ check (!p1.shutdown_handler_called) 363
        let p2 := { p1 with shutdown_handler_called := true }
        Outcome.returned () p2
          (t1 ++ (if p2.shutdown_handler ≠ 0 then
                    [Event.shutdown_handler p2.shutdown_handler p2.shutdown_handler_context]
                  else []))

/-- Lines 377-387 of `threadpool_close`: its critical section. -/
def close_begin (pool : threadpool) : threadpool × List Event :=
  let p1 :=
    if pool.shutdown_state = SHUTDOWN_STATE_NONE then
      { pool with shutdown_state := SHUTDOWN_STATE_ABORT }
    else pool
  ({ p1 with threads := inc32 p1.threads },
    check (decide (p1.shutdown_state ≠ SHUTDOWN_STATE_COMPLETE)) 383)

/-- Lines 391-396 of `threadpool_close`: the call of `provider->close()`, the
two assertions and the store of `SHUTDOWN_STATE_COMPLETE`. -/
def close_end (pool : threadpool) : Outcome Unit :=
  if pool.provider = 0 then Outcome.fault []
  else
    match threadpool_queue_isempty pool.queue with
    | none => Outcome.fault [Event.provider_close]
    | some (e, t0) =>
      Outcome.returned () { pool with shutdown_state := SHUTDOWN_STATE_COMPLETE }
        ([Event.provider_close] ++ t0 ++ check e 393
          ++ check (decide (pool.active_threads = 0)) 394)

/-- The function `threadpool_close`, run without interference. -/
def threadpool_close (fuel : Nat) (pool : threadpool) (tick_count : Nat) : Outcome Unit :=
  let (p1, t0) := close_begin pool
  ((thread_pool_async_dequeue fuel p1 tick_count).andThen
    (fun _ p2 => close_end p2)).after t0

/-- The function `threadpool_size`. -/
def threadpool_size (pool : threadpool) : Nat := pool.max_threads

/-- The function `threadpool_thread_count`. -/
def threadpool_thread_count (pool : threadpool) : Nat := pool.threads

/-- The function `threadpool_active_thread_count`. -/
def threadpool_active_thread_count (pool : threadpool) : Nat := pool.active_threads

/-! ## The interleaved model

Every critical section is one atomic step; the callbacks that follow a critical
section are recorded with it, and what they do to the pool is other steps.
`thread_pool_async_dequeue` is split at its unlock/lock pairs, and its entry is
split from its first pop, which gives every interleaving of the code and more. -/

/-- State of the interleaved model.  `in_loop` counts the executions of
`thread_pool_async_dequeue` that are inside the drain loop, `closing` the calls
of `threadpool_close` that are past line 387 and before line 391, `closes` the
calls of `threadpool_close` so far; `stuck` tells that a thread deadlocked
while it held the mutex. -/
structure System where
  pool : threadpool
  in_loop : Nat
  closing : Nat
  closes : Nat
  stuck : Bool

/-- The steps of the interleaved model. -/
inductive Step
  | submit (item priority tick1 tick2 : Nat) (provider_result : Bool)
  | cancel (item : Nat)
  | keepalive (tick_count : Nat)
  | shutdown (abortive : Bool) (tick_count : Nat)
  | close_begin
  | close_end
  | dequeue_entry (tick_count : Nat)
  | dequeue_iteration
  deriving DecidableEq, Repr

/-- What a step does: a new state, a crash of the process, or nothing because
the step cannot run in this state. -/
inductive Progress
  | next (s : System) (trace : List Event)
  | crash (trace : List Event)
  | blocked

/-- The step made by a call whose critical section ends as `o`. -/
def Progress.of_outcome {α : Type} (s : System) (o : Outcome α) : Progress :=
  match o with
  | Outcome.returned _ p t => Progress.next { s with pool := p } t
  | Outcome.fault t => Progress.crash t
  | Outcome.deadlock p t => Progress.next { s with pool := p, stuck := true } t
  | Outcome.out_of_fuel => Progress.blocked

/-- One step of the interleaved model. -/
def step (s : System) : Step → Progress
  | Step.close_end =>
    if s.closing = 0 then Progress.blocked
    else Progress.of_outcome { s with closing := s.closing - 1 } (close_end s.pool)
  | Step.submit item priority tick1 tick2 provider_result =>
    if s.stuck then Progress.blocked
    else Progress.of_outcome s (threadpool_submit s.pool item priority tick1 tick2 provider_result)
  | Step.cancel item =>
    if s.stuck then Progress.blocked
    else Progress.of_outcome s (threadpool_cancel s.pool item)
  | Step.keepalive tick_count =>
    if s.stuck then Progress.blocked
    else Progress.of_outcome s (threadpool_keepalive false s.pool tick_count)
  | Step.shutdown abortive tick_count =>
    if s.stuck then Progress.blocked
    else Progress.of_outcome s (threadpool_shutdown s.pool abortive tick_count)
  | Step.close_begin =>
    if s.stuck then Progress.blocked
    else
      let (p, t) := close_begin s.pool
      Progress.next { s with pool := p, closing := s.closing + 1, closes := s.closes + 1 } t
  | Step.dequeue_entry tick_count =>
    if s.stuck then Progress.blocked
    else
      match dequeue_entry s.pool tick_count with
      | (p, true) => Progress.next { s with pool := p, in_loop := s.in_loop + 1 } []
      | (p, false) => Progress.next { s with pool := p } []
  | Step.dequeue_iteration =>
    if s.stuck then Progress.blocked
    else if s.in_loop = 0 then Progress.blocked
    else
      match dequeue_iteration s.pool with
      | Iteration.fault t => Progress.crash t
      | Iteration.item p t => Progress.next { s with pool := p } t
      | Iteration.empty p t =>
        Progress.of_outcome { s with in_loop := s.in_loop - 1 } ((dequeue_exit p).after t)

/-- One step of an execution: the state before, the step, the state after and
the events of the step.  For a crash `post` is `pre`. -/
structure Record where
  pre : System
  step : Step
  post : System
  trace : List Event
  crashed : Bool

/-- The execution of a list of steps: it ends at a crash and at a step that
cannot run. -/
def run : System → List Step → List Record
  | _, [] => []
  | s, st :: rest =>
    match step s st with
    | Progress.next s1 t =>
      { pre := s, step := st, post := s1, trace := t, crashed := false } :: run s1 rest
    | Progress.crash t => [{ pre := s, step := st, post := s, trace := t, crashed := true }]
    | Progress.blocked => []

/-- The state in which an execution ends. -/
def final (s : System) (steps : List Step) : System :=
  match (run s steps).getLast? with
  | some r => r.post
  | none => s

/-- All events of an execution, in order. -/
def events (h : List Record) : List Event := h.flatMap (fun r => r.trace)

/-- Whether an event is a call of the shutdown handler. -/
def is_handler_call : Event → Bool
  | Event.shutdown_handler _ _ => true
  | _ => false

/-- The system that starts from a pool, with no thread inside the pool. -/
def System.start (p : threadpool) : System :=
  { pool := p, in_loop := 0, closing := 0, closes := 0, stuck := false }

/-! ## Calls in sequence on the queue -/

/-- A sequence of calls `threadpool_queue_push(queue, item, priority)`. -/
def push_all : threadpool_queue → List (Nat × Nat) → Option (threadpool_queue × List Event)
  | q, [] => some (q, [])
  | q, (item, priority) :: rest =>
    match threadpool_queue_push q item priority with
    | none => none
    | some (q1, t) =>
      match push_all q1 rest with
      | none => none
      | some (q2, u) => some (q2, t ++ u)

/-- Calls of `threadpool_queue_pop` repeated until it returns `nullptr`, at
most `fuel` calls (`none` when a call faults or the fuel is used up): the items
returned, in order, and the queue left. -/
def pop_until_null : Nat → threadpool_queue → Option (List Ptr × threadpool_queue × List Event)
  | 0, _ => none
  | fuel + 1, q =>
    match threadpool_queue_pop q with
    | none => none
    | some (Ptr.null, q1, t) => some ([], q1, t)
    | some (p, q1, t) =>
      match pop_until_null fuel q1 with
      | none => none
      | some (ps, q2, u) => some (p :: ps, q2, t ++ u)

/-! ## Well-formed states -/

/-- Doubly linked chain from `a` through the cells `xs` to `b`. -/
def chain (m : Mem) : Ptr → List Ptr → Ptr → Prop
  | a, [], b => (m a).next = b ∧ (m b).prev = a
  | a, x :: xs, b => (m a).next = x ∧ (m x).prev = a ∧ chain m x xs b

instance chain_decidable (m : Mem) :
    (a : Ptr) → (xs : List Ptr) → (b : Ptr) → Decidable (chain m a xs b)
  | a, [], b => by unfold chain; exact inferInstance
  | a, x :: xs, b => by
    unfold chain
    have := chain_decidable m x xs b
    exact inferInstance

/-- A pointer that is the address of a band head. -/
def is_head (p : Ptr) : Prop := p ≠ Ptr.null ∧ ∀ i, p ≠ Ptr.link i

/-- The band with head `head` holds exactly the items `items`, in order. -/
def ring (m : Mem) (head : Ptr) (items : List Nat) : Prop :=
  chain m head (items.map Ptr.link) head

instance ring_decidable (m : Mem) (head : Ptr) (items : List Nat) :
    Decidable (ring m head items) := by
  unfold ring; exact inferInstance

/-- Well-formed queue: the three bands are rings that hold `high`, `normal` and
`low`, no item is queued twice, and `size` counts the queued items. -/
structure queue_wf (q : threadpool_queue) (high normal low : List Nat) : Prop where
  ring_high : ring q.mem Ptr.queue_high high
  ring_normal : ring q.mem Ptr.queue_normal normal
  ring_low : ring q.mem Ptr.queue_low low
  nodup : (high ++ normal ++ low).Nodup
  size_eq : q.size = high.length + normal.length + low.length
  size_lt : q.size < UINT32

/-- The item passes the test `list_empty(&item->link)` and its link is
self-referential, as `list_init` leaves it. -/
def unlinked (m : Mem) (item : Nat) : Prop :=
  m (Ptr.link item) = { next := Ptr.link item, prev := Ptr.link item }

instance unlinked_decidable (m : Mem) (item : Nat) : Decidable (unlinked m item) := by
  unfold unlinked; exact inferInstance

/-- Every counter of the pool holds a value of its C type. -/
structure threadpool.in_range (p : threadpool) : Prop where
  threads_lt : p.threads < UINT32
  active_threads_lt : p.active_threads < UINT32
  max_threads_lt : p.max_threads < UINT32
  last_tick_count_lt : p.last_tick_count < UINT64

/-! ## The words of the spec -/

/-- Band HIGH after a push, in the words of section 4.1 of the spec. -/
def pushed_high (priority item : Nat) (high : List Nat) : List Nat :=
  if priority = THREAD_POOL_PRIORITY_HIGH then high ++ [item] else high

/-- Band LOW after a push, in the words of section 4.1 of the spec. -/
def pushed_low (priority item : Nat) (low : List Nat) : List Nat :=
  if priority = THREAD_POOL_PRIORITY_LOW then low ++ [item] else low

/-- Band NORMAL after a push: every priority other than LOW and HIGH selects it. -/
def pushed_normal (priority item : Nat) (normal : List Nat) : List Nat :=
  if priority = THREAD_POOL_PRIORITY_LOW ∨ priority = THREAD_POOL_PRIORITY_HIGH then normal
  else normal ++ [item]

/-- The items of a sequence of pushes that select band HIGH, in push order. -/
def selected_high (pushes : List (Nat × Nat)) : List Nat :=
  (pushes.filter (fun p => decide (p.2 = THREAD_POOL_PRIORITY_HIGH))).map Prod.fst

/-- The items of a sequence of pushes that select band LOW, in push order. -/
def selected_low (pushes : List (Nat × Nat)) : List Nat :=
  (pushes.filter (fun p => decide (p.2 = THREAD_POOL_PRIORITY_LOW))).map Prod.fst

/-- The items of a sequence of pushes that select band NORMAL, in push order. -/
def selected_normal (pushes : List (Nat × Nat)) : List Nat :=
  (pushes.filter (fun p => decide (¬ (p.2 = THREAD_POOL_PRIORITY_LOW
    ∨ p.2 = THREAD_POOL_PRIORITY_HIGH)))).map Prod.fst

/-- Pop order of the spec: all of HIGH, then NORMAL, then LOW. -/
def pop_order (high normal low : List Nat) : List Nat := high ++ normal ++ low

/-- Callbacks of one drained item in the words of section 4.4 of the spec:
`action` unless the snapshot is ABORT, then `release`. -/
def item_callbacks (state : shutdown_state_t) (item : Nat) : List Event :=
  (if state ≠ SHUTDOWN_STATE_ABORT then [Event.action item] else []) ++ [Event.release item]

/-- Callbacks of a drain of `items` under the shutdown state `state`. -/
def drain_callbacks (state : shutdown_state_t) (items : List Nat) : List Event :=
  items.flatMap (item_callbacks state)

/-- The call of the shutdown handler made by a pool, if it has a handler. -/
def handler_call (p : threadpool) : List Event :=
  if p.shutdown_handler ≠ 0 then
    [Event.shutdown_handler p.shutdown_handler p.shutdown_handler_context]
  else []

/-! ## Example states -/

/-- The pool in which a call ended, `d` when the process crashed. -/
def Outcome.pool_or {α : Type} (o : Outcome α) (d : threadpool) : threadpool :=
  match o with
  | Outcome.returned _ p _ => p
  | Outcome.deadlock p _ => p
  | _ => d

/-- The events of a call. -/
def Outcome.events {α : Type} (o : Outcome α) : List Event :=
  match o with
  | Outcome.returned _ _ t => t
  | Outcome.deadlock _ t => t
  | Outcome.fault t => t
  | Outcome.out_of_fuel => []

/-- The value a call returned. -/
def Outcome.ret {α : Type} (o : Outcome α) : Option α :=
  match o with
  | Outcome.returned r _ _ => some r
  | _ => none

/-- Memory in which every band head and every item link is initialised by
`list_init`. -/
def mem_init : Mem := fun p => { next := p, prev := p }

/-- A pool with initialised bands, a provider, a shutdown handler and room for
`max_threads` slots. -/
def pool_init (max_threads : Nat) : threadpool :=
  { queue := { mem := mem_init, size := 0 }
    provider := 1
    threads := 0
    active_threads := 0
    max_threads := max_threads
    shutdown_state := SHUTDOWN_STATE_NONE
    shutdown_handler_called := false
    last_tick_count := 0
    shutdown_handler := 1
    shutdown_handler_context := 0 }

/-- The pool of scenario 1 of the spec after its three submissions: items 1
and 2 with priority NORMAL, then item 3 with priority HIGH. -/
def pool_abc : threadpool :=
  let p1 := (threadpool_submit (pool_init 2) 1 THREAD_POOL_PRIORITY_NORMAL 0 0 true).pool_or
    (pool_init 2)
  let p2 := (threadpool_submit p1 2 THREAD_POOL_PRIORITY_NORMAL 0 0 true).pool_or p1
  (threadpool_submit p2 3 THREAD_POOL_PRIORITY_HIGH 0 0 true).pool_or p2

/-- Memory in which band NORMAL holds the items `0`, ..., `n - 1` in this
order, the other bands are empty and every other item is unlinked. -/
def mem_full (n : Nat) : Mem := fun p =>
  match p with
  | Ptr.queue_normal =>
    if n = 0 then { next := Ptr.queue_normal, prev := Ptr.queue_normal }
    else { next := Ptr.link 0, prev := Ptr.link (n - 1) }
  | Ptr.link i =>
    if i < n then
      { next := if i + 1 < n then Ptr.link (i + 1) else Ptr.queue_normal
        prev := if i = 0 then Ptr.queue_normal else Ptr.link (i - 1) }
    else { next := Ptr.link i, prev := Ptr.link i }
  | q => { next := q, prev := q }

/-- A pool whose queue holds `2 ^ 32 - 1` items, with one slot granted. -/
def pool_full : threadpool :=
  { pool_init 1 with
    queue := { mem := mem_full 4294967295, size := 4294967295 }
    threads := 1 }

/-- A pool with initialised bands and no provider. -/
def pool_no_provider : threadpool := { pool_init 1 with provider := 0 }

/-- The test of `threadpool_keepalive_locked`: a granted slot has not entered
the drain loop and the clock is `THREAD_POOL_KEEP_ALIVE_TIMEOUT` past
`last_tick_count`, in `uint64_t` arithmetic. -/
def keepalive_due (pool : threadpool) (tick_count : Nat) : Prop :=
  pool.active_threads < pool.threads ∧
  (tick_count + (UINT64 - pool.last_tick_count % UINT64)) % UINT64
    ≥ THREAD_POOL_KEEP_ALIVE_TIMEOUT

instance keepalive_due_decidable (pool : threadpool) (tick_count : Nat) :
    Decidable (keepalive_due pool tick_count) := by
  unfold keepalive_due; exact inferInstance

/-! ## Predicates on executions -/

/-- A trace without a call of the shutdown handler. -/
def quiet (t : List Event) : Prop := ∀ e ∈ t, is_handler_call e = false

/-- The fields that only `threadpool_shutdown`, `threadpool_close` and
`thread_pool_async_dequeue` write are the same in `p` and `q`. -/
def same_control (p q : threadpool) : Prop :=
  q.shutdown_state = p.shutdown_state ∧
  q.shutdown_handler_called = p.shutdown_handler_called ∧
  q.active_threads = p.active_threads ∧
  q.max_threads = p.max_threads ∧
  q.provider = p.provider

/-- The step takes `shutdown_handler_called` from false to true. -/
def latches (r : Record) : Bool :=
  !r.pre.pool.shutdown_handler_called && r.post.pool.shutdown_handler_called

/-- The latch is set only after shutdown began. -/
def latch_inv (s : System) : Prop :=
  s.pool.shutdown_handler_called = true → s.pool.shutdown_state ≠ SHUTDOWN_STATE_NONE

/-- What one step does to the latch `shutdown_handler_called` and how often it
calls the shutdown handler. -/
def latch_step (s s1 : System) (t : List Event) : Prop :=
  latch_inv s1 ∧
  (s.pool.shutdown_handler_called = true → s1.pool.shutdown_handler_called = true ∧ quiet t) ∧
  t.countP is_handler_call ≤ 1 ∧
  (0 < t.countP is_handler_call →
    s.pool.shutdown_handler_called = false ∧ s1.pool.shutdown_handler_called = true)

/-- The counter invariant of section 3 of the spec. -/
def counters_ok (p : threadpool) : Prop :=
  p.active_threads ≤ p.threads ∧ p.threads ≤ p.max_threads + 1

/-- The step changes `threads` and `active_threads` by at most one: no
increment or decrement wraps around. -/
def no_wrap (r : Record) : Prop :=
  r.post.pool.threads ≤ r.pre.pool.threads + 1 ∧
  r.pre.pool.threads ≤ r.post.pool.threads + 1 ∧
  r.post.pool.active_threads ≤ r.pre.pool.active_threads + 1 ∧
  r.pre.pool.active_threads ≤ r.post.pool.active_threads + 1

/-- Invariant of the interleaved model behind `counters_ok`; `bound` is the
number of slots that `threadpool_submit` can grant. -/
def slots_inv (bound : Nat) (s : System) : Prop :=
  s.in_loop = s.pool.active_threads ∧
  s.pool.active_threads ≤ s.pool.threads ∧
  s.pool.threads ≤ bound + s.closes ∧
  (1 ≤ s.closes → s.pool.shutdown_state ≠ SHUTDOWN_STATE_NONE) ∧
  (bound = s.pool.max_threads ∨ (bound = 0 ∧ s.pool.provider = 0)) ∧
  bound + 1 < UINT32

/-- What a step of the interleaved model does to the slot counters. -/
def slots_step (bound : Nat) (s s1 : System) (st : Step) : Prop :=
  slots_inv bound s1 ∧
  s1.closes = s.closes + (if st = Step.close_begin then 1 else 0) ∧
  s1.pool.threads ≤ s.pool.threads + 1 ∧ s.pool.threads ≤ s1.pool.threads + 1 ∧
  s1.pool.active_threads ≤ s.pool.active_threads + 1 ∧
  s.pool.active_threads ≤ s1.pool.active_threads + 1

/-- The pool that a successful `threadpool_create` stores, for items that were
initialised with `list_init`. -/
def pool_created (max_threads shutdown_handler shutdown_handler_context : Nat) : threadpool :=
  match (threadpool_create 1 max_threads shutdown_handler shutdown_handler_context
      mem_init true 0).2 with
  | some (some p) => p
  | _ => pool_init max_threads

/-- Scenario: item 1 is submitted, item 2 (never submitted) is cancelled, then
`threadpool_close` runs up to the exit of its drain. -/
def steps_cancel_close : List Step :=
  [Step.submit 1 THREAD_POOL_PRIORITY_NORMAL 0 0 true, Step.cancel 2, Step.close_begin,
    Step.dequeue_entry 0, Step.dequeue_iteration]

/-- Scenario: items 1 and 2 are submitted, item 9 (never submitted) is
cancelled, one worker drains and exits, then `threadpool_shutdown(false)`. -/
def steps_cancel_shutdown : List Step :=
  [Step.submit 1 THREAD_POOL_PRIORITY_NORMAL 0 0 true,
    Step.submit 2 THREAD_POOL_PRIORITY_NORMAL 0 0 true, Step.cancel 9, Step.dequeue_entry 0,
    Step.dequeue_iteration, Step.dequeue_iteration, Step.shutdown false 0]

/-! ## Further words of the spec and further example states -/

/-- A trace that holds nothing but failed assertions. -/
def only_asserts (t : List Event) : Prop := ∀ e ∈ t, ∃ line, e = Event.assert_failed line

/-- The state that `threadpool_shutdown(pool, abortive)` is to store, in the
words of section 4.7 of the spec. -/
def requested_state (abortive : Bool) : shutdown_state_t :=
  if abortive then SHUTDOWN_STATE_ABORT else SHUTDOWN_STATE_WAIT

/-- The item that a pop is to return, in the words of section 4.1 of the spec:
the head of the first non-empty band in the order HIGH, NORMAL, LOW. -/
def first_band_head (high normal low : List Nat) : Option Nat :=
  match high, normal, low with
  | x :: _, _, _ => some x
  | [], x :: _, _ => some x
  | [], [], x :: _ => some x
  | [], [], [] => none

/-- Band HIGH after a pop: it loses its head when it is not empty. -/
def popped_high (high : List Nat) : List Nat := high.tail

/-- Band NORMAL after a pop: it loses its head when band HIGH is empty. -/
def popped_normal (high normal : List Nat) : List Nat :=
  if high = [] then normal.tail else normal

/-- Band LOW after a pop: it loses its head when bands HIGH and NORMAL are empty. -/
def popped_low (high normal low : List Nat) : List Nat :=
  if high = [] ∧ normal = [] then low.tail else low

/-- The condition under which the keep-alive probe is to fire, in the words of
the claim: a granted slot has not entered the drain loop, the clock reading is
not before `last_tick_count` and is at least `THREAD_POOL_KEEP_ALIVE_TIMEOUT`
past it. -/
def clock_advanced (pool : threadpool) (now : Nat) : Prop :=
  pool.active_threads < pool.threads ∧ pool.last_tick_count ≤ now ∧
  now - pool.last_tick_count ≥ THREAD_POOL_KEEP_ALIVE_TIMEOUT

instance clock_advanced_decidable (pool : threadpool) (now : Nat) :
    Decidable (clock_advanced pool now) := by
  unfold clock_advanced; exact inferInstance

/-- A pool with initialised bands and a provider in which one granted slot has
not entered the drain loop and the last clock reading was 200000. -/
def pool_stale : threadpool :=
  { pool_init 1 with threads := 1, last_tick_count := 200000 }

/-! ## Lemmas on list entries and on well-formed queues -/

theorem chain_congr {m m1 : Mem} : ∀ (xs : List Ptr) (a b : Ptr),
    (∀ p ∈ a :: xs, (m1 p).next = (m p).next) →
    (∀ p ∈ xs ++ [b], (m1 p).prev = (m p).prev) →
    chain m a xs b → chain m1 a xs b
  | [], a, b, hn, hp, h => by
    simp only [chain] at h ⊢
    rw [hn a (by simp), hp b (by simp)]
    exact h
  | x :: xs, a, b, hn, hp, h => by
    simp only [chain] at h ⊢
    refine ⟨?_, ?_, ?_⟩
    · rw [hn a (by simp)]; exact h.1
    · rw [hp x (by simp)]; exact h.2.1
    · exact chain_congr xs x b (fun p hp1 => hn p (List.mem_cons_of_mem _ hp1))
        (fun p hp1 => hp p (by simp at hp1 ⊢; tauto)) h.2.2

theorem chain_prev_last {m : Mem} : ∀ (xs : List Ptr) (a b : Ptr),
    chain m a xs b → (m b).prev = (a :: xs).getLast (List.cons_ne_nil _ _)
  | [], a, b, h => by simpa [chain] using h.2
  | x :: xs, a, b, h => by
    simp only [chain] at h
    rw [chain_prev_last xs x b h.2.2]
    simp [List.getLast_cons]

/-- Memory after `list_insert_tail`. -/
theorem chain_insert_tail {m m1 : Mem} (head entry prev : Ptr) :
    ∀ (xs : List Ptr) (a : Ptr),
    (a :: xs).Nodup → entry ∉ a :: xs → head ∉ xs → entry ≠ head →
    prev = (a :: xs).getLast (List.cons_ne_nil _ _) →
    (∀ p, (m1 p).next = if p = prev then entry else if p = entry then head else (m p).next) →
    (∀ p, (m1 p).prev = if p = head then entry else if p = entry then prev else (m p).prev) →
    chain m a xs head → chain m1 a (xs ++ [entry]) head
  | [], a, hnd, he, hh, heh, hprev, hn, hp, h => by
    simp at hprev he
    subst hprev
    simp only [chain] at h
    simp only [List.nil_append, chain]
    refine ⟨by simp [hn], ?_, ?_, by simp [hp]⟩
    · rw [hp]; simp [heh]
    · rw [hn]; simp [he]
  | x :: xs, a, hnd, he, hh, heh, hprev, hn, hp, h => by
    simp only [chain] at h
    simp only [List.cons_append, chain]
    have hlast : prev ∈ x :: xs := by
      rw [hprev, List.getLast_cons (List.cons_ne_nil _ _)]
      exact List.getLast_mem _
    have hax : a ∉ x :: xs := (List.nodup_cons.mp hnd).1
    have hae : a ≠ entry := fun e => he (by simp [e])
    refine ⟨?_, ?_, ?_⟩
    · rw [hn]
      have : a ≠ prev := fun e => hax (e ▸ hlast)
      simp [this, hae, h.1]
    · rw [hp]
      have h1 : x ≠ head := fun e => hh (by simp [e])
      have h2 : x ≠ entry := fun e => he (by simp [e])
      simp [h1, h2, h.2.1]
    · refine chain_insert_tail head entry prev xs x (List.nodup_cons.mp hnd).2 ?_ ?_ heh ?_ hn hp h.2.2
      · intro hm; exact he (List.mem_cons_of_mem _ hm)
      · intro hm; exact hh (List.mem_cons_of_mem _ hm)
      · rw [hprev, List.getLast_cons (List.cons_ne_nil _ _)]


theorem list_init_eq (m : Mem) (e : Ptr) (he : e ≠ Ptr.null) :
    list_init m e = some (fun p => if p = e then { next := e, prev := e } else m p) := by
  simp only [list_init, store_prev, store_next, he, if_false, Option.bind_eq_bind,
    Option.some_bind, Option.some.injEq]
  funext p
  by_cases hp : p = e
  · subst hp; simp
  · simp [Function.update_apply, hp]

theorem list_empty_eq (m : Mem) (e : Ptr) (he : e ≠ Ptr.null) :
    list_empty m e = some (decide ((m e).next = e)) := by
  simp [list_empty, load, he]

theorem list_insert_tail_eq (m : Mem) (head entry : Ptr) (hh : head ≠ Ptr.null)
    (he : entry ≠ Ptr.null) (hp : (m head).prev ≠ Ptr.null) (heh : entry ≠ head)
    (hep : entry ≠ (m head).prev) :
    ∃ m1, list_insert_tail m head entry = some m1 ∧
      (∀ p, (m1 p).next = if p = (m head).prev then entry else if p = entry then head
        else (m p).next) ∧
      (∀ p, (m1 p).prev = if p = head then entry else if p = entry then (m head).prev
        else (m p).prev) := by
  simp only [list_insert_tail, load, store_prev, store_next, hh, he, hp, if_false,
    Option.bind_eq_bind, Option.some_bind]
  refine ⟨_, rfl, ?_, ?_⟩
  · intro p
    by_cases h1 : p = (m head).prev
    · subst h1
      by_cases h2 : (m head).prev = head
      · simp [Function.update_apply, h2]
      · simp [Function.update_apply, h2]
    · by_cases h2 : p = entry
      · subst h2
        simp [Function.update_apply, h1, heh]
      · by_cases h3 : p = head
        · subst h3; simp [Function.update_apply, h1, h2]
        · simp [Function.update_apply, h1, h2, h3]
  · intro p
    by_cases h3 : p = head
    · subst h3; simp [Function.update_apply]
    · by_cases h2 : p = entry
      · subst h2
        simp [Function.update_apply, h3, hep]
      · by_cases h1 : p = (m head).prev
        · subst h1
          simp [Function.update_apply, h2, h3]
        · simp [Function.update_apply, h1, h2, h3]

theorem list_remove_head_eq (m : Mem) (head : Ptr) (hh : head ≠ Ptr.null)
    (he : (m head).next ≠ Ptr.null) (hn : (m (m head).next).next ≠ Ptr.null) :
    ∃ m1, list_remove_head m head = some ((m head).next, m1) ∧
      (∀ p, (m1 p).next = if p = head then (m (m head).next).next else (m p).next) ∧
      (∀ p, (m1 p).prev = if p = (m (m head).next).next then head else (m p).prev) := by
  simp only [list_remove_head, load, store_prev, store_next, hh, he, hn, if_false,
    Option.bind_eq_bind, Option.some_bind]
  refine ⟨_, rfl, ?_, ?_⟩
  · intro p
    by_cases h1 : p = head
    · subst h1
      by_cases h2 : p = (m (m p).next).next
      · simp [Function.update_apply, ← h2]
      · simp [Function.update_apply, h2]
    · by_cases h2 : p = (m (m head).next).next
      · simp [Function.update_apply, h1, ← h2]
      · simp [Function.update_apply, h1, h2]
  · intro p
    by_cases h2 : p = (m (m head).next).next
    · simp [Function.update_apply, ← h2]
    · by_cases h1 : p = head
      · subst h1; simp [Function.update_apply, h2]
      · simp [Function.update_apply, h1, h2]


theorem chain_next_ne {m : Mem} : ∀ (xs : List Ptr) (a b : Ptr),
    chain m a xs b → (a :: xs).Nodup → b ∉ xs → ∀ p ∈ xs, (m p).next ≠ p
  | [], _, _, _, _, _, p, hp => by simp at hp
  | [x], a, b, h, hnd, hb, p, hp => by
    simp only [chain] at h
    simp at hp hb
    subst hp
    rw [h.2.2.1]
    exact hb
  | x :: y :: xs, a, b, h, hnd, hb, p, hp => by
    simp only [chain] at h
    have hnd2 : (x :: y :: xs).Nodup := (List.nodup_cons.mp hnd).2
    rcases List.mem_cons.mp hp with rfl | hp2
    · rw [h.2.2.1]
      intro e
      have : p ∉ y :: xs := (List.nodup_cons.mp hnd2).1
      exact this (by simp [e])
    · have hc : chain m x (y :: xs) b := by simp only [chain]; exact h.2.2
      exact chain_next_ne (y :: xs) x b hc hnd2
        (fun hm => hb (List.mem_cons_of_mem _ hm)) p hp2

theorem ring_nil_iff (m : Mem) (head : Ptr) :
    ring m head [] ↔ (m head).next = head ∧ (m head).prev = head := by
  simp [ring, chain]

theorem ring_cons_next {m : Mem} {head : Ptr} {x : Nat} {xs : List Nat}
    (h : ring m head (x :: xs)) : (m head).next = Ptr.link x := by
  simp only [ring, List.map_cons, chain] at h
  exact h.1

theorem map_link_nodup {xs : List Nat} (h : xs.Nodup) : (xs.map Ptr.link).Nodup :=
  List.Nodup.map (fun a b e => by injection e) h

theorem head_cons_nodup {head : Ptr} (hh : is_head head) {xs : List Nat} (h : xs.Nodup) :
    (head :: xs.map Ptr.link).Nodup := by
  refine List.nodup_cons.mpr ⟨?_, map_link_nodup h⟩
  intro hm
  obtain ⟨i, _, hi⟩ := List.mem_map.mp hm
  exact hh.2 i hi.symm

theorem head_not_mem {head : Ptr} (hh : is_head head) (xs : List Nat) :
    head ∉ xs.map Ptr.link := by
  intro hm
  obtain ⟨i, _, hi⟩ := List.mem_map.mp hm
  exact hh.2 i hi.symm

/-- An item that is linked into a band does not pass the test `list_empty`. -/
theorem ring_linked {m : Mem} {head : Ptr} (hh : is_head head) {xs : List Nat}
    (h : ring m head xs) (hnd : xs.Nodup) {x : Nat} (hx : x ∈ xs) :
    (m (Ptr.link x)).next ≠ Ptr.link x :=
  chain_next_ne _ head head h (head_cons_nodup hh hnd) (head_not_mem hh xs) _
    (List.mem_map_of_mem _ hx)

theorem last_mem_cons (head : Ptr) (xs : List Nat) :
    (head :: xs.map Ptr.link).getLast (List.cons_ne_nil _ _) = head ∨
    ∃ x ∈ xs, (head :: xs.map Ptr.link).getLast (List.cons_ne_nil _ _) = Ptr.link x := by
  have h := List.getLast_mem (List.cons_ne_nil head (xs.map Ptr.link))
  rcases List.mem_cons.mp h with e | hm
  · exact Or.inl e
  · obtain ⟨i, hi, e⟩ := List.mem_map.mp hm
    exact Or.inr ⟨i, hi, e.symm⟩

/-- Effect of `list_insert_tail` on a well-formed band, and what it leaves alone. -/
theorem ring_insert_tail {m : Mem} {head : Ptr} (hh : is_head head) {xs : List Nat}
    (h : ring m head xs) (hnd : xs.Nodup) {item : Nat} (hx : item ∉ xs) :
    ∃ m1, list_insert_tail m head (Ptr.link item) = some m1 ∧
      ring m1 head (xs ++ [item]) ∧
      (∀ head2 ys, is_head head2 → head2 ≠ head → ring m head2 ys →
        (∀ y ∈ ys, y ∉ xs ∧ y ≠ item) → ring m1 head2 ys) ∧
      (∀ j, j ∉ xs → j ≠ item → m1 (Ptr.link j) = m (Ptr.link j)) := by
  have hprev := chain_prev_last _ head head h
  have hlast := last_mem_cons head xs
  have hpn : (m head).prev ≠ Ptr.null := by
    rcases hlast with e | ⟨x, _, e⟩
    · rw [hprev, e]; exact hh.1
    · rw [hprev, e]; simp
  have hep : Ptr.link item ≠ (m head).prev := by
    rcases hlast with e | ⟨x, hxm, e⟩
    · rw [hprev, e]; exact (hh.2 item).symm
    · rw [hprev, e]; intro e2; injection e2 with e3; exact hx (e3 ▸ hxm)
  obtain ⟨m1, hm1, hn, hp⟩ := list_insert_tail_eq m head (Ptr.link item) hh.1 (by simp)
    hpn (hh.2 item).symm hep
  refine ⟨m1, hm1, ?_, ?_, ?_⟩
  · have := @chain_insert_tail m m1 head (Ptr.link item) (m head).prev
      (xs.map Ptr.link) head (head_cons_nodup hh hnd) ?_ (head_not_mem hh xs)
      (hh.2 item).symm hprev hn hp h
    · simpa [ring] using this
    · intro hm
      rcases List.mem_cons.mp hm with e | hm2
      · exact hh.2 item e.symm
      · obtain ⟨i, hi, e⟩ := List.mem_map.mp hm2
        injection e with e3; exact hx (e3 ▸ hi)
  · intro head2 ys hh2 hne hr hdis
    have hcase : ∀ p ∈ head2 :: ys.map Ptr.link,
        p ≠ (m head).prev ∧ p ≠ Ptr.link item ∧ p ≠ head := by
      intro p hpm
      rcases List.mem_cons.mp hpm with e | hm2
      · subst e
        refine ⟨?_, hh2.2 item, hne⟩
        rcases hlast with e | ⟨x, _, e⟩
        · rw [hprev, e]; exact hne
        · rw [hprev, e]; exact hh2.2 x
      · obtain ⟨i, hi, e⟩ := List.mem_map.mp hm2
        subst e
        refine ⟨?_, ?_, (hh.2 i).symm⟩
        · rcases hlast with e | ⟨x, hxm, e⟩
          · rw [hprev, e]; exact (hh.2 i).symm
          · rw [hprev, e]; intro e2; injection e2 with e3
            exact (hdis i hi).1 (e3 ▸ hxm)
        · intro e2; injection e2 with e3; exact (hdis i hi).2 e3
    refine chain_congr _ head2 head2 ?_ ?_ hr
    · intro p hpm
      obtain ⟨h1, h2, _⟩ := hcase p hpm
      rw [hn]; simp [h1, h2]
    · intro p hpm
      have hpm2 : p ∈ head2 :: ys.map Ptr.link := by
        simp only [List.mem_append, List.mem_singleton] at hpm
        rcases hpm with h1 | h1
        · exact List.mem_cons_of_mem _ h1
        · simp [h1]
      obtain ⟨_, h2, h3⟩ := hcase p hpm2
      rw [hp]; simp [h2, h3]
  · intro j hj hji
    have h1 : Ptr.link j ≠ (m head).prev := by
      rcases hlast with e | ⟨x, hxm, e⟩
      · rw [hprev, e]; exact (hh.2 j).symm
      · rw [hprev, e]; intro e2; injection e2 with e3; exact hj (e3 ▸ hxm)
    have h2 : Ptr.link j ≠ Ptr.link item := by
      intro e2; injection e2 with e3; exact hji e3
    have h3 : Ptr.link j ≠ head := (hh.2 j).symm
    have e1 := hn (Ptr.link j)
    have e2 := hp (Ptr.link j)
    simp only [h1, h2, h3, if_false] at e1 e2
    cases hc : m1 (Ptr.link j) with
    | mk a b =>
      cases hd : m (Ptr.link j) with
      | mk c d =>
        rw [hc, hd] at e1 e2
        simp at e1 e2
        rw [e1, e2]


theorem entry_ext {a b : list_entry} (h1 : a.next = b.next) (h2 : a.prev = b.prev) : a = b := by
  cases a; cases b; simp at h1 h2; simp [h1, h2]

/-- A band is untouched by stores that leave its head and its items alone. -/
theorem ring_frame {m m1 : Mem} {head : Ptr} {xs : List Nat} (h : ring m head xs)
    (hhead : m1 head = m head) (hitems : ∀ x ∈ xs, m1 (Ptr.link x) = m (Ptr.link x)) :
    ring m1 head xs := by
  have hall : ∀ p ∈ head :: xs.map Ptr.link, m1 p = m p := by
    intro p hp
    rcases List.mem_cons.mp hp with e | hm
    · rw [e]; exact hhead
    · obtain ⟨i, hi, e⟩ := List.mem_map.mp hm
      rw [← e]; exact hitems i hi
  refine chain_congr _ head head (fun p hp => by rw [hall p hp]) ?_ h
  intro p hp
  have : p ∈ head :: xs.map Ptr.link := by
    simp only [List.mem_append, List.mem_singleton] at hp
    rcases hp with h1 | h1
    · exact List.mem_cons_of_mem _ h1
    · simp [h1]
  rw [hall p this]

/-- Effect of `list_remove_head` on a well-formed, non-empty band. -/
theorem ring_remove_head {m : Mem} {head : Ptr} (hh : is_head head) {x : Nat} {xs : List Nat}
    (h : ring m head (x :: xs)) (hnd : (x :: xs).Nodup) :
    ∃ m1, list_remove_head m head = some (Ptr.link x, m1) ∧
      ring m1 head xs ∧
      (∀ head2 ys, is_head head2 → head2 ≠ head → ring m head2 ys →
        (∀ y ∈ ys, y ∉ xs) → ring m1 head2 ys) ∧
      (∀ j, j ∉ xs → m1 (Ptr.link j) = m (Ptr.link j)) := by
  have hnext : (m head).next = Ptr.link x := ring_cons_next h
  have hx : x ∉ xs := (List.nodup_cons.mp hnd).1
  have hxs : xs.Nodup := (List.nodup_cons.mp hnd).2
  -- the successor of the removed entry
  have hnx : (m (Ptr.link x)).next = head ∧ xs = [] ∨
      ∃ y ys, xs = y :: ys ∧ (m (Ptr.link x)).next = Ptr.link y := by
    cases xs with
    | nil =>
      simp only [ring, List.map_cons, List.map_nil, chain] at h
      exact Or.inl ⟨h.2.2.1, rfl⟩
    | cons y ys =>
      simp only [ring, List.map_cons, chain] at h
      exact Or.inr ⟨y, ys, rfl, h.2.2.1⟩
  have hnn : (m (m head).next).next ≠ Ptr.null := by
    rw [hnext]
    rcases hnx with ⟨e, _⟩ | ⟨y, ys, _, e⟩
    · rw [e]; exact hh.1
    · rw [e]; simp
  obtain ⟨m1, hm1, hn, hp⟩ := list_remove_head_eq m head hh.1 (by rw [hnext]; simp) hnn
  rw [hnext] at hm1 hn hp
  have hcell : ∀ p, p ≠ head → p ≠ (m (Ptr.link x)).next → m1 p = m p := by
    intro p h1 h2
    exact entry_ext (by rw [hn]; simp [h1]) (by rw [hp]; simp [h2])
  refine ⟨m1, hm1, ?_, ?_, ?_⟩
  · rcases hnx with ⟨e, rfl⟩ | ⟨y, ys, rfl, e⟩
    · rw [e] at hn hp
      rw [ring_nil_iff]
      exact ⟨by rw [hn]; simp, by rw [hp]; simp⟩
    · rw [e] at hn hp
      simp only [ring, List.map_cons, chain] at h ⊢
      refine ⟨by rw [hn]; simp, by rw [hp]; simp, ?_⟩
      have hy : y ∉ ys := (List.nodup_cons.mp hxs).1
      refine chain_congr _ _ _ ?_ ?_ h.2.2.2.2
      · intro p hpm
        have : p ≠ head := by
          rcases List.mem_cons.mp hpm with e1 | hm
          · rw [e1]; exact (hh.2 y).symm
          · intro e1; exact head_not_mem hh ys (e1 ▸ hm)
        rw [hn]; simp [this]
      · intro p hpm
        have : p ≠ Ptr.link y := by
          simp only [List.mem_append, List.mem_singleton] at hpm
          rcases hpm with hm | e1
          · obtain ⟨i, hi, e2⟩ := List.mem_map.mp hm
            rw [← e2]; intro e3; injection e3 with e4; exact hy (e4 ▸ hi)
          · rw [e1]; exact hh.2 y
        rw [hp]; simp [this]
  · intro head2 ys hh2 hne hr hdis
    refine ring_frame hr (hcell _ hne ?_) ?_
    · rcases hnx with ⟨e, _⟩ | ⟨y, ys, _, e⟩
      · rw [e]; exact hne
      · rw [e]; exact hh2.2 y
    · intro i hi
      refine hcell _ (hh.2 i).symm ?_
      rcases hnx with ⟨e, _⟩ | ⟨y, ys2, e0, e⟩
      · rw [e]; exact (hh.2 i).symm
      · rw [e]; intro e3; injection e3 with e4
        exact hdis i hi (by rw [e0, e4]; simp)
  · intro j hj
    refine hcell _ (hh.2 j).symm ?_
    rcases hnx with ⟨e, _⟩ | ⟨y, ys2, e0, e⟩
    · rw [e]; exact (hh.2 j).symm
    · rw [e]; intro e3; injection e3 with e4
      exact hj (by rw [e0, e4]; simp)

theorem is_head_normal : is_head Ptr.queue_normal := ⟨by simp, by simp⟩
theorem is_head_low : is_head Ptr.queue_low := ⟨by simp, by simp⟩
theorem is_head_high : is_head Ptr.queue_high := ⟨by simp, by simp⟩


theorem list_empty_ring {m : Mem} {head : Ptr} (hh : is_head head) {xs : List Nat}
    (h : ring m head xs) : list_empty m head = some (decide (xs = [])) := by
  rw [list_empty_eq m head hh.1]
  cases xs with
  | nil => simp [(ring_nil_iff m head).mp h]
  | cons x xs => simp [ring_cons_next h, (hh.2 x).symm]

theorem queue_wf.nodup_high {q : threadpool_queue} {hi no lo : List Nat}
    (h : queue_wf q hi no lo) : hi.Nodup := by
  have := h.nodup
  simp only [List.nodup_append] at this
  exact this.1.1

theorem queue_wf.nodup_normal {q : threadpool_queue} {hi no lo : List Nat}
    (h : queue_wf q hi no lo) : no.Nodup := by
  have := h.nodup
  simp only [List.nodup_append] at this
  exact this.1.2.1

theorem queue_wf.nodup_low {q : threadpool_queue} {hi no lo : List Nat}
    (h : queue_wf q hi no lo) : lo.Nodup := by
  have := h.nodup
  simp only [List.nodup_append] at this
  exact this.2.1

theorem queue_wf.disjoint {q : threadpool_queue} {hi no lo : List Nat}
    (h : queue_wf q hi no lo) :
    (∀ x ∈ hi, x ∉ no ∧ x ∉ lo) ∧ (∀ x ∈ no, x ∉ hi ∧ x ∉ lo) ∧ (∀ x ∈ lo, x ∉ hi ∧ x ∉ no) := by
  have := h.nodup
  simp only [List.nodup_append, List.Disjoint, List.mem_append] at this
  obtain ⟨⟨_, _, h1⟩, _, h2⟩ := this
  refine ⟨fun x hx => ⟨fun hn => h1 hx hn, fun hl => h2 (Or.inl hx) hl⟩,
    fun x hx => ⟨fun hn => h1 hn hx, fun hl => h2 (Or.inr hx) hl⟩,
    fun x hx => ⟨fun hn => h2 (Or.inl hn) hx, fun hl => h2 (Or.inr hl) hx⟩⟩

theorem threadpool_queue_isvalid_wf {q : threadpool_queue} {hi no lo : List Nat}
    (h : queue_wf q hi no lo) : threadpool_queue_isvalid q = some true := by
  simp only [threadpool_queue_isvalid, list_empty_ring is_head_normal h.ring_normal,
    list_empty_ring is_head_low h.ring_low, list_empty_ring is_head_high h.ring_high,
    Option.bind_eq_bind, Option.some_bind]
  have hs := h.size_eq
  cases hi <;> cases no <;> cases lo <;> simp at hs ⊢ <;> omega

theorem threadpool_queue_isempty_wf {q : threadpool_queue} {hi no lo : List Nat}
    (h : queue_wf q hi no lo) :
    threadpool_queue_isempty q = some (decide (q.size = 0), []) := by
  simp [threadpool_queue_isempty, threadpool_queue_isvalid_wf h, check]

/-- An item that passes the test `list_empty` is in no band of a well-formed queue. -/
theorem queue_wf.unlinked_not_mem {q : threadpool_queue} {hi no lo : List Nat}
    (h : queue_wf q hi no lo) {item : Nat}
    (hu : (q.mem (Ptr.link item)).next = Ptr.link item) :
    item ∉ hi ∧ item ∉ no ∧ item ∉ lo :=
  ⟨fun hm => ring_linked is_head_high h.ring_high h.nodup_high hm hu,
   fun hm => ring_linked is_head_normal h.ring_normal h.nodup_normal hm hu,
   fun hm => ring_linked is_head_low h.ring_low h.nodup_low hm hu⟩


theorem inc32_eq {x : Nat} (h : x + 1 < UINT32) : inc32 x = x + 1 := by
  unfold inc32; exact Nat.mod_eq_of_lt h

theorem dec32_eq {x : Nat} (h0 : 0 < x) (h : x < UINT32) : dec32 x = x - 1 := by
  unfold dec32
  have e : x + (UINT32 - 1) = (x - 1) + UINT32 := by unfold UINT32 at *; omega
  rw [e, Nat.add_mod_right]
  exact Nat.mod_eq_of_lt (by omega)

/-- Refinement of `threadpool_queue_push` on a well-formed queue. -/
theorem threadpool_queue_push_wf {q : threadpool_queue} {hi no lo : List Nat}
    (h : queue_wf q hi no lo) (item priority : Nat)
    (hu : (q.mem (Ptr.link item)).next = Ptr.link item) (hsz : q.size + 1 < UINT32) :
    ∃ q1, threadpool_queue_push q item priority = some (q1, []) ∧
      queue_wf q1 (pushed_high priority item hi) (pushed_normal priority item no)
        (pushed_low priority item lo) ∧
      q1.size = q.size + 1 ∧
      (∀ j, j ∉ hi → j ∉ no → j ∉ lo → j ≠ item → q1.mem (Ptr.link j) = q.mem (Ptr.link j)) := by
  obtain ⟨nhi, nno, nlo⟩ := h.unlinked_not_mem hu
  obtain ⟨dhi, dno, dlo⟩ := h.disjoint
  have hnd := h.nodup
  have hse := h.size_eq
  have hle : list_empty q.mem (Ptr.link item) = some true := by
    rw [list_empty_eq _ _ (by simp)]; simp [hu]
  by_cases hL : priority = THREAD_POOL_PRIORITY_LOW
  · obtain ⟨m1, hm1, r1, fr, fc⟩ := ring_insert_tail is_head_low h.ring_low h.nodup_low nlo
    have hw : queue_wf { mem := m1, size := inc32 q.size } hi no (lo ++ [item]) := by
      refine ⟨fr _ _ is_head_high (by simp) h.ring_high (fun y hy => ⟨(dhi y hy).2, ?_⟩),
        fr _ _ is_head_normal (by simp) h.ring_normal (fun y hy => ⟨(dno y hy).2, ?_⟩),
        r1, ?_, ?_, ?_⟩
      · rintro rfl; exact nhi hy
      · rintro rfl; exact nno hy
      · rw [← List.append_assoc]
        refine List.Nodup.append hnd (by simp) ?_
        simp only [List.disjoint_singleton, List.mem_append]
        tauto
      · simp [inc32_eq hsz]; omega
      · rw [inc32_eq hsz]; exact hsz
    refine ⟨{ mem := m1, size := inc32 q.size }, ?_, ?_, inc32_eq hsz, fun j _ _ h3 h4 => fc j h3 h4⟩
    · simp only [threadpool_queue_push, hle, hL, hm1, threadpool_queue_isvalid_wf hw, check,
        Option.bind_eq_bind, Option.some_bind]
      rfl
    · have e9 : THREAD_POOL_PRIORITY_LOW ≠ THREAD_POOL_PRIORITY_HIGH := by decide
      simpa [pushed_high, pushed_normal, pushed_low, hL, e9] using hw
  · by_cases hH : priority = THREAD_POOL_PRIORITY_HIGH
    · obtain ⟨m1, hm1, r1, fr, fc⟩ := ring_insert_tail is_head_high h.ring_high h.nodup_high nhi
      have hw : queue_wf { mem := m1, size := inc32 q.size } (hi ++ [item]) no lo := by
        refine ⟨r1,
          fr _ _ is_head_normal (by simp) h.ring_normal (fun y hy => ⟨(dno y hy).1, ?_⟩),
          fr _ _ is_head_low (by simp) h.ring_low (fun y hy => ⟨(dlo y hy).1, ?_⟩),
          ?_, ?_, ?_⟩
        · rintro rfl; exact nno hy
        · rintro rfl; exact nlo hy
        · have e : hi ++ [item] ++ no ++ lo = hi ++ ([item] ++ (no ++ lo)) := by simp
          rw [e]
          have hnd2 : (hi ++ (no ++ lo)).Nodup := by simpa using hnd
          simp only [List.nodup_append, List.Disjoint, List.mem_append] at hnd2 ⊢
          refine ⟨hnd2.1, ⟨by simp, hnd2.2.1, ?_⟩, ?_⟩
          · intro a ha; simp at ha; subst ha; tauto
          · intro a ha hb
            rcases hb with hb | hb
            · simp at hb; subst hb; exact nhi ha
            · exact hnd2.2.2 ha hb
        · simp [inc32_eq hsz]; omega
        · rw [inc32_eq hsz]; exact hsz
      refine ⟨{ mem := m1, size := inc32 q.size }, ?_, ?_, inc32_eq hsz, fun j h1 _ _ h4 => fc j h1 h4⟩
      · simp only [threadpool_queue_push, hle, hL, hH, hm1, threadpool_queue_isvalid_wf hw,
          check, Option.bind_eq_bind, Option.some_bind]
        rfl
      · have e9 : THREAD_POOL_PRIORITY_HIGH ≠ THREAD_POOL_PRIORITY_LOW := by decide
        simpa [pushed_high, pushed_normal, pushed_low, hH, e9] using hw
    · obtain ⟨m1, hm1, r1, fr, fc⟩ :=
        ring_insert_tail is_head_normal h.ring_normal h.nodup_normal nno
      have hw : queue_wf { mem := m1, size := inc32 q.size } hi (no ++ [item]) lo := by
        refine ⟨fr _ _ is_head_high (by simp) h.ring_high (fun y hy => ⟨(dhi y hy).1, ?_⟩),
          r1,
          fr _ _ is_head_low (by simp) h.ring_low (fun y hy => ⟨(dlo y hy).2, ?_⟩),
          ?_, ?_, ?_⟩
        · rintro rfl; exact nhi hy
        · rintro rfl; exact nlo hy
        · have e : hi ++ (no ++ [item]) ++ lo = (hi ++ no) ++ ([item] ++ lo) := by simp
          rw [e]
          simp only [List.nodup_append, List.Disjoint, List.mem_append] at hnd ⊢
          refine ⟨hnd.1, ⟨by simp, hnd.2.1, ?_⟩, ?_⟩
          · intro a ha; simp at ha; subst ha; exact nlo
          · intro a ha hb
            rcases hb with hb | hb
            · simp at hb; subst hb; tauto
            · exact hnd.2.2 ha hb
        · simp [inc32_eq hsz]; omega
        · rw [inc32_eq hsz]; exact hsz
      refine ⟨{ mem := m1, size := inc32 q.size }, ?_, ?_, inc32_eq hsz, fun j _ h2 _ h4 => fc j h2 h4⟩
      · simp only [threadpool_queue_push, hle, hL, hH, hm1, threadpool_queue_isvalid_wf hw,
          check, Option.bind_eq_bind, Option.some_bind]
        rfl
      · simpa [pushed_high, pushed_normal, pushed_low, hL, hH] using hw


/-- Refinement of `threadpool_queue_pop`: the head of band high is popped. -/
theorem threadpool_queue_pop_high {q : threadpool_queue} {x : Nat} {hi no lo : List Nat}
    (h : queue_wf q (x :: hi) no lo) :
    ∃ q1, threadpool_queue_pop q = some (Ptr.link x, q1, []) ∧
      queue_wf q1 hi no lo ∧
      q1.mem (Ptr.link x) = { next := Ptr.link x, prev := Ptr.link x } ∧
      q1.size + 1 = q.size ∧
      (∀ j, j ∉ hi → j ∉ no → j ∉ lo → j ≠ x → q1.mem (Ptr.link j) = q.mem (Ptr.link j)) := by
  obtain ⟨dhi, dno, dlo⟩ := h.disjoint
  have hnd := h.nodup
  have hse := h.size_eq
  have hsl := h.size_lt
  have hpos : 0 < q.size := by rw [hse]; simp
  obtain ⟨m1, hm1, r1, fr, fc⟩ := ring_remove_head is_head_high h.ring_high h.nodup_high
  have hxn : x ∉ hi ∧ x ∉ no ∧ x ∉ lo := by
    have n1 := h.nodup_high
    have n2 := h.nodup_normal
    have n3 := h.nodup_low
    have d1 := dhi x
    have d2 := dno x
    have d3 := dlo x
    simp only [List.nodup_cons, List.mem_cons, List.not_mem_nil, true_or, false_or,
      not_false_eq_true, true_and, forall_const, false_implies] at n1 n2 n3 d1 d2 d3 ⊢
    tauto
  let m2 : Mem := fun p => if p = Ptr.link x then { next := Ptr.link x, prev := Ptr.link x }
    else m1 p
  have hm2 : list_init m1 (Ptr.link x) = some m2 := list_init_eq m1 _ (by simp)
  have hcell : ∀ j, j ≠ x → m2 (Ptr.link j) = m1 (Ptr.link j) := by
    intro j hj
    have : Ptr.link j ≠ Ptr.link x := by intro e; injection e with e; exact hj e
    simp [m2, this]
  have hw : queue_wf { mem := m2, size := dec32 q.size } hi no lo := by
    refine ⟨?_, ?_, ?_, ?_, ?_, ?_⟩
    · refine ring_frame r1 (by simp [m2]) (fun y hy => hcell y ?_)
      rintro rfl; exact hxn.1 hy
    · refine ring_frame (fr _ _ is_head_normal (by simp) h.ring_normal (fun y hy => (dno y hy).1 ∘ List.mem_cons_of_mem _)) (by simp [m2]) (fun y hy => hcell y ?_)
      rintro rfl; exact hxn.2.1 hy
    · refine ring_frame (fr _ _ is_head_low (by simp) h.ring_low (fun y hy => (dlo y hy).1 ∘ List.mem_cons_of_mem _)) (by simp [m2]) (fun y hy => hcell y ?_)
      rintro rfl; exact hxn.2.2 hy
    · have e : x :: hi ++ no ++ lo = x :: (hi ++ no ++ lo) := by simp
      rw [e] at hnd; exact (List.nodup_cons.mp hnd).2
    · show dec32 q.size = _
      rw [dec32_eq hpos hsl, hse]
      simp only [List.length_cons, List.length_nil]
      omega
    · show dec32 q.size < _
      rw [dec32_eq hpos hsl]; omega
  refine ⟨{ mem := m2, size := dec32 q.size }, ?_, hw, by simp [m2], ?_, ?_⟩
  · have hne : q.size ≠ 0 := by omega
    simp only [threadpool_queue_pop, threadpool_queue_isvalid_wf h, check, hne, pop_entry,
      list_empty_ring is_head_high h.ring_high,
      hm1, Option.bind_eq_bind, Option.some_bind]
    simp [hm2, threadpool_queue_isvalid_wf hw]
  · show dec32 q.size + 1 = q.size
    rw [dec32_eq hpos hsl]; omega
  · intro j h1 h2 h3 h4
    show m2 (Ptr.link j) = q.mem (Ptr.link j)
    rw [hcell j h4]
    exact fc j h1

/-- Refinement of `threadpool_queue_pop`: the head of band normal is popped when band HIGH is empty. -/
theorem threadpool_queue_pop_normal {q : threadpool_queue} {x : Nat} {no lo : List Nat}
    (h : queue_wf q [] (x :: no) lo) :
    ∃ q1, threadpool_queue_pop q = some (Ptr.link x, q1, []) ∧
      queue_wf q1 ([] : List Nat) no lo ∧
      q1.mem (Ptr.link x) = { next := Ptr.link x, prev := Ptr.link x } ∧
      q1.size + 1 = q.size ∧
      (∀ j, j ∉ ([] : List Nat) → j ∉ no → j ∉ lo → j ≠ x →
        q1.mem (Ptr.link j) = q.mem (Ptr.link j)) := by
  obtain ⟨dhi, dno, dlo⟩ := h.disjoint
  have hnd := h.nodup
  have hse := h.size_eq
  have hsl := h.size_lt
  have hpos : 0 < q.size := by rw [hse]; simp
  obtain ⟨m1, hm1, r1, fr, fc⟩ := ring_remove_head is_head_normal h.ring_normal h.nodup_normal
  have hxn : x ∉ ([] : List Nat) ∧ x ∉ no ∧ x ∉ lo := by
    have n1 := h.nodup_high
    have n2 := h.nodup_normal
    have n3 := h.nodup_low
    have d1 := dhi x
    have d2 := dno x
    have d3 := dlo x
    simp only [List.nodup_cons, List.mem_cons, List.not_mem_nil, true_or, false_or,
      not_false_eq_true, true_and, forall_const, false_implies] at n1 n2 n3 d1 d2 d3 ⊢
    tauto
  let m2 : Mem := fun p => if p = Ptr.link x then { next := Ptr.link x, prev := Ptr.link x }
    else m1 p
  have hm2 : list_init m1 (Ptr.link x) = some m2 := list_init_eq m1 _ (by simp)
  have hcell : ∀ j, j ≠ x → m2 (Ptr.link j) = m1 (Ptr.link j) := by
    intro j hj
    have : Ptr.link j ≠ Ptr.link x := by intro e; injection e with e; exact hj e
    simp [m2, this]
  have hw : queue_wf { mem := m2, size := dec32 q.size } ([] : List Nat) no lo := by
    refine ⟨?_, ?_, ?_, ?_, ?_, ?_⟩
    · refine ring_frame (fr _ _ is_head_high (by simp) h.ring_high (fun y hy => by simp at hy)) (by simp [m2]) (fun y hy => hcell y ?_)
      rintro rfl; exact hxn.1 hy
    · refine ring_frame r1 (by simp [m2]) (fun y hy => hcell y ?_)
      rintro rfl; exact hxn.2.1 hy
    · refine ring_frame (fr _ _ is_head_low (by simp) h.ring_low (fun y hy => (dlo y hy).2 ∘ List.mem_cons_of_mem _)) (by simp [m2]) (fun y hy => hcell y ?_)
      rintro rfl; exact hxn.2.2 hy
    · have e : [] ++ (x :: no) ++ lo = x :: ([] ++ no ++ lo) := by simp
      rw [e] at hnd; exact (List.nodup_cons.mp hnd).2
    · show dec32 q.size = _
      rw [dec32_eq hpos hsl, hse]
      simp only [List.length_cons, List.length_nil]
      omega
    · show dec32 q.size < _
      rw [dec32_eq hpos hsl]; omega
  refine ⟨{ mem := m2, size := dec32 q.size }, ?_, hw, by simp [m2], ?_, ?_⟩
  · have hne : q.size ≠ 0 := by omega
    simp only [threadpool_queue_pop, threadpool_queue_isvalid_wf h, check, hne, pop_entry,
      list_empty_ring is_head_high h.ring_high, list_empty_ring is_head_normal h.ring_normal,
      hm1, Option.bind_eq_bind, Option.some_bind]
    simp [hm2, threadpool_queue_isvalid_wf hw]
  · show dec32 q.size + 1 = q.size
    rw [dec32_eq hpos hsl]; omega
  · intro j h1 h2 h3 h4
    show m2 (Ptr.link j) = q.mem (Ptr.link j)
    rw [hcell j h4]
    exact fc j h2

/-- Refinement of `threadpool_queue_pop`: the head of band low is popped when bands HIGH and NORMAL are empty. -/
theorem threadpool_queue_pop_low {q : threadpool_queue} {x : Nat} {lo : List Nat}
    (h : queue_wf q [] [] (x :: lo)) :
    ∃ q1, threadpool_queue_pop q = some (Ptr.link x, q1, []) ∧
      queue_wf q1 ([] : List Nat) ([] : List Nat) lo ∧
      q1.mem (Ptr.link x) = { next := Ptr.link x, prev := Ptr.link x } ∧
      q1.size + 1 = q.size ∧
      (∀ j, j ∉ ([] : List Nat) → j ∉ ([] : List Nat) → j ∉ lo → j ≠ x →
        q1.mem (Ptr.link j) = q.mem (Ptr.link j)) := by
  obtain ⟨dhi, dno, dlo⟩ := h.disjoint
  have hnd := h.nodup
  have hse := h.size_eq
  have hsl := h.size_lt
  have hpos : 0 < q.size := by rw [hse]; simp
  obtain ⟨m1, hm1, r1, fr, fc⟩ := ring_remove_head is_head_low h.ring_low h.nodup_low
  have hxn : x ∉ ([] : List Nat) ∧ x ∉ ([] : List Nat) ∧ x ∉ lo := by
    have n1 := h.nodup_high
    have n2 := h.nodup_normal
    have n3 := h.nodup_low
    have d1 := dhi x
    have d2 := dno x
    have d3 := dlo x
    simp only [List.nodup_cons, List.mem_cons, List.not_mem_nil, true_or, false_or,
      not_false_eq_true, true_and, forall_const, false_implies] at n1 n2 n3 d1 d2 d3 ⊢
    tauto
  let m2 : Mem := fun p => if p = Ptr.link x then { next := Ptr.link x, prev := Ptr.link x }
    else m1 p
  have hm2 : list_init m1 (Ptr.link x) = some m2 := list_init_eq m1 _ (by simp)
  have hcell : ∀ j, j ≠ x → m2 (Ptr.link j) = m1 (Ptr.link j) := by
    intro j hj
    have : Ptr.link j ≠ Ptr.link x := by intro e; injection e with e; exact hj e
    simp [m2, this]
  have hw : queue_wf { mem := m2, size := dec32 q.size } ([] : List Nat) ([] : List Nat) lo := by
    refine ⟨?_, ?_, ?_, ?_, ?_, ?_⟩
    · refine ring_frame (fr _ _ is_head_high (by simp) h.ring_high (fun y hy => by simp at hy)) (by simp [m2]) (fun y hy => hcell y ?_)
      rintro rfl; exact hxn.1 hy
    · refine ring_frame (fr _ _ is_head_normal (by simp) h.ring_normal (fun y hy => by simp at hy)) (by simp [m2]) (fun y hy => hcell y ?_)
      rintro rfl; exact hxn.2.1 hy
    · refine ring_frame r1 (by simp [m2]) (fun y hy => hcell y ?_)
      rintro rfl; exact hxn.2.2 hy
    · have e : [] ++ [] ++ (x :: lo) = x :: ([] ++ [] ++ lo) := by simp
      rw [e] at hnd; exact (List.nodup_cons.mp hnd).2
    · show dec32 q.size = _
      rw [dec32_eq hpos hsl, hse]
      simp only [List.length_cons, List.length_nil]
      omega
    · show dec32 q.size < _
      rw [dec32_eq hpos hsl]; omega
  refine ⟨{ mem := m2, size := dec32 q.size }, ?_, hw, by simp [m2], ?_, ?_⟩
  · have hne : q.size ≠ 0 := by omega
    simp only [threadpool_queue_pop, threadpool_queue_isvalid_wf h, check, hne, pop_entry,
      list_empty_ring is_head_high h.ring_high, list_empty_ring is_head_normal h.ring_normal,
      list_empty_ring is_head_low h.ring_low,
      hm1, Option.bind_eq_bind, Option.some_bind]
    simp [hm2, threadpool_queue_isvalid_wf hw]
  · show dec32 q.size + 1 = q.size
    rw [dec32_eq hpos hsl]; omega
  · intro j h1 h2 h3 h4
    show m2 (Ptr.link j) = q.mem (Ptr.link j)
    rw [hcell j h4]
    exact fc j h3

/-- Refinement of `threadpool_queue_pop` on a well-formed empty queue. -/
theorem threadpool_queue_pop_nil {q : threadpool_queue} (h : queue_wf q [] [] []) :
    threadpool_queue_pop q = some (Ptr.null, q, []) := by
  have hs : q.size = 0 := by simpa using h.size_eq
  simp [threadpool_queue_pop, threadpool_queue_isvalid_wf h, check, hs]

/-! ## The drain loop on a well-formed queue -/

/-- Refinement of `threadpool_queue_pop` on a well-formed queue that is not
empty: the first item in pop order is returned. -/
theorem threadpool_queue_pop_wf {q : threadpool_queue} {hi no lo : List Nat}
    (h : queue_wf q hi no lo) {x : Nat} {rest : List Nat}
    (hx : pop_order hi no lo = x :: rest) :
    ∃ q1 hi1 no1 lo1, threadpool_queue_pop q = some (Ptr.link x, q1, []) ∧
      queue_wf q1 hi1 no1 lo1 ∧ pop_order hi1 no1 lo1 = rest ∧
      q1.size + 1 = q.size ∧ unlinked q1.mem x ∧
      (∀ j, j ∉ x :: rest → q1.mem (Ptr.link j) = q.mem (Ptr.link j)) ∧
      ((hi1 = hi.tail ∧ no1 = no ∧ lo1 = lo ∧ hi ≠ []) ∨
       (hi = [] ∧ hi1 = [] ∧ no1 = no.tail ∧ lo1 = lo ∧ no ≠ []) ∨
       (hi = [] ∧ no = [] ∧ hi1 = [] ∧ no1 = [] ∧ lo1 = lo.tail ∧ lo ≠ [])) := by
  unfold pop_order at hx
  cases hi with
  | cons a hi =>
    simp only [List.cons_append, List.cons.injEq] at hx
    obtain ⟨rfl, rfl⟩ := hx
    obtain ⟨q1, e, w, u, s, f⟩ := threadpool_queue_pop_high h
    refine ⟨q1, hi, no, lo, e, w, rfl, s, u, ?_, Or.inl ⟨rfl, rfl, rfl, by simp⟩⟩
    intro j hj
    simp only [List.mem_cons, List.mem_append, not_or] at hj
    exact f j hj.2.1.1 hj.2.1.2 hj.2.2 hj.1
  | nil =>
    cases no with
    | cons a no =>
      simp only [List.nil_append, List.cons_append, List.cons.injEq] at hx
      obtain ⟨rfl, rfl⟩ := hx
      obtain ⟨q1, e, w, u, s, f⟩ := threadpool_queue_pop_normal h
      refine ⟨q1, [], no, lo, e, w, rfl, s, u, ?_, Or.inr (Or.inl ⟨rfl, rfl, rfl, rfl, by simp⟩)⟩
      intro j hj
      simp only [List.mem_cons, List.mem_append, not_or] at hj
      exact f j (by simp) hj.2.1 hj.2.2 hj.1
    | nil =>
      cases lo with
      | cons a lo =>
        simp only [List.nil_append, List.cons.injEq] at hx
        obtain ⟨rfl, rfl⟩ := hx
        obtain ⟨q1, e, w, u, s, f⟩ := threadpool_queue_pop_low h
        refine ⟨q1, [], [], lo, e, w, rfl, s, u, ?_,
          Or.inr (Or.inr ⟨rfl, rfl, rfl, rfl, rfl, by simp⟩)⟩
        intro j hj
        simp only [List.mem_cons, not_or] at hj
        exact f j (by simp) (by simp) hj.2 hj.1
      | nil => simp at hx

theorem pop_order_nil {hi no lo : List Nat} (h : pop_order hi no lo = []) :
    hi = [] ∧ no = [] ∧ lo = [] := by
  unfold pop_order at h
  simp only [List.append_eq_nil] at h
  exact ⟨h.1.1, h.1.2, h.2⟩

theorem queue_wf.length_lt {q : threadpool_queue} {hi no lo : List Nat}
    (h : queue_wf q hi no lo) : (pop_order hi no lo).length < UINT32 := by
  have := h.size_eq
  have := h.size_lt
  simp only [pop_order, List.length_append]
  omega

/-- One pass of the drain loop on a well-formed queue that is not empty. -/
theorem dequeue_iteration_cons {pool : threadpool} {hi no lo : List Nat}
    (h : queue_wf pool.queue hi no lo) {x : Nat} {rest : List Nat}
    (hx : pop_order hi no lo = x :: rest)
    (h1 : 1 ≤ pool.threads) (h2 : pool.active_threads ≤ pool.threads)
    (h3 : pool.shutdown_state ≠ SHUTDOWN_STATE_COMPLETE) :
    ∃ q1 hi1 no1 lo1, dequeue_iteration pool
        = Iteration.item { pool with queue := q1 } (item_callbacks pool.shutdown_state x) ∧
      queue_wf q1 hi1 no1 lo1 ∧ pop_order hi1 no1 lo1 = rest ∧
      q1.size + 1 = pool.queue.size ∧ unlinked q1.mem x ∧
      (∀ j, j ∉ x :: rest → q1.mem (Ptr.link j) = pool.queue.mem (Ptr.link j)) := by
  obtain ⟨q1, hi1, no1, lo1, e, w, po, s, u, f, _⟩ := threadpool_queue_pop_wf h hx
  refine ⟨q1, hi1, no1, lo1, ?_, w, po, s, u, f⟩
  simp [dequeue_iteration, e, check, h1, h2, h3, item_callbacks]

/-- The last pass of the drain loop: the queue is empty. -/
theorem dequeue_iteration_nil {pool : threadpool} (h : queue_wf pool.queue [] [] [])
    (h1 : 1 ≤ pool.threads) (h2 : pool.active_threads ≤ pool.threads)
    (h3 : pool.shutdown_state ≠ SHUTDOWN_STATE_COMPLETE) :
    dequeue_iteration pool = Iteration.empty pool [] := by
  simp [dequeue_iteration, threadpool_queue_pop_nil h, check, h1, h2, h3]

/-- The drain loop on a well-formed queue pops every item, in pop order. -/
theorem dequeue_loop_wf : ∀ (items : List Nat) (pool : threadpool) (hi no lo : List Nat),
    queue_wf pool.queue hi no lo → pop_order hi no lo = items →
    1 ≤ pool.threads → pool.active_threads ≤ pool.threads →
    pool.shutdown_state ≠ SHUTDOWN_STATE_COMPLETE →
    ∀ fuel, items.length < fuel →
    ∃ q1, dequeue_loop fuel pool
        = Outcome.returned () { pool with queue := q1 }
            (drain_callbacks pool.shutdown_state items) ∧
      queue_wf q1 [] [] [] ∧
      (∀ j, j ∉ items → q1.mem (Ptr.link j) = pool.queue.mem (Ptr.link j)) ∧
      (∀ j ∈ items, unlinked q1.mem j)
  | [], pool, hi, no, lo, h, hx, h1, h2, h3, fuel, hf => by
    obtain ⟨rfl, rfl, rfl⟩ := pop_order_nil hx
    cases fuel with
    | zero => simp at hf
    | succ fuel =>
      refine ⟨pool.queue, ?_, h, fun _ _ => rfl, by simp⟩
      simp [dequeue_loop, dequeue_iteration_nil h h1 h2 h3, drain_callbacks]
  | x :: rest, pool, hi, no, lo, h, hx, h1, h2, h3, fuel, hf => by
    cases fuel with
    | zero => simp at hf
    | succ fuel =>
      obtain ⟨q1, hi1, no1, lo1, e, w, po, s, u, f⟩ := dequeue_iteration_cons h hx h1 h2 h3
      have hnd : (x :: rest).Nodup := by rw [← hx]; exact h.nodup
      obtain ⟨q2, e2, w2, f2, u2⟩ := dequeue_loop_wf rest { pool with queue := q1 } hi1 no1 lo1
        w po h1 h2 h3 fuel (by simpa using hf)
      refine ⟨q2, ?_, w2, ?_, ?_⟩
      · simp [dequeue_loop, e, e2, Outcome.after, drain_callbacks]
      · intro j hj
        have hj2 : j ∉ rest := fun hm => hj (List.mem_cons_of_mem _ hm)
        rw [f2 j hj2]
        exact f j hj
      · intro j hj
        rcases List.mem_cons.mp hj with rfl | hm
        · have : j ∉ rest := (List.nodup_cons.mp hnd).1
          unfold unlinked at u ⊢
          rw [f2 j this]; exact u
        · exact u2 j hm

/-! ## Cancellation and rejected submissions -/

theorem mem_pop_order {hi no lo : List Nat} {x : Nat} :
    x ∈ pop_order hi no lo ↔ x ∈ hi ∨ x ∈ no ∨ x ∈ lo := by
  simp [pop_order, or_assoc]

/-- An item that is linked into a band of a well-formed queue does not pass
the test `list_empty`. -/
theorem queue_wf.linked {q : threadpool_queue} {hi no lo : List Nat}
    (h : queue_wf q hi no lo) {item : Nat} (hm : item ∈ pop_order hi no lo) :
    (q.mem (Ptr.link item)).next ≠ Ptr.link item := by
  rcases mem_pop_order.mp hm with h1 | h1 | h1
  · exact ring_linked is_head_high h.ring_high h.nodup_high h1
  · exact ring_linked is_head_normal h.ring_normal h.nodup_normal h1
  · exact ring_linked is_head_low h.ring_low h.nodup_low h1

theorem update_self_next (m : Mem) (p : Ptr) (h : (m p).next = p) :
    Function.update m p { m p with next := p } = m := by
  funext x
  by_cases hx : x = p
  · subst hx
    simp only [Function.update_same]
    exact entry_ext (by simp [h]) rfl
  · simp [Function.update_apply, hx]

theorem update_self_prev (m : Mem) (p : Ptr) (h : (m p).prev = p) :
    Function.update m p { m p with prev := p } = m := by
  funext x
  by_cases hx : x = p
  · subst hx
    simp only [Function.update_same]
    exact entry_ext rfl (by simp [h])
  · simp [Function.update_apply, hx]

/-- C1 (what the code does): `threadpool_cancel` of an item that is linked into
a band of a well-formed queue returns false, leaves the item queued, changes no
field of the pool and invokes neither callback: the test at line 112 of
`threadpool_queue_remove` rejects exactly the linked items. -/
theorem threadpool_cancel_queued (pool : threadpool) (hi no lo : List Nat) (item : Nat)
    (hwf : queue_wf pool.queue hi no lo) (hq : item ∈ pop_order hi no lo) :
    threadpool_cancel pool item = Outcome.returned false pool [] := by
  have hl := hwf.linked hq
  simp [threadpool_cancel, threadpool_queue_remove, list_empty_eq, hl]

/-- C1, at the pool of scenario 1: item 1 is queued in band NORMAL and its
cancellation is refused. -/
theorem threadpool_cancel_queued_witness :
    queue_wf pool_abc.queue [3] [1, 2] [] ∧ 1 ∈ pop_order [3] [1, 2] [] ∧
    threadpool_cancel pool_abc 1 = Outcome.returned false pool_abc [] :=
  ⟨by constructor <;> decide, by decide,
   threadpool_cancel_queued pool_abc [3] [1, 2] [] 1 (by constructor <;> decide) (by decide)⟩

/-- C2 (what the code does): on a well-formed queue that is not empty,
`threadpool_cancel` of an item that is not queued (its link is
self-referential) returns true, decrements `size`, and invokes `release` of
the item; the bands keep their items, so the assertion of line 125 fails when
`size` drops to zero. -/
theorem threadpool_cancel_unqueued (pool : threadpool) (hi no lo : List Nat) (item : Nat)
    (hwf : queue_wf pool.queue hi no lo) (hne : pop_order hi no lo ≠ [])
    (hu : unlinked pool.queue.mem item) :
    threadpool_cancel pool item
      = Outcome.returned true
          { pool with queue := { mem := pool.queue.mem, size := pool.queue.size - 1 } }
          (check (decide (pool.queue.size ≠ 1)) 125 ++ [Event.release item]) := by
  have hs : pool.queue.size ≠ 0 := by
    have := hwf.size_eq
    intro h0
    apply hne
    simp only [pop_order]
    rw [h0] at this
    have h1 : hi.length = 0 := by omega
    have h2 : no.length = 0 := by omega
    have h3 : lo.length = 0 := by omega
    simp [List.length_eq_zero.mp h1, List.length_eq_zero.mp h2, List.length_eq_zero.mp h3]
  have hpos : 0 < pool.queue.size := Nat.pos_of_ne_zero hs
  have hn : (pool.queue.mem (Ptr.link item)).next = Ptr.link item := by rw [hu]
  have hp : (pool.queue.mem (Ptr.link item)).prev = Ptr.link item := by rw [hu]
  have hmem : list_remove_entry pool.queue.mem (Ptr.link item) = some (true, pool.queue.mem) := by
    simp [list_remove_entry, load, store_next, store_prev, hn, hp, update_self_next,
      update_self_prev]
    exact hu.symm
  have hinit : list_init pool.queue.mem (Ptr.link item) = some pool.queue.mem := by
    simp [list_init, store_next, store_prev, hn, hp, update_self_next, update_self_prev]
    exact hu.symm
  have hd : dec32 pool.queue.size = pool.queue.size - 1 := dec32_eq hpos hwf.size_lt
  have hv : threadpool_queue_isvalid { mem := pool.queue.mem, size := pool.queue.size - 1 }
      = some (decide (pool.queue.size ≠ 1)) := by
    simp only [threadpool_queue_isvalid, list_empty_ring is_head_normal hwf.ring_normal,
      list_empty_ring is_head_low hwf.ring_low, list_empty_ring is_head_high hwf.ring_high,
      Option.bind_eq_bind, Option.some_bind]
    have h1 : pool.queue.size - 1 ≠ 0 ↔ pool.queue.size ≠ 1 := by omega
    have hne2 := hne
    simp only [pop_order] at hne2
    cases hi <;> cases no <;> cases lo <;> simp [h1] at hne2 ⊢
  simp [threadpool_cancel, threadpool_queue_remove, list_empty_eq, hn,
    threadpool_queue_isempty_wf hwf, hs, hmem, hinit, hpos, hd, hv]

/-- C2, at the pool of scenario 1: item 9 was never submitted, its cancellation
returns true, calls its `release` and leaves `size` at 2 with three items
queued. -/
theorem threadpool_cancel_unqueued_witness :
    queue_wf pool_abc.queue [3] [1, 2] [] ∧ unlinked pool_abc.queue.mem 9 ∧
    threadpool_cancel pool_abc 9
      = Outcome.returned true
          { pool_abc with queue := { mem := pool_abc.queue.mem, size := 3 - 1 } }
          [Event.release 9] :=
  ⟨by constructor <;> decide, by decide,
   threadpool_cancel_unqueued pool_abc [3] [1, 2] [] 9 (by constructor <;> decide)
     (by decide) (by decide)⟩

/-- C4: when `shutdown_state` is not NONE, `threadpool_submit` returns
`ECANCELED`, invokes `release` of the item once and nothing else, and leaves
every field of the pool unchanged. -/
theorem threadpool_submit_rejected (pool : threadpool) (item priority tick1 tick2 : Nat)
    (provider_result : Bool) (hs : pool.shutdown_state ≠ SHUTDOWN_STATE_NONE) :
    threadpool_submit pool item priority tick1 tick2 provider_result
      = Outcome.returned ECANCELED pool [Event.release item] := by
  simp [threadpool_submit, hs]

/-- C4, at a pool in state WAIT. -/
theorem threadpool_submit_rejected_witness :
    threadpool_submit { pool_abc with shutdown_state := SHUTDOWN_STATE_WAIT } 4
        THREAD_POOL_PRIORITY_HIGH 0 0 true
      = Outcome.returned ECANCELED { pool_abc with shutdown_state := SHUTDOWN_STATE_WAIT }
          [Event.release 4] :=
  threadpool_submit_rejected _ 4 THREAD_POOL_PRIORITY_HIGH 0 0 true (by decide)

/-! ## The worker dequeue routine -/

theorem drain_callbacks_cons (st : shutdown_state_t) (x : Nat) (xs : List Nat) :
    drain_callbacks st (x :: xs) = item_callbacks st x ++ drain_callbacks st xs := by
  simp [drain_callbacks]

theorem count_release_drain (st : shutdown_state_t) (i : Nat) : ∀ (items : List Nat),
    items.Nodup →
    (drain_callbacks st items).count (Event.release i) = if i ∈ items then 1 else 0
  | [], _ => by simp [drain_callbacks]
  | x :: xs, hnd => by
    have hx : x ∉ xs := (List.nodup_cons.mp hnd).1
    rw [drain_callbacks_cons, List.count_append,
      count_release_drain st i xs (List.nodup_cons.mp hnd).2]
    by_cases h : i = x
    · subst h
      by_cases hs : st = SHUTDOWN_STATE_ABORT <;> simp [item_callbacks, hs, hx]
    · have h2 : x ≠ i := fun e => h e.symm
      by_cases hs : st = SHUTDOWN_STATE_ABORT <;>
        by_cases hm : i ∈ xs <;> simp [item_callbacks, hs, h, h2, hm]

theorem count_action_drain (st : shutdown_state_t) (i : Nat) : ∀ (items : List Nat),
    items.Nodup →
    (drain_callbacks st items).count (Event.action i)
      = if i ∈ items ∧ st ≠ SHUTDOWN_STATE_ABORT then 1 else 0
  | [], _ => by simp [drain_callbacks]
  | x :: xs, hnd => by
    have hx : x ∉ xs := (List.nodup_cons.mp hnd).1
    rw [drain_callbacks_cons, List.count_append,
      count_action_drain st i xs (List.nodup_cons.mp hnd).2]
    by_cases h : i = x
    · subst h
      by_cases hs : st = SHUTDOWN_STATE_ABORT <;> simp [item_callbacks, hs, hx]
    · have h2 : x ≠ i := fun e => h e.symm
      by_cases hs : st = SHUTDOWN_STATE_ABORT <;>
        by_cases hm : i ∈ xs <;> simp [item_callbacks, hs, h, h2, hm]

theorem count_handler_call (p : threadpool) (e : Event) (h : is_handler_call e = false) :
    (handler_call p).count e = 0 := by
  unfold handler_call
  split
  · cases e <;> simp_all [is_handler_call]
  · simp

/-- What `thread_pool_async_dequeue` returns on a well-formed queue when a slot
is free: the pool and the events, in full. -/
theorem thread_pool_async_dequeue_wf (pool : threadpool) (hi no lo : List Nat)
    (tick_count fuel : Nat)
    (hwf : queue_wf pool.queue hi no lo) (hr : pool.in_range)
    (hslot : pool.active_threads < pool.threads)
    (hst : pool.shutdown_state ≠ SHUTDOWN_STATE_COMPLETE)
    (hfuel : (pop_order hi no lo).length < fuel) :
    ∃ q1, queue_wf q1 [] [] [] ∧
      (∀ j, j ∉ pop_order hi no lo → q1.mem (Ptr.link j) = pool.queue.mem (Ptr.link j)) ∧
      (∀ j ∈ pop_order hi no lo, unlinked q1.mem j) ∧
      thread_pool_async_dequeue fuel pool tick_count
        = Outcome.returned ()
            { pool with
              queue := q1
              last_tick_count := tick_count
              threads := pool.threads - 1
              shutdown_handler_called :=
                if pool.shutdown_state = SHUTDOWN_STATE_NONE ∨ pool.active_threads ≠ 0 then
                  pool.shutdown_handler_called
                else true }
            (drain_callbacks pool.shutdown_state (pop_order hi no lo)
              ++ (if pool.shutdown_state = SHUTDOWN_STATE_NONE ∨ pool.active_threads ≠ 0
                    ∨ pool.shutdown_handler_called = true then []
                  else handler_call pool)) := by
  have ht := hr.threads_lt
  have ha : inc32 pool.active_threads = pool.active_threads + 1 := inc32_eq (by omega)
  have hent : dequeue_entry pool tick_count
      = ({ pool with last_tick_count := tick_count,
                     active_threads := pool.active_threads + 1 }, true) := by
    simp only [dequeue_entry, ha]
    rw [if_neg (by simp; exact hslot), if_neg (by simp; omega)]
  obtain ⟨q1, e1, w1, f1, u1⟩ := dequeue_loop_wf (pop_order hi no lo)
    { pool with last_tick_count := tick_count, active_threads := pool.active_threads + 1 }
    hi no lo hwf rfl (by simp; omega) (by simp; omega) hst fuel hfuel
  refine ⟨q1, w1, f1, u1, ?_⟩
  have hd1 : dec32 pool.threads = pool.threads - 1 := dec32_eq (by omega) ht
  have hd2 : dec32 (pool.active_threads + 1) = pool.active_threads :=
    by rw [dec32_eq (by omega) (by omega)]; rfl
  have hemp : threadpool_queue_isempty q1 = some (true, []) := by
    rw [threadpool_queue_isempty_wf w1]
    have : q1.size = 0 := by simpa using w1.size_eq
    simp [this]
  simp only [thread_pool_async_dequeue, hent, e1, Outcome.andThen, dequeue_exit, hd1, hd2, hemp]
  by_cases c1 : pool.shutdown_state = SHUTDOWN_STATE_NONE
  · simp [c1, Outcome.after]
  · by_cases c2 : pool.active_threads = 0
    · by_cases c3 : pool.shutdown_handler_called = true
      · simp [c1, c2, c3, Outcome.after]
      · simp [c1, c2, c3, Outcome.after, check, handler_call]
    · simp [c1, c2, Outcome.after]

/-- C3: on a pool with well-formed queue, `active_threads < threads` and
`shutdown_state` not COMPLETE, `thread_pool_async_dequeue` (given fuel beyond
the number of queued items) returns; its events are the callbacks of the queued
items in pop order (HIGH, then NORMAL, then LOW, each in insertion order),
`action` then `release` for each item when the state is not ABORT and
`release` alone when it is ABORT, followed by nothing but a possible call of
the shutdown handler; `release` of every queued item occurs exactly once,
`action` of no item occurs under ABORT; on return the queue is empty,
`threads` is smaller by one and `active_threads` is unchanged. -/
theorem thread_pool_async_dequeue_drains (pool : threadpool) (hi no lo : List Nat)
    (tick_count fuel : Nat)
    (hwf : queue_wf pool.queue hi no lo) (hr : pool.in_range)
    (hslot : pool.active_threads < pool.threads)
    (hst : pool.shutdown_state ≠ SHUTDOWN_STATE_COMPLETE)
    (hfuel : (pop_order hi no lo).length < fuel) :
    ∃ p1 tail,
      thread_pool_async_dequeue fuel pool tick_count
        = Outcome.returned () p1
            (drain_callbacks pool.shutdown_state (pop_order hi no lo) ++ tail) ∧
      (tail = [] ∨ tail = handler_call pool) ∧
      (∀ i ∈ pop_order hi no lo,
        (drain_callbacks pool.shutdown_state (pop_order hi no lo) ++ tail).count
          (Event.release i) = 1 ∧
        (drain_callbacks pool.shutdown_state (pop_order hi no lo) ++ tail).count
          (Event.action i) = if pool.shutdown_state = SHUTDOWN_STATE_ABORT then 0 else 1) ∧
      queue_wf p1.queue [] [] [] ∧
      p1.threads + 1 = pool.threads ∧
      p1.active_threads = pool.active_threads := by
  obtain ⟨q1, w1, _, _, e⟩ :=
    thread_pool_async_dequeue_wf pool hi no lo tick_count fuel hwf hr hslot hst hfuel
  refine ⟨_, _, e, ?_, ?_, w1, ?_, rfl⟩
  · split
    · exact Or.inl rfl
    · exact Or.inr rfl
  · intro i hmem
    have hnd : (pop_order hi no lo).Nodup := hwf.nodup
    have hc1 : ∀ t : List Event, (t = [] ∨ t = handler_call pool) →
        t.count (Event.release i) = 0 ∧ t.count (Event.action i) = 0 := by
      intro t ht
      rcases ht with rfl | rfl
      · simp
      · exact ⟨count_handler_call _ _ rfl, count_handler_call _ _ rfl⟩
    have ht : (if pool.shutdown_state = SHUTDOWN_STATE_NONE ∨ pool.active_threads ≠ 0
        ∨ pool.shutdown_handler_called = true then [] else handler_call pool) = []
        ∨ (if pool.shutdown_state = SHUTDOWN_STATE_NONE ∨ pool.active_threads ≠ 0
        ∨ pool.shutdown_handler_called = true then [] else handler_call pool)
          = handler_call pool := by
      split
      · exact Or.inl rfl
      · exact Or.inr rfl
    obtain ⟨z1, z2⟩ := hc1 _ ht
    rw [List.count_append, List.count_append, z1, z2, count_release_drain _ _ _ hnd,
      count_action_drain _ _ _ hnd]
    by_cases hs : pool.shutdown_state = SHUTDOWN_STATE_ABORT <;> simp [hmem, hs]
  · show pool.threads - 1 + 1 = pool.threads
    omega

/-- C3, at the pool of scenario 1: the worker runs item 3 (HIGH), then items 1
and 2 (NORMAL, in submission order). -/
theorem thread_pool_async_dequeue_drains_witness :
    ∃ p1 tail,
      thread_pool_async_dequeue 4 pool_abc 0
        = Outcome.returned () p1
            ([Event.action 3, Event.release 3, Event.action 1, Event.release 1,
              Event.action 2, Event.release 2] ++ tail) ∧
      (tail = [] ∨ tail = handler_call pool_abc) ∧
      queue_wf p1.queue [] [] [] ∧ p1.threads + 1 = 2 ∧ p1.active_threads = 0 := by
  obtain ⟨p1, tail, h1, h2, _, h4, h5, h6⟩ :=
    thread_pool_async_dequeue_drains pool_abc [3] [1, 2] [] 0 4
      (by constructor <;> decide) (by constructor <;> decide) (by decide) (by decide)
      (by decide)
  exact ⟨p1, tail, h1, h2, h4, h5, h6⟩

/-! ## Submission -/

/-- What `threadpool_keepalive_locked` does when a provider is installed. -/
theorem threadpool_keepalive_locked_eq (pool : threadpool) (tick_count : Nat)
    (hp : pool.provider ≠ 0) :
    threadpool_keepalive_locked pool tick_count
      = if keepalive_due pool tick_count then
          Outcome.returned () { pool with last_tick_count := tick_count }
            [Event.provider_submit_lost_work pool.active_threads pool.threads]
        else Outcome.returned () pool [] := by
  unfold threadpool_keepalive_locked keepalive_due
  by_cases h1 : pool.active_threads < pool.threads
  · by_cases h2 : (tick_count + (UINT64 - pool.last_tick_count % UINT64)) % UINT64
        ≥ THREAD_POOL_KEEP_ALIVE_TIMEOUT
    · simp [h1, h2, hp]
    · simp [h1, h2]
  · simp [h1]

theorem chain_mem_full (n : Nat) : ∀ (len j : Nat), j + len = n →
    chain (mem_full n) (if j = 0 then Ptr.queue_normal else Ptr.link (j - 1))
      ((List.range' j len).map Ptr.link) Ptr.queue_normal
  | 0, j, h => by
    simp only [List.range', List.map_nil, chain]
    have hj : j = n := by omega
    subst hj
    by_cases h0 : j = 0
    · subst h0; simp [mem_full]
    · have h1 : j - 1 < j := by omega
      have h2 : ¬ (j - 1 + 1 < j) := by omega
      simp [mem_full, h0, h1, h2]
  | len + 1, j, h => by
    simp only [List.range', List.map_cons, chain]
    have hj : j < n := by omega
    have hn : n ≠ 0 := by omega
    refine ⟨?_, ?_, ?_⟩
    · by_cases h0 : j = 0
      · subst h0; simp [mem_full, hn]
      · have h1 : j - 1 < n := by omega
        have h2 : j - 1 + 1 < n := by omega
        have h3 : j - 1 + 1 = j := by omega
        simp [mem_full, h0, h1, h2, h3, hj]
    · by_cases h0 : j = 0
      · subst h0; simp [mem_full, hj]
      · simp [mem_full, h0, hj]
    · have := chain_mem_full n len (j + 1) (by omega)
      simpa using this

/-- The queue of `mem_full n` is well-formed. -/
theorem queue_wf_mem_full (n : Nat) (hn : n < UINT32) :
    queue_wf { mem := mem_full n, size := n } [] (List.range n) [] := by
  refine ⟨?_, ?_, ?_, ?_, ?_, hn⟩
  · simp [ring, chain, mem_full]
  · have := chain_mem_full n n 0 (by omega)
    simpa [ring, List.range_eq_range'] using this
  · simp [ring, chain, mem_full]
  · simpa using List.nodup_range n
  · simp

/-- C5 (amended): on a pool with `shutdown_state` NONE, a provider, a
well-formed queue that holds fewer than `2 ^ 32 - 1` items, and an unlinked
item, `threadpool_submit` appends the item at the tail of the band selected by
the priority (LOW to low, HIGH to high, every other value to normal) and
increments `size` by one; when `threads >= max_threads` it leaves `threads`
unchanged, does not call `provider.submit` and returns 0; otherwise it
increments `threads` by one, calls `provider.submit` once and returns 0 when
that call returns true and `ECANCELED` when it returns false.  The only other
event is the call `provider.submit_lost_work` of the keep-alive probe: neither
`action` nor `release` is invoked. -/
theorem threadpool_submit_queues (pool : threadpool) (hi no lo : List Nat)
    (item priority tick1 tick2 : Nat) (provider_result : Bool)
    (hwf : queue_wf pool.queue hi no lo) (hr : pool.in_range)
    (hs : pool.shutdown_state = SHUTDOWN_STATE_NONE)
    (hu : unlinked pool.queue.mem item)
    (hp : pool.provider ≠ 0) (hroom : pool.queue.size + 1 < UINT32) :
    ∃ q1 ka tick,
      queue_wf q1 (pushed_high priority item hi) (pushed_normal priority item no)
        (pushed_low priority item lo) ∧
      q1.size = pool.queue.size + 1 ∧
      (ka = [] ∧ tick = pool.last_tick_count ∨
        ka = [Event.provider_submit_lost_work pool.active_threads pool.threads]
          ∧ tick = tick1) ∧
      threadpool_submit pool item priority tick1 tick2 provider_result
        = if pool.threads ≥ pool.max_threads then
            Outcome.returned 0 { pool with queue := q1, last_tick_count := tick } ka
          else
            Outcome.returned (if provider_result = true then 0 else ECANCELED)
              { pool with queue := q1, threads := pool.threads + 1, last_tick_count := tick2 }
              (ka ++ [Event.provider_submit]) := by
  have hn : (pool.queue.mem (Ptr.link item)).next = Ptr.link item := by rw [hu]
  obtain ⟨q1, e, w, sz, _⟩ := threadpool_queue_push_wf hwf item priority hn hroom
  have hk := threadpool_keepalive_locked_eq pool tick1 hp
  have hmax := hr.max_threads_lt
  by_cases hd : keepalive_due pool tick1
  · refine ⟨q1, [Event.provider_submit_lost_work pool.active_threads pool.threads], tick1,
      w, sz, Or.inr ⟨rfl, rfl⟩, ?_⟩
    rw [if_pos hd] at hk
    by_cases ht : pool.threads ≥ pool.max_threads
    · simp [threadpool_submit, hs, hk, Outcome.andThen, e, ht, Outcome.after]
    · have hi32 : inc32 pool.threads = pool.threads + 1 := inc32_eq (by omega)
      cases provider_result <;>
        simp [threadpool_submit, hs, hk, Outcome.andThen, e, ht, Outcome.after, hp, hi32]
  · refine ⟨q1, [], pool.last_tick_count, w, sz, Or.inl ⟨rfl, rfl⟩, ?_⟩
    rw [if_neg hd] at hk
    by_cases ht : pool.threads ≥ pool.max_threads
    · simp [threadpool_submit, hs, hk, Outcome.andThen, e, ht, Outcome.after]
    · have hi32 : inc32 pool.threads = pool.threads + 1 := inc32_eq (by omega)
      cases provider_result <;>
        simp [threadpool_submit, hs, hk, Outcome.andThen, e, ht, Outcome.after, hp, hi32]

/-- C5 (amended), at the first submission of scenario 1. -/
theorem threadpool_submit_queues_witness :
    ∃ q1 ka tick,
      queue_wf q1 [] [1] [] ∧ q1.size = 0 + 1 ∧
      (ka = [] ∧ tick = 0 ∨ ka = [Event.provider_submit_lost_work 0 0] ∧ tick = 0) ∧
      threadpool_submit (pool_init 2) 1 THREAD_POOL_PRIORITY_NORMAL 0 0 true
        = Outcome.returned 0
            { pool_init 2 with queue := q1, threads := 0 + 1, last_tick_count := 0 }
            (ka ++ [Event.provider_submit]) :=
  threadpool_submit_queues (pool_init 2) [] [] [] 1 THREAD_POOL_PRIORITY_NORMAL 0 0 true
    (by constructor <;> decide) (by constructor <;> decide) rfl (by decide) (by decide)
    (by decide)

/-- C5 as stated fails at two inputs.  With no provider installed (the field
is null) a submission that is granted a slot faults at the call
`pool->provider->submit()`.  With `2 ^ 32 - 1` items queued the counter `size`
wraps to zero instead of growing by one. -/
theorem threadpool_submit_counterexample :
    (queue_wf pool_no_provider.queue [] [] [] ∧
      pool_no_provider.shutdown_state = SHUTDOWN_STATE_NONE ∧
      unlinked pool_no_provider.queue.mem 1 ∧
      pool_no_provider.threads < pool_no_provider.max_threads ∧
      threadpool_submit pool_no_provider 1 THREAD_POOL_PRIORITY_NORMAL 0 0 true
        = Outcome.fault []) ∧
    (queue_wf pool_full.queue [] (List.range 4294967295) [] ∧
      pool_full.shutdown_state = SHUTDOWN_STATE_NONE ∧
      unlinked pool_full.queue.mem 4294967295 ∧
      pool_full.queue.size = 4294967295 ∧
      (threadpool_submit pool_full 4294967295 THREAD_POOL_PRIORITY_LOW 0 0 true).ret
        = some 0 ∧
      ((threadpool_submit pool_full 4294967295 THREAD_POOL_PRIORITY_LOW 0 0 true).pool_or
        pool_full).queue.size = 0) :=
  ⟨⟨by constructor <;> decide, rfl, by decide, by decide, rfl⟩,
   ⟨queue_wf_mem_full 4294967295 (by decide), rfl, by decide, rfl, by decide, by decide⟩⟩

/-! ## Queue order -/

theorem selected_high_cons (item priority : Nat) (rest : List (Nat × Nat)) (hi : List Nat) :
    pushed_high priority item hi ++ selected_high rest
      = hi ++ selected_high ((item, priority) :: rest) := by
  by_cases h : priority = THREAD_POOL_PRIORITY_HIGH <;>
    simp [pushed_high, selected_high, List.filter_cons, h]

theorem selected_low_cons (item priority : Nat) (rest : List (Nat × Nat)) (lo : List Nat) :
    pushed_low priority item lo ++ selected_low rest
      = lo ++ selected_low ((item, priority) :: rest) := by
  by_cases h : priority = THREAD_POOL_PRIORITY_LOW <;>
    simp [pushed_low, selected_low, List.filter_cons, h]

theorem selected_normal_cons (item priority : Nat) (rest : List (Nat × Nat)) (no : List Nat) :
    pushed_normal priority item no ++ selected_normal rest
      = no ++ selected_normal ((item, priority) :: rest) := by
  by_cases h1 : priority = THREAD_POOL_PRIORITY_LOW <;>
    by_cases h2 : priority = THREAD_POOL_PRIORITY_HIGH <;>
    simp [pushed_normal, selected_normal, List.filter_cons, h1, h2]

theorem mem_selected_high {x : Nat} {pushes : List (Nat × Nat)} :
    x ∈ selected_high pushes ↔ (x, THREAD_POOL_PRIORITY_HIGH) ∈ pushes := by
  simp [selected_high]

theorem mem_selected_low {x : Nat} {pushes : List (Nat × Nat)} :
    x ∈ selected_low pushes ↔ (x, THREAD_POOL_PRIORITY_LOW) ∈ pushes := by
  simp [selected_low]

theorem mem_selected_normal {x : Nat} {pushes : List (Nat × Nat)} :
    x ∈ selected_normal pushes ↔ ∃ p, (x, p) ∈ pushes ∧ p ≠ THREAD_POOL_PRIORITY_LOW
      ∧ p ≠ THREAD_POOL_PRIORITY_HIGH := by
  simp [selected_normal]

theorem mem_selected {x : Nat} {pushes : List (Nat × Nat)} :
    (x ∈ selected_high pushes ∨ x ∈ selected_normal pushes ∨ x ∈ selected_low pushes)
      ↔ x ∈ pushes.map Prod.fst := by
  rw [mem_selected_high, mem_selected_low, mem_selected_normal]
  simp only [List.mem_map, Prod.exists, exists_and_right, exists_eq_right]
  constructor
  · rintro (h | ⟨p, h, _⟩ | h)
    · exact ⟨_, h⟩
    · exact ⟨_, h⟩
    · exact ⟨_, h⟩
  · rintro ⟨p, h⟩
    by_cases c1 : p = THREAD_POOL_PRIORITY_HIGH
    · exact Or.inl (c1 ▸ h)
    · by_cases c2 : p = THREAD_POOL_PRIORITY_LOW
      · exact Or.inr (Or.inr (c2 ▸ h))
      · exact Or.inr (Or.inl ⟨p, h, c2, c1⟩)

/-- A sequence of pushes of distinct unlinked items onto a well-formed queue
with room for them appends every item to the band its priority selects. -/
theorem push_all_wf : ∀ (pushes : List (Nat × Nat)) (q : threadpool_queue)
    (hi no lo : List Nat),
    queue_wf q hi no lo → (pushes.map Prod.fst).Nodup →
    (∀ p ∈ pushes, unlinked q.mem p.1) → q.size + pushes.length < UINT32 →
    ∃ q1, push_all q pushes = some (q1, []) ∧
      queue_wf q1 (hi ++ selected_high pushes) (no ++ selected_normal pushes)
        (lo ++ selected_low pushes) ∧
      q1.size = q.size + pushes.length
  | [], q, hi, no, lo, h, _, _, _ => by
    refine ⟨q, rfl, ?_, rfl⟩
    simpa [selected_high, selected_normal, selected_low] using h
  | (item, priority) :: rest, q, hi, no, lo, h, hnd, hu, hsz => by
    have hu0 : unlinked q.mem item := hu (item, priority) (by simp)
    have hn : (q.mem (Ptr.link item)).next = Ptr.link item := by rw [hu0]
    obtain ⟨n1, n2, n3⟩ := h.unlinked_not_mem hn
    simp only [List.length_cons] at hsz
    obtain ⟨q1, e, w, sz, f⟩ := threadpool_queue_push_wf h item priority hn (by omega)
    simp only [List.map_cons, List.nodup_cons] at hnd
    have hu1 : ∀ p ∈ rest, unlinked q1.mem p.1 := by
      intro p hp
      have hup : unlinked q.mem p.1 := hu p (List.mem_cons_of_mem _ hp)
      have hnp : (q.mem (Ptr.link p.1)).next = Ptr.link p.1 := by rw [hup]
      obtain ⟨m1, m2, m3⟩ := h.unlinked_not_mem hnp
      have hne : p.1 ≠ item := by
        intro e1
        exact hnd.1 (e1 ▸ List.mem_map_of_mem Prod.fst hp)
      unfold unlinked at hup ⊢
      rw [f p.1 m1 m2 m3 hne]; exact hup
    obtain ⟨q2, e2, w2, sz2⟩ := push_all_wf rest q1 _ _ _ w hnd.2 hu1 (by omega)
    refine ⟨q2, ?_, ?_, ?_⟩
    · simp [push_all, e, e2]
    · rw [selected_high_cons, selected_normal_cons, selected_low_cons] at w2
      exact w2
    · rw [sz2, sz]; simp only [List.length_cons]; omega

/-- Popping a well-formed queue until `nullptr` returns its items in pop order. -/
theorem pop_until_null_wf : ∀ (items : List Nat) (q : threadpool_queue) (hi no lo : List Nat),
    queue_wf q hi no lo → pop_order hi no lo = items →
    ∀ fuel, items.length < fuel →
    ∃ q1, pop_until_null fuel q = some (items.map Ptr.link, q1, []) ∧ queue_wf q1 [] [] []
  | [], q, hi, no, lo, h, hx, fuel, hf => by
    obtain ⟨rfl, rfl, rfl⟩ := pop_order_nil hx
    cases fuel with
    | zero => simp at hf
    | succ fuel => exact ⟨q, by simp [pop_until_null, threadpool_queue_pop_nil h], h⟩
  | x :: rest, q, hi, no, lo, h, hx, fuel, hf => by
    cases fuel with
    | zero => simp at hf
    | succ fuel =>
      obtain ⟨q1, hi1, no1, lo1, e, w, po, _⟩ := threadpool_queue_pop_wf h hx
      obtain ⟨q2, e2, w2⟩ := pop_until_null_wf rest q1 hi1 no1 lo1 w po fuel (by simpa using hf)
      exact ⟨q2, by simp [pop_until_null, e, e2], w2⟩

theorem selected_high_append (a b : List (Nat × Nat)) :
    selected_high (a ++ b) = selected_high a ++ selected_high b := by
  simp [selected_high]

theorem selected_low_append (a b : List (Nat × Nat)) :
    selected_low (a ++ b) = selected_low a ++ selected_low b := by
  simp [selected_low]

theorem selected_normal_append (a b : List (Nat × Nat)) :
    selected_normal (a ++ b) = selected_normal a ++ selected_normal b := by
  simp [selected_normal]

/-- Two pushes with the same priority keep their order in the pop order. -/
theorem pop_order_fifo (hi no lo : List Nat) (l1 l2 l3 : List (Nat × Nat))
    (a b priority : Nat) :
    ∃ r1 r2 r3,
      pop_order
        (hi ++ selected_high (l1 ++ (a, priority) :: l2 ++ (b, priority) :: l3))
        (no ++ selected_normal (l1 ++ (a, priority) :: l2 ++ (b, priority) :: l3))
        (lo ++ selected_low (l1 ++ (a, priority) :: l2 ++ (b, priority) :: l3))
        = r1 ++ a :: r2 ++ b :: r3 := by
  have e : l1 ++ (a, priority) :: l2 ++ (b, priority) :: l3
      = l1 ++ ([(a, priority)] ++ (l2 ++ ([(b, priority)] ++ l3))) := by simp
  rw [e]
  simp only [selected_high_append, selected_low_append, selected_normal_append, pop_order]
  have hne : THREAD_POOL_PRIORITY_HIGH ≠ THREAD_POOL_PRIORITY_LOW := by decide
  have hne2 : THREAD_POOL_PRIORITY_LOW ≠ THREAD_POOL_PRIORITY_HIGH := by decide
  by_cases c1 : priority = THREAD_POOL_PRIORITY_HIGH
  · have c2 : priority ≠ THREAD_POOL_PRIORITY_LOW := by rw [c1]; decide
    refine ⟨hi ++ selected_high l1, selected_high l2,
      selected_high l3 ++ (no ++ (selected_normal l1 ++ (selected_normal l2
        ++ selected_normal l3))) ++ (lo ++ (selected_low l1 ++ (selected_low l2
        ++ selected_low l3))), ?_⟩
    simp [selected_high, selected_normal, selected_low, c1, c2, hne, hne2, List.filter_cons]
  · by_cases c2 : priority = THREAD_POOL_PRIORITY_LOW
    · refine ⟨hi ++ (selected_high l1 ++ (selected_high l2 ++ selected_high l3))
        ++ (no ++ (selected_normal l1 ++ (selected_normal l2 ++ selected_normal l3)))
        ++ (lo ++ selected_low l1), selected_low l2, selected_low l3, ?_⟩
      simp [selected_high, selected_normal, selected_low, c1, c2, hne, hne2, List.filter_cons]
    · refine ⟨hi ++ (selected_high l1 ++ (selected_high l2 ++ selected_high l3))
        ++ (no ++ selected_normal l1), selected_normal l2,
        selected_normal l3 ++ (lo ++ (selected_low l1 ++ (selected_low l2
        ++ selected_low l3))), ?_⟩
      simp [selected_high, selected_normal, selected_low, c1, c2, hne, hne2, List.filter_cons]

/-- C9 (amended): after any sequence of `threadpool_queue_push` calls of distinct
unlinked items onto a well-formed queue, as long as fewer than `2 ^ 32` items
are queued in all, calling `threadpool_queue_pop` until it returns null yields
every queued item exactly once: the items of band HIGH (those queued before,
then the pushed ones in push order), then NORMAL, then LOW; the queue is left
empty and no assertion fails.  In particular an item pushed before another
item of the same priority is popped before it. -/
theorem push_then_pop_order (q : threadpool_queue) (hi no lo : List Nat)
    (pushes : List (Nat × Nat)) (fuel : Nat)
    (hwf : queue_wf q hi no lo) (hnd : (pushes.map Prod.fst).Nodup)
    (hu : ∀ p ∈ pushes, unlinked q.mem p.1)
    (hroom : q.size + pushes.length < UINT32)
    (hfuel : q.size + pushes.length < fuel) :
    ∃ q1 q2, push_all q pushes = some (q1, []) ∧
      pop_until_null fuel q1
        = some ((pop_order (hi ++ selected_high pushes) (no ++ selected_normal pushes)
            (lo ++ selected_low pushes)).map Ptr.link, q2, []) ∧
      (pop_order (hi ++ selected_high pushes) (no ++ selected_normal pushes)
            (lo ++ selected_low pushes)).Nodup ∧
      (∀ x, x ∈ pop_order (hi ++ selected_high pushes) (no ++ selected_normal pushes)
            (lo ++ selected_low pushes)
          ↔ x ∈ pop_order hi no lo ∨ x ∈ pushes.map Prod.fst) ∧
      (∀ l1 l2 l3 a b priority,
        pushes = l1 ++ (a, priority) :: l2 ++ (b, priority) :: l3 →
        ∃ r1 r2 r3, pop_order (hi ++ selected_high pushes) (no ++ selected_normal pushes)
            (lo ++ selected_low pushes) = r1 ++ a :: r2 ++ b :: r3) ∧
      queue_wf q2 [] [] [] := by
  obtain ⟨q1, e1, w1, sz1⟩ := push_all_wf pushes q hi no lo hwf hnd hu hroom
  have hlen : (pop_order (hi ++ selected_high pushes) (no ++ selected_normal pushes)
      (lo ++ selected_low pushes)).length = q1.size := by
    rw [w1.size_eq]; simp [pop_order]; omega
  obtain ⟨q2, e2, w2⟩ := pop_until_null_wf _ q1 _ _ _ w1 rfl fuel (by rw [hlen, sz1]; exact hfuel)
  refine ⟨q1, q2, e1, e2, w1.nodup, ?_, ?_, w2⟩
  rotate_left
  · intro l1 l2 l3 a b priority hp
    rw [hp]
    exact pop_order_fifo hi no lo l1 l2 l3 a b priority
  intro x
  rw [← mem_selected]
  simp only [mem_pop_order, List.mem_append]
  tauto


/-- C9 (amended), round trip: pushing item 1 onto the empty queue and popping
returns item 1 and leaves the queue empty. -/
theorem push_then_pop_order_witness :
    ∃ q1 q2,
      push_all { mem := mem_init, size := 0 } [(1, THREAD_POOL_PRIORITY_NORMAL)]
        = some (q1, []) ∧
      pop_until_null 2 q1 = some ([Ptr.link 1], q2, []) ∧
      queue_wf q2 [] [] [] := by
  obtain ⟨q1, q2, h1, h2, _, _, _, h3⟩ :=
    push_then_pop_order { mem := mem_init, size := 0 } [] [] []
      [(1, THREAD_POOL_PRIORITY_NORMAL)] 2 (by constructor <;> decide) (by decide)
      (by decide) (by decide) (by decide)
  exact ⟨q1, q2, h1, h2, h3⟩

/-- C9 as stated fails when the counter wraps: with `2 ^ 32 - 1` items queued,
one more push sets `size` to zero and the next `threadpool_queue_pop` returns
null although `2 ^ 32` items are linked into the bands. -/
theorem push_then_pop_counterexample :
    queue_wf pool_full.queue [] (List.range 4294967295) [] ∧
    unlinked pool_full.queue.mem 4294967295 ∧
    (push_all pool_full.queue [(4294967295, THREAD_POOL_PRIORITY_LOW)]).map
        (fun r => (r.1.size, list_empty r.1.mem Ptr.queue_low,
          list_empty r.1.mem Ptr.queue_normal))
      = some (0, some false, some false) ∧
    ((push_all pool_full.queue [(4294967295, THREAD_POOL_PRIORITY_LOW)]).bind
        (fun r => pop_until_null 3 r.1)).map (fun r => r.1)
      = some [] :=
  ⟨queue_wf_mem_full 4294967295 (by decide), by decide, by decide, by decide⟩

/-! ## Close -/

/-- The shutdown state under which `threadpool_close` drains: NONE is coerced
to ABORT, every other state is kept (lines 379-381). -/
theorem close_begin_eq (pool : threadpool) (hc : pool.shutdown_state ≠ SHUTDOWN_STATE_COMPLETE)
    (ht : pool.threads + 1 < UINT32) :
    close_begin pool
      = ({ pool with
            shutdown_state :=
              if pool.shutdown_state = SHUTDOWN_STATE_NONE then SHUTDOWN_STATE_ABORT
              else pool.shutdown_state
            threads := pool.threads + 1 }, []) := by
  by_cases h : pool.shutdown_state = SHUTDOWN_STATE_NONE
  · simp [close_begin, h, check, inc32_eq ht]
  · simp [close_begin, h, check, inc32_eq ht, hc]

/-- C10 (amended): on a pool with a provider, a well-formed queue,
`shutdown_state` NONE, WAIT or ABORT, `active_threads == 0` and
`threads < 2 ^ 32 - 1`, `threadpool_close` (given fuel beyond the number of
queued items) returns with the queue empty, `active_threads == 0` and
`shutdown_state == COMPLETE`; it calls `provider.close` exactly once, after the
drain, and invokes `release` exactly once for every item that was queued.  It
drains under the state it finds, with NONE coerced to ABORT: from NONE or ABORT
no `action` is invoked, from WAIT every item has its `action` invoked before
its `release`.  No assertion fails. -/
theorem threadpool_close_drains (pool : threadpool) (hi no lo : List Nat)
    (tick_count fuel : Nat)
    (hwf : queue_wf pool.queue hi no lo) (hr : pool.in_range)
    (hst : pool.shutdown_state ≠ SHUTDOWN_STATE_COMPLETE)
    (hact : pool.active_threads = 0)
    (hthreads : pool.threads + 1 < UINT32)
    (hp : pool.provider ≠ 0)
    (hfuel : (pop_order hi no lo).length < fuel) :
    ∃ p1 tail,
      threadpool_close fuel pool tick_count
        = Outcome.returned () p1
            (drain_callbacks
                (if pool.shutdown_state = SHUTDOWN_STATE_WAIT then SHUTDOWN_STATE_WAIT
                 else SHUTDOWN_STATE_ABORT)
                (pop_order hi no lo)
              ++ tail ++ [Event.provider_close]) ∧
      (tail = [] ∨ tail = handler_call pool) ∧
      (∀ i ∈ pop_order hi no lo,
        (drain_callbacks
            (if pool.shutdown_state = SHUTDOWN_STATE_WAIT then SHUTDOWN_STATE_WAIT
             else SHUTDOWN_STATE_ABORT)
            (pop_order hi no lo) ++ tail ++ [Event.provider_close]).count (Event.release i) = 1 ∧
        (drain_callbacks
            (if pool.shutdown_state = SHUTDOWN_STATE_WAIT then SHUTDOWN_STATE_WAIT
             else SHUTDOWN_STATE_ABORT)
            (pop_order hi no lo) ++ tail ++ [Event.provider_close]).count (Event.action i)
          = if pool.shutdown_state = SHUTDOWN_STATE_WAIT then 1 else 0) ∧
      queue_wf p1.queue [] [] [] ∧
      p1.active_threads = 0 ∧
      p1.shutdown_state = SHUTDOWN_STATE_COMPLETE := by
  have hst2 : (if pool.shutdown_state = SHUTDOWN_STATE_NONE then SHUTDOWN_STATE_ABORT
      else pool.shutdown_state)
      = (if pool.shutdown_state = SHUTDOWN_STATE_WAIT then SHUTDOWN_STATE_WAIT
         else SHUTDOWN_STATE_ABORT) := by
    cases hs : pool.shutdown_state <;> simp_all
  have hb := close_begin_eq pool hst hthreads
  rw [hst2] at hb
  obtain ⟨q1, w1, _, _, e⟩ := thread_pool_async_dequeue_wf
    { pool with
      shutdown_state :=
        if pool.shutdown_state = SHUTDOWN_STATE_WAIT then SHUTDOWN_STATE_WAIT
        else SHUTDOWN_STATE_ABORT
      threads := pool.threads + 1 }
    hi no lo tick_count fuel hwf
    ⟨hthreads, hr.active_threads_lt, hr.max_threads_lt, hr.last_tick_count_lt⟩
    (by simp [hact]) (by simp only; split <;> simp) hfuel
  have hemp : threadpool_queue_isempty q1 = some (true, []) := by
    rw [threadpool_queue_isempty_wf w1]
    have : q1.size = 0 := by simpa using w1.size_eq
    simp [this]
  have hnn : (if pool.shutdown_state = SHUTDOWN_STATE_WAIT then SHUTDOWN_STATE_WAIT
      else SHUTDOWN_STATE_ABORT) ≠ SHUTDOWN_STATE_NONE := by split <;> simp
  refine ⟨{ pool with
      queue := q1
      last_tick_count := tick_count
      shutdown_state := SHUTDOWN_STATE_COMPLETE
      shutdown_handler_called := true },
    if pool.shutdown_handler_called = true then [] else handler_call pool, ?_, ?_, ?_,
    ?_, ?_, ?_⟩
  · simp only [threadpool_close, hb, e, Outcome.andThen, close_end, hp, hemp,
      Outcome.after, check]
    simp [hnn, handler_call, hact]
  · split
    · exact Or.inl rfl
    · exact Or.inr rfl
  · intro i hmem
    have hnd : (pop_order hi no lo).Nodup := hwf.nodup
    have z1 : (if pool.shutdown_handler_called = true then [] else handler_call pool).count
        (Event.release i) = 0 := by
      split
      · simp
      · exact count_handler_call _ _ rfl
    have z2 : (if pool.shutdown_handler_called = true then [] else handler_call pool).count
        (Event.action i) = 0 := by
      split
      · simp
      · exact count_handler_call _ _ rfl
    simp only [List.count_append, z1, z2, count_release_drain _ _ _ hnd,
      count_action_drain _ _ _ hnd, hmem]
    by_cases hs : pool.shutdown_state = SHUTDOWN_STATE_WAIT <;> simp [hs]
  · exact w1
  · exact hact
  · rfl

/-- C10 (amended), at the pool of scenario 1 (state NONE, items 3, 1, 2
queued): the three items are released, none runs, the handler is called and
then the provider is closed. -/
theorem threadpool_close_drains_witness :
    ∃ p1 tail,
      threadpool_close 4 pool_abc 0
        = Outcome.returned () p1
            ([Event.release 3, Event.release 1, Event.release 2] ++ tail
              ++ [Event.provider_close]) ∧
      (tail = [] ∨ tail = handler_call pool_abc) ∧
      queue_wf p1.queue [] [] [] ∧ p1.active_threads = 0 ∧
      p1.shutdown_state = SHUTDOWN_STATE_COMPLETE := by
  obtain ⟨p1, tail, h1, h2, _, h4, h5, h6⟩ :=
    threadpool_close_drains pool_abc [3] [1, 2] [] 0 4
      (by constructor <;> decide) (by constructor <;> decide) (by decide) (by decide)
      (by decide) (by decide) (by decide)
  exact ⟨p1, tail, h1, h2, h4, h5, h6⟩

/-- C10 as stated fails at three inputs.  In state WAIT the queued items have
their `action` invoked.  With `threads == 2 ^ 32 - 1` the transient increment
wraps to zero, the drain is skipped as an over-grant and the three items stay
queued.  With no provider installed the call faults at
`pool->provider->close()`. -/
theorem threadpool_close_counterexample :
    (queue_wf pool_abc.queue [3] [1, 2] [] ∧ pool_abc.active_threads = 0 ∧
      (threadpool_close 4 { pool_abc with shutdown_state := SHUTDOWN_STATE_WAIT } 0).events
        = [Event.action 3, Event.release 3, Event.action 1, Event.release 1,
           Event.action 2, Event.release 2, Event.shutdown_handler 1 0,
           Event.provider_close]) ∧
    ((threadpool_close 4
          { pool_abc with threads := 4294967295, max_threads := 4294967295 } 0).events
        = [Event.provider_close, Event.assert_failed 393] ∧
      ((threadpool_close 4
          { pool_abc with threads := 4294967295, max_threads := 4294967295 } 0).pool_or
        pool_abc).queue.size = 3 ∧
      ((threadpool_close 4
          { pool_abc with threads := 4294967295, max_threads := 4294967295 } 0).pool_or
        pool_abc).shutdown_state = SHUTDOWN_STATE_COMPLETE) ∧
    ((threadpool_close 4 { pool_abc with provider := 0 } 0).ret = none ∧
      (threadpool_close 4 { pool_abc with provider := 0 } 0).events
        = [Event.release 3, Event.release 1, Event.release 2,
           Event.shutdown_handler 1 0]) :=
  ⟨⟨by constructor <;> decide, by decide, by decide⟩,
   ⟨by decide, by decide, by decide⟩, ⟨by decide, by decide⟩⟩

/-! ## Effects of the pool functions on arbitrary pools -/

theorem quiet_nil : quiet [] := by simp [quiet]

theorem quiet_check (c : Bool) (n : Nat) : quiet (check c n) := by
  cases c <;> simp [quiet, check, is_handler_call]

theorem quiet_append {a b : List Event} (ha : quiet a) (hb : quiet b) : quiet (a ++ b) := by
  intro e he
  rcases List.mem_append.mp he with h | h
  · exact ha e h
  · exact hb e h

theorem quiet_append_iff {a b : List Event} : quiet (a ++ b) ↔ quiet a ∧ quiet b := by
  constructor
  · intro h
    exact ⟨fun e he => h e (List.mem_append_left _ he), fun e he => h e (List.mem_append_right _ he)⟩
  · intro h
    exact quiet_append h.1 h.2

theorem quiet_single {e : Event} (h : is_handler_call e = false) : quiet [e] := by
  simp [quiet, h]

theorem quiet_count {t : List Event} (h : quiet t) : t.countP is_handler_call = 0 := by
  rw [List.countP_eq_zero]
  intro e he
  simp [h e he]

theorem isempty_quiet {q : threadpool_queue} {r : Bool × List Event}
    (h : threadpool_queue_isempty q = some r) : quiet r.2 ∧ r.1 = decide (q.size = 0) := by
  unfold threadpool_queue_isempty at h
  simp only [Option.bind_eq_bind, Option.bind_eq_some, Option.pure_def, Option.some.injEq] at h
  obtain ⟨v, _, rfl⟩ := h
  exact ⟨quiet_check _ _, rfl⟩

theorem pop_quiet {q q1 : threadpool_queue} {p : Ptr} {t : List Event}
    (h : threadpool_queue_pop q = some (p, q1, t)) : quiet t := by
  unfold threadpool_queue_pop at h
  simp only [Option.bind_eq_bind, Option.bind_eq_some, Option.pure_def] at h
  obtain ⟨v, _, h⟩ := h
  split at h
  · simp only [Option.some.injEq, Prod.mk.injEq] at h
    obtain ⟨_, _, rfl⟩ := h
    exact quiet_check _ _
  · simp only [Option.bind_eq_bind, Option.bind_eq_some, Option.pure_def] at h
    obtain ⟨r, _, h⟩ := h
    split at h
    · simp only [Option.some.injEq, Prod.mk.injEq] at h
      obtain ⟨_, _, rfl⟩ := h
      exact quiet_append (quiet_check _ _) (quiet_single rfl)
    · simp only [Option.bind_eq_some, Option.some.injEq, Prod.mk.injEq] at h
      obtain ⟨m1, _, v1, _, _, _, rfl⟩ := h
      exact quiet_append (quiet_check _ _) (quiet_check _ _)

theorem push_quiet {q q1 : threadpool_queue} {item priority : Nat} {t : List Event}
    (h : threadpool_queue_push q item priority = some (q1, t)) : quiet t := by
  unfold threadpool_queue_push at h
  simp only [Option.bind_eq_bind, Option.bind_eq_some, Option.pure_def] at h
  obtain ⟨e, _, h⟩ := h
  split at h
  · simp only [Option.some.injEq, Prod.mk.injEq] at h
    obtain ⟨_, rfl⟩ := h
    exact quiet_single rfl
  · split at h
    · simp only [Option.bind_eq_some, Option.some.injEq, Prod.mk.injEq] at h
      obtain ⟨m, _, v, _, _, rfl⟩ := h
      exact quiet_check _ _
    · split at h <;>
      · simp only [Option.bind_eq_some, Option.some.injEq, Prod.mk.injEq] at h
        obtain ⟨m, _, v, _, _, rfl⟩ := h
        exact quiet_check _ _

theorem remove_quiet {q q1 : threadpool_queue} {item : Nat} {b : Bool} {t : List Event}
    (h : threadpool_queue_remove q item = some (b, q1, t)) : quiet t := by
  unfold threadpool_queue_remove at h
  simp only [Option.bind_eq_bind, Option.bind_eq_some, Option.pure_def] at h
  obtain ⟨e, _, h⟩ := h
  split at h
  · simp only [Option.some.injEq, Prod.mk.injEq] at h
    obtain ⟨_, _, rfl⟩ := h
    exact quiet_nil
  · simp only [Option.bind_eq_bind, Option.bind_eq_some, Option.pure_def] at h
    obtain ⟨emp, he, h⟩ := h
    have hq := (isempty_quiet he).1
    split at h
    · simp only [Option.some.injEq, Prod.mk.injEq] at h
      obtain ⟨_, _, rfl⟩ := h
      exact quiet_append hq (quiet_single rfl)
    · simp only [Option.bind_eq_some, Option.some.injEq, Prod.mk.injEq] at h
      obtain ⟨r, _, m2, _, v, _, _, _, rfl⟩ := h
      exact quiet_append hq (quiet_check _ _)


theorem same_control_refl (p : threadpool) : same_control p p := ⟨rfl, rfl, rfl, rfl, rfl⟩

/-- Effect of `threadpool_keepalive_locked` on an arbitrary pool. -/
theorem keepalive_locked_effect (pool : threadpool) (tick_count : Nat) :
    match threadpool_keepalive_locked pool tick_count with
    | Outcome.returned _ p t =>
      same_control pool p ∧ p.threads = pool.threads ∧ p.queue = pool.queue ∧ quiet t
    | Outcome.fault t => quiet t ∧ pool.provider = 0
    | Outcome.deadlock _ _ => False
    | Outcome.out_of_fuel => False := by
  unfold threadpool_keepalive_locked
  by_cases h1 : pool.active_threads < pool.threads
  · by_cases h2 : (tick_count + (UINT64 - pool.last_tick_count % UINT64)) % UINT64
        ≥ THREAD_POOL_KEEP_ALIVE_TIMEOUT
    · by_cases hp : pool.provider = 0
      · simp [h1, h2, hp, quiet_nil]
      · have hq1 : quiet [Event.provider_submit_lost_work pool.active_threads pool.threads] :=
          quiet_single rfl
        simp [h1, h2, hp, same_control, hq1]
    · simp [h1, h2, same_control_refl, quiet_nil]
  · simp [h1, same_control_refl, quiet_nil]

/-- Effect of `threadpool_submit` on an arbitrary pool. -/
theorem submit_effect (pool : threadpool) (item priority tick1 tick2 : Nat) (res : Bool) :
    match threadpool_submit pool item priority tick1 tick2 res with
    | Outcome.returned _ p t =>
      same_control pool p ∧ quiet t ∧
      (p.threads = pool.threads ∨
        (pool.shutdown_state = SHUTDOWN_STATE_NONE ∧ pool.threads < pool.max_threads ∧
          p.threads = inc32 pool.threads ∧ pool.provider ≠ 0))
    | Outcome.fault t => quiet t
    | Outcome.deadlock _ _ => False
    | Outcome.out_of_fuel => False := by
  unfold threadpool_submit
  by_cases hs : pool.shutdown_state = SHUTDOWN_STATE_NONE
  · simp only [hs, ne_eq, not_true_eq_false, if_false]
    have hk := keepalive_locked_effect pool tick1
    cases hko : threadpool_keepalive_locked pool tick1 with
    | returned r p1 t1 =>
      rw [hko] at hk
      obtain ⟨hc, ht, hq, hqt⟩ := hk
      simp only [Outcome.andThen]
      cases hpush : threadpool_queue_push p1.queue item priority with
      | none => simp [Outcome.after, hqt, quiet_append_iff, quiet_nil]
      | some r =>
        obtain ⟨q, t⟩ := r
        have hpq := push_quiet hpush
        obtain ⟨c1, c2, c3, c4, c5⟩ := hc
        by_cases hlt : pool.max_threads ≤ pool.threads
        · simp [hlt, Outcome.after, quiet_append_iff, hqt, hpq, same_control, c1, c2, c3, c4,
            c5, ht]
        · by_cases hprov : pool.provider = 0
          · simp [hlt, hprov, Outcome.after, quiet_append_iff, hqt, hpq, c4, c5, ht]
          · have hlt2 : pool.threads < pool.max_threads := by omega
            have hq1 : quiet [Event.provider_submit] := quiet_single rfl
            cases res <;>
              simp [hlt, hprov, Outcome.after, quiet_append_iff, hqt, hpq, same_control, c1,
                c2, c3, c4, c5, ht, hs, hlt2, hq1]
    | fault t =>
      rw [hko] at hk
      simp [Outcome.andThen, hk.1]
    | deadlock p t => rw [hko] at hk; exact hk.elim
    | out_of_fuel => rw [hko] at hk; exact hk.elim
  · have hq1 : quiet [Event.release item] := quiet_single rfl
    simp [hs, same_control_refl, hq1]

/-- Effect of `threadpool_cancel` on an arbitrary pool. -/
theorem cancel_effect (pool : threadpool) (item : Nat) :
    match threadpool_cancel pool item with
    | Outcome.returned _ p t => same_control pool p ∧ quiet t ∧ p.threads = pool.threads
    | Outcome.fault t => quiet t
    | Outcome.deadlock _ _ => False
    | Outcome.out_of_fuel => False := by
  unfold threadpool_cancel
  cases hr : threadpool_queue_remove pool.queue item with
  | none => simp [quiet_nil]
  | some r =>
    obtain ⟨b, q, t⟩ := r
    have hq := remove_quiet hr
    have hq1 : quiet [Event.release item] := quiet_single rfl
    cases b <;> simp [same_control, hq, quiet_append_iff, hq1]

/-- Effect of `threadpool_keepalive` called without the mutex held. -/
theorem keepalive_effect (pool : threadpool) (tick_count : Nat) :
    match threadpool_keepalive false pool tick_count with
    | Outcome.returned _ p t => same_control pool p ∧ quiet t ∧ p.threads = pool.threads
    | Outcome.fault t => quiet t
    | Outcome.deadlock _ _ => False
    | Outcome.out_of_fuel => False := by
  have hk := keepalive_locked_effect pool tick_count
  simp only [threadpool_keepalive, Bool.false_eq_true, if_false]
  cases hko : threadpool_keepalive_locked pool tick_count with
  | returned r p1 t1 => rw [hko] at hk; exact ⟨hk.1, hk.2.2.2, hk.2.1⟩
  | fault t => rw [hko] at hk; exact hk.1
  | deadlock p t => rw [hko] at hk; exact hk.elim
  | out_of_fuel => rw [hko] at hk; exact hk.elim

theorem handler_call_count (p : threadpool) : (handler_call p).countP is_handler_call ≤ 1 := by
  unfold handler_call
  split <;> simp [is_handler_call]

theorem count_quiet_append {a b : List Event} (ha : quiet a) :
    (a ++ b).countP is_handler_call = b.countP is_handler_call := by
  rw [List.countP_append, quiet_count ha]; simp

/-- Effect of `threadpool_shutdown` on an arbitrary pool. -/
theorem shutdown_effect (pool : threadpool) (abortive : Bool) (tick_count : Nat) :
    match threadpool_shutdown pool abortive tick_count with
    | Outcome.returned _ p t =>
      (pool.shutdown_state ≠ SHUTDOWN_STATE_NONE ∧ p = pool ∧ quiet t) ∨
      (pool.shutdown_state = SHUTDOWN_STATE_NONE ∧ pool.threads = 0 ∧ pool.active_threads = 0 ∧
        p.shutdown_state ≠ SHUTDOWN_STATE_NONE ∧ p.shutdown_handler_called = true ∧
        p.threads = pool.threads ∧ p.active_threads = pool.active_threads ∧
        p.max_threads = pool.max_threads ∧ p.provider = pool.provider ∧ p.queue = pool.queue ∧
        t.countP is_handler_call ≤ 1)
    | Outcome.deadlock p t =>
      pool.shutdown_state = SHUTDOWN_STATE_NONE ∧ p.shutdown_state ≠ SHUTDOWN_STATE_NONE ∧
        p.shutdown_handler_called = pool.shutdown_handler_called ∧
        p.threads = pool.threads ∧ p.active_threads = pool.active_threads ∧
        p.max_threads = pool.max_threads ∧ p.provider = pool.provider ∧ p.queue = pool.queue ∧
        t = []
    | Outcome.fault t => quiet t
    | Outcome.out_of_fuel => False := by
  unfold threadpool_shutdown
  by_cases hs : pool.shutdown_state = SHUTDOWN_STATE_NONE
  · simp only [hs, ne_eq, not_true_eq_false, if_false]
    by_cases hslot : pool.threads > 0 ∨ pool.active_threads > 0
    · simp only [hslot, if_true, threadpool_keepalive]
      cases abortive <;> simp
    · simp only [hslot, if_false]
      have h0 : pool.threads = 0 ∧ pool.active_threads = 0 := by omega
      cases he : threadpool_queue_isempty pool.queue with
      | none => simp [quiet_nil]
      | some r =>
        obtain ⟨e, t0⟩ := r
        have hq := (isempty_quiet he).1
        simp only at hq
        have hq2 : quiet (t0 ++ check e 361 ++ check (!pool.shutdown_handler_called) 363) :=
          quiet_append (quiet_append hq (quiet_check _ _)) (quiet_check _ _)
        have hc : ∀ u : List Event, u.countP is_handler_call ≤ 1 →
            ((t0 ++ check e 361 ++ check (!pool.shutdown_handler_called) 363) ++ u).countP
              is_handler_call ≤ 1 := by
          intro u hu
          rw [count_quiet_append hq2]; exact hu
        show _ ∨ _
        refine Or.inr ⟨by simp, h0.1, h0.2, ?_, by simp, by simp, by simp, by simp, by simp,
          by simp, ?_⟩
        · cases abortive <;> simp
        · apply hc
          split <;> simp [is_handler_call]
  · have hq1 : quiet [Event.assert_failed 346] := quiet_single rfl
    simp [hs, hq1]

/-- Effect of the critical section of `threadpool_close`. -/
theorem close_begin_effect (pool : threadpool) :
    (close_begin pool).1.shutdown_state ≠ SHUTDOWN_STATE_NONE ∧
    (pool.shutdown_state ≠ SHUTDOWN_STATE_NONE →
      (close_begin pool).1.shutdown_state = pool.shutdown_state) ∧
    (close_begin pool).1.shutdown_handler_called = pool.shutdown_handler_called ∧
    (close_begin pool).1.threads = inc32 pool.threads ∧
    (close_begin pool).1.active_threads = pool.active_threads ∧
    (close_begin pool).1.max_threads = pool.max_threads ∧
    (close_begin pool).1.provider = pool.provider ∧
    (close_begin pool).1.queue = pool.queue ∧
    quiet (close_begin pool).2 := by
  unfold close_begin
  by_cases hs : pool.shutdown_state = SHUTDOWN_STATE_NONE
  · simp [hs, quiet_check]
  · simp [hs, quiet_check]

/-- Effect of the end of `threadpool_close`. -/
theorem close_end_effect (pool : threadpool) :
    match close_end pool with
    | Outcome.returned _ p t =>
      p.shutdown_state = SHUTDOWN_STATE_COMPLETE ∧
      p.shutdown_handler_called = pool.shutdown_handler_called ∧
      p.threads = pool.threads ∧ p.active_threads = pool.active_threads ∧
      p.max_threads = pool.max_threads ∧ p.provider = pool.provider ∧ p.queue = pool.queue ∧
      quiet t
    | Outcome.fault t => quiet t
    | Outcome.deadlock _ _ => False
    | Outcome.out_of_fuel => False := by
  unfold close_end
  have hq1 : quiet [Event.provider_close] := quiet_single rfl
  by_cases hp : pool.provider = 0
  · simp [hp, quiet_nil]
  · simp only [hp, if_false]
    cases he : threadpool_queue_isempty pool.queue with
    | none => simp [hq1]
    | some r =>
      obtain ⟨e, t0⟩ := r
      have hq := (isempty_quiet he).1
      simp only at hq
      show _ ∧ _
      refine ⟨by simp, by simp, by simp, by simp, by simp, by simp, by simp, ?_⟩
      exact quiet_append (quiet_append (quiet_append hq1 hq) (quiet_check _ _)) (quiet_check _ _)

/-- Effect of the entry of `thread_pool_async_dequeue`. -/
theorem dequeue_entry_effect (pool : threadpool) (tick_count : Nat) (p : threadpool) (b : Bool)
    (h : dequeue_entry pool tick_count = (p, b)) :
    p.shutdown_state = pool.shutdown_state ∧
    p.shutdown_handler_called = pool.shutdown_handler_called ∧
    p.max_threads = pool.max_threads ∧
    p.provider = pool.provider ∧
    p.queue = pool.queue ∧
    ((b = true ∧ pool.active_threads < pool.threads ∧ p.threads = pool.threads ∧
        p.active_threads = inc32 pool.active_threads ∧
        inc32 pool.active_threads ≤ pool.threads) ∨
     (b = false ∧ pool.threads ≤ pool.active_threads ∧ p.threads = pool.threads ∧
        p.active_threads = pool.active_threads) ∨
     (b = false ∧ pool.active_threads < pool.threads ∧
        pool.threads < inc32 pool.active_threads ∧ p.threads = dec32 pool.threads ∧
        p.active_threads = dec32 (inc32 pool.active_threads))) := by
  unfold dequeue_entry at h
  by_cases h1 : pool.active_threads ≥ pool.threads
  · simp only [h1, if_true, Prod.mk.injEq] at h
    obtain ⟨rfl, rfl⟩ := h
    exact ⟨rfl, rfl, rfl, rfl, rfl, Or.inr (Or.inl ⟨rfl, h1, rfl, rfl⟩)⟩
  · have h3 : pool.active_threads < pool.threads := Nat.lt_of_not_le h1
    simp only [h1, if_false] at h
    by_cases h2 : inc32 pool.active_threads > pool.threads
    · simp only [h2, if_true, Prod.mk.injEq] at h
      obtain ⟨rfl, rfl⟩ := h
      exact ⟨rfl, rfl, rfl, rfl, rfl, Or.inr (Or.inr ⟨rfl, h3, h2, rfl, rfl⟩)⟩
    · simp only [h2, if_false, Prod.mk.injEq] at h
      obtain ⟨rfl, rfl⟩ := h
      exact ⟨rfl, rfl, rfl, rfl, rfl, Or.inl ⟨rfl, h3, rfl, rfl, Nat.le_of_not_lt h2⟩⟩

/-- Effect of one pass of the drain loop. -/
theorem dequeue_iteration_effect (pool : threadpool) :
    match dequeue_iteration pool with
    | Iteration.item p t => same_control pool p ∧ p.threads = pool.threads ∧ quiet t
    | Iteration.empty p t => same_control pool p ∧ p.threads = pool.threads ∧ quiet t
    | Iteration.fault t => quiet t := by
  unfold dequeue_iteration
  have hq0 : quiet (check (decide (pool.threads ≥ 1)) 183
      ++ check (decide (pool.threads ≥ pool.active_threads)) 184
      ++ check (decide (pool.shutdown_state ≠ SHUTDOWN_STATE_COMPLETE)) 185) :=
    quiet_append (quiet_append (quiet_check _ _) (quiet_check _ _)) (quiet_check _ _)
  cases hp : threadpool_queue_pop pool.queue with
  | none => exact hq0
  | some r =>
    obtain ⟨p, q, t⟩ := r
    have hq := pop_quiet hp
    cases p with
    | null => exact ⟨⟨rfl, rfl, rfl, rfl, rfl⟩, rfl, quiet_append hq0 hq⟩
    | link i =>
      refine ⟨⟨rfl, rfl, rfl, rfl, rfl⟩, rfl, ?_⟩
      refine quiet_append (quiet_append (quiet_append hq0 hq) ?_) (quiet_single rfl)
      split
      · exact quiet_single rfl
      · exact quiet_nil
    | queue_normal => exact quiet_append hq0 hq
    | queue_low => exact quiet_append hq0 hq
    | queue_high => exact quiet_append hq0 hq

/-- Effect of the exit of `thread_pool_async_dequeue`. -/
theorem dequeue_exit_effect (pool : threadpool) :
    match dequeue_exit pool with
    | Outcome.returned _ p t =>
      p.threads = dec32 pool.threads ∧ p.active_threads = dec32 pool.active_threads ∧
      p.shutdown_state = pool.shutdown_state ∧ p.max_threads = pool.max_threads ∧
      p.provider = pool.provider ∧ p.queue = pool.queue ∧
      ((p.shutdown_handler_called = pool.shutdown_handler_called ∧ quiet t) ∨
       (pool.shutdown_handler_called = false ∧ p.shutdown_handler_called = true ∧
         pool.shutdown_state ≠ SHUTDOWN_STATE_NONE ∧ p.active_threads = 0 ∧
         t.countP is_handler_call ≤ 1))
    | Outcome.fault t => quiet t
    | Outcome.deadlock _ _ => False
    | Outcome.out_of_fuel => False := by
  unfold dequeue_exit
  by_cases hc : pool.shutdown_state = SHUTDOWN_STATE_NONE ∨ dec32 pool.active_threads ≠ 0
      ∨ pool.shutdown_handler_called = true
  · simp only [hc, if_true]
    exact ⟨by simp, by simp, by simp, by simp, by simp, by simp,
      Or.inl ⟨by simp, quiet_nil⟩⟩
  · simp only [hc, if_false]
    simp only [not_or, ne_eq, Decidable.not_not, Bool.not_eq_true] at hc
    cases he : threadpool_queue_isempty pool.queue with
    | none => simp [quiet_nil]
    | some r =>
      obtain ⟨e, t0⟩ := r
      have hq := (isempty_quiet he).1
      simp only at hq
      show _ ∧ _
      refine ⟨by simp, by simp, by simp, by simp, by simp, by simp,
        Or.inr ⟨hc.2.2, by simp, hc.1, hc.2.1, ?_⟩⟩
      rw [count_quiet_append (quiet_append hq (quiet_check _ _))]
      split <;> simp [is_handler_call]

/-! ## Steps of the interleaved model -/

/-- A step that neither writes `shutdown_handler_called` nor calls the handler
and leaves `shutdown_state` other than NONE when it was. -/
theorem latch_step_of_quiet {s s1 : System} {t : List Event} (hj : latch_inv s)
    (hc : s1.pool.shutdown_handler_called = s.pool.shutdown_handler_called)
    (hs : s.pool.shutdown_state ≠ SHUTDOWN_STATE_NONE →
      s1.pool.shutdown_state ≠ SHUTDOWN_STATE_NONE)
    (hq : quiet t) : latch_step s s1 t := by
  refine ⟨?_, ?_, ?_, ?_⟩
  · intro h
    rw [hc] at h
    exact hs (hj h)
  · intro h
    exact ⟨by rw [hc]; exact h, hq⟩
  · rw [quiet_count hq]; exact Nat.zero_le _
  · intro h
    rw [quiet_count hq] at h
    exact absurd h (Nat.lt_irrefl 0)

/-- Every step of the interleaved model sets the latch at most from false to
true, and calls the handler only when it does so. -/
theorem step_latch (s : System) (st : Step) (hj : latch_inv s) :
    match step s st with
    | Progress.next s1 t => latch_step s s1 t
    | Progress.crash t => quiet t
    | Progress.blocked => True := by
  cases st with
  | close_end =>
    simp only [step]
    by_cases h0 : s.closing = 0
    · simp [h0]
    · simp only [h0, if_false]
      have he := close_end_effect s.pool
      cases ho : close_end s.pool with
      | returned r p t =>
        rw [ho] at he
        simp only [Progress.of_outcome]
        exact latch_step_of_quiet hj he.2.1 (fun _ => by simp [he.1]) he.2.2.2.2.2.2.2
      | fault t => rw [ho] at he; exact he
      | deadlock p t => rw [ho] at he; exact he.elim
      | out_of_fuel => trivial
  | submit item priority tick1 tick2 res =>
    simp only [step]
    by_cases h0 : s.stuck = true
    · simp [h0]
    · simp only [h0]
      have he := submit_effect s.pool item priority tick1 tick2 res
      cases ho : threadpool_submit s.pool item priority tick1 tick2 res with
      | returned r p t =>
        rw [ho] at he
        simp only [Progress.of_outcome]
        exact latch_step_of_quiet hj he.1.2.1 (fun h => by simpa [he.1.1] using h) he.2.1
      | fault t => rw [ho] at he; exact he
      | deadlock p t => rw [ho] at he; exact he.elim
      | out_of_fuel => trivial
  | cancel item =>
    simp only [step]
    by_cases h0 : s.stuck = true
    · simp [h0]
    · simp only [h0]
      have he := cancel_effect s.pool item
      cases ho : threadpool_cancel s.pool item with
      | returned r p t =>
        rw [ho] at he
        simp only [Progress.of_outcome]
        exact latch_step_of_quiet hj he.1.2.1 (fun h => by simpa [he.1.1] using h) he.2.1
      | fault t => rw [ho] at he; exact he
      | deadlock p t => rw [ho] at he; exact he.elim
      | out_of_fuel => trivial
  | keepalive tick_count =>
    simp only [step]
    by_cases h0 : s.stuck = true
    · simp [h0]
    · simp only [h0]
      have he := keepalive_effect s.pool tick_count
      cases ho : threadpool_keepalive false s.pool tick_count with
      | returned r p t =>
        rw [ho] at he
        simp only [Progress.of_outcome]
        exact latch_step_of_quiet hj he.1.2.1 (fun h => by simpa [he.1.1] using h) he.2.1
      | fault t => rw [ho] at he; exact he
      | deadlock p t => rw [ho] at he; exact he.elim
      | out_of_fuel => trivial
  | shutdown abortive tick_count =>
    simp only [step]
    by_cases h0 : s.stuck = true
    · simp [h0]
    · simp only [h0]
      have he := shutdown_effect s.pool abortive tick_count
      cases ho : threadpool_shutdown s.pool abortive tick_count with
      | returned r p t =>
        rw [ho] at he
        simp only [Progress.of_outcome]
        rcases he with ⟨h1, h2, h3⟩ | ⟨h1, _, _, h4, h5, _, _, _, _, _, h6⟩
        · subst h2
          exact latch_step_of_quiet hj rfl (fun h => h) h3
        · have hcf : s.pool.shutdown_handler_called = false := by
            cases hc : s.pool.shutdown_handler_called with
            | false => rfl
            | true => exact absurd h1 (hj hc)
          refine show latch_step _ _ _ from ⟨fun _ => h4, ?_, h6, fun _ => ⟨hcf, h5⟩⟩
          intro h
          rw [hcf] at h
          cases h
      | fault t => rw [ho] at he; exact he
      | deadlock p t =>
        rw [ho] at he
        simp only [Progress.of_outcome]
        obtain ⟨_, h2, h3, _, _, _, _, _, h9⟩ := he
        subst h9
        exact latch_step_of_quiet hj h3 (fun _ => h2) quiet_nil
      | out_of_fuel => trivial
  | close_begin =>
    simp only [step]
    by_cases h0 : s.stuck = true
    · simp [h0]
    · simp only [h0]
      have he := close_begin_effect s.pool
      exact latch_step_of_quiet hj he.2.2.1 (fun _ => he.1) he.2.2.2.2.2.2.2.2
  | dequeue_entry tick_count =>
    simp only [step]
    by_cases h0 : s.stuck = true
    · simp [h0]
    · simp only [h0]
      cases hd : dequeue_entry s.pool tick_count with
      | mk p b =>
        have he := dequeue_entry_effect s.pool tick_count p b hd
        cases b
        · exact latch_step_of_quiet hj he.2.1 (fun h => by simpa [he.1] using h) quiet_nil
        · exact latch_step_of_quiet hj he.2.1 (fun h => by simpa [he.1] using h) quiet_nil
  | dequeue_iteration =>
    by_cases h0 : s.stuck = true
    · simp [step, h0]
    · by_cases h1 : s.in_loop = 0
      · simp [step, h0, h1]
      · have he := dequeue_iteration_effect s.pool
        cases hd : dequeue_iteration s.pool with
        | fault t =>
          rw [hd] at he
          have hst : step s Step.dequeue_iteration = Progress.crash t := by
            simp [step, h0, h1, hd]
          rw [hst]; exact he
        | item p t =>
          rw [hd] at he
          have hst : step s Step.dequeue_iteration = Progress.next { s with pool := p } t := by
            simp [step, h0, h1, hd]
          rw [hst]
          exact latch_step_of_quiet hj he.1.2.1 (fun h => by simpa [he.1.1] using h) he.2.2
        | empty p t =>
          rw [hd] at he
          obtain ⟨⟨c1, c2, _, _, _⟩, _, hq⟩ := he
          have hx := dequeue_exit_effect p
          cases hex : dequeue_exit p with
          | returned r p2 t2 =>
            rw [hex] at hx
            have hst : step s Step.dequeue_iteration
                = Progress.next { s with pool := p2, in_loop := s.in_loop - 1 } (t ++ t2) := by
              simp [step, h0, h1, hd, hex, Outcome.after, Progress.of_outcome]
            rw [hst]
            obtain ⟨_, _, x3, _, _, _, x7⟩ := hx
            rcases x7 with ⟨y1, y2⟩ | ⟨y1, y2, y3, _, y5⟩
            · exact latch_step_of_quiet hj (by simp [y1, c2])
                (fun h => by simpa [x3, c1] using h) (quiet_append hq y2)
            · refine show latch_step _ _ _ from ⟨fun _ => by simpa [x3] using y3, ?_, ?_, ?_⟩
              · intro h
                rw [← c2, y1] at h
                cases h
              · rw [count_quiet_append hq]; exact y5
              · intro _
                exact ⟨by rw [← c2]; exact y1, y2⟩
          | fault t2 =>
            rw [hex] at hx
            have hst : step s Step.dequeue_iteration = Progress.crash (t ++ t2) := by
              simp [step, h0, h1, hd, hex, Outcome.after, Progress.of_outcome]
            rw [hst]
            exact quiet_append hq hx
          | deadlock p2 t2 => rw [hex] at hx; exact hx.elim
          | out_of_fuel => rw [hex] at hx; exact hx.elim

/-! ## The shutdown handler is called at most once -/

theorem run_cons (s : System) (st : Step) (rest : List Step) :
    run s (st :: rest)
      = match step s st with
        | Progress.next s1 t =>
          { pre := s, step := st, post := s1, trace := t, crashed := false } :: run s1 rest
        | Progress.crash t => [{ pre := s, step := st, post := s, trace := t, crashed := true }]
        | Progress.blocked => [] := rfl

/-- Along every execution the latch is set at most once and the handler is
called at most once, by the step that sets the latch. -/
theorem run_latch : ∀ (steps : List Step) (s : System), latch_inv s →
    (run s steps).countP latches ≤ (if s.pool.shutdown_handler_called = true then 0 else 1) ∧
    (events (run s steps)).countP is_handler_call
      ≤ (if s.pool.shutdown_handler_called = true then 0 else 1) ∧
    ∀ r ∈ run s steps, r.trace.countP is_handler_call ≤ 1 ∧
      (0 < r.trace.countP is_handler_call → latches r = true)
  | [], s, _ => by simp [run, events]
  | st :: rest, s, hj => by
    have hs := step_latch s st hj
    rw [run_cons]
    cases hst : step s st with
    | blocked => simp [events]
    | crash t =>
      rw [hst] at hs
      have hq : quiet t := hs
      have hc := quiet_count hq
      refine ⟨by simp [latches], by simp [events, hc], ?_⟩
      intro r hr
      simp only [List.mem_singleton] at hr
      subst hr
      simp [hc]
    | next s1 t =>
      rw [hst] at hs
      obtain ⟨j1, k1, k2, k3⟩ := hs
      obtain ⟨i1, i2, i3⟩ := run_latch rest s1 j1
      simp only [events, List.flatMap_cons, List.countP_cons, List.countP_append,
        List.mem_cons, forall_eq_or_imp] at i2 ⊢
      cases hc : s.pool.shutdown_handler_called with
      | true =>
        obtain ⟨c1, c2⟩ := k1 hc
        rw [c1] at i1 i2
        simp only [if_true, Nat.le_zero] at i1 i2
        have hq := quiet_count c2
        refine ⟨?_, ?_, ⟨?_, ?_⟩, i3⟩
        · simp [latches, hc, i1]
        · simp [hq, i2]
        · simp [hq]
        · simp [hq]
      | false =>
        cases hc1 : s1.pool.shutdown_handler_called with
        | true =>
          rw [hc1] at i1 i2
          simp only [if_true, Nat.le_zero] at i1 i2
          refine ⟨?_, ?_, ⟨k2, ?_⟩, i3⟩
          · simp [latches, hc, hc1, i1]
          · simp only [Bool.false_eq_true, if_false]; omega
          · intro _; simp [latches, hc, hc1]
        | false =>
          rw [hc1] at i1 i2
          simp only [Bool.false_eq_true, if_false] at i1 i2
          have hz : t.countP is_handler_call = 0 := by
            by_contra hne
            have := (k3 (Nat.pos_of_ne_zero hne)).2
            rw [hc1] at this
            cases this
          refine ⟨?_, ?_, ⟨k2, ?_⟩, i3⟩
          · simp only [latches, hc, hc1, Bool.false_eq_true, if_false]
            simpa using i1
          · simp only [Bool.false_eq_true, if_false]; omega
          · intro h; rw [hz] at h; exact absurd h (Nat.lt_irrefl 0)

/-- C6: in every execution of the interleaved model (any sequence of submit,
cancel, keepalive, shutdown, close and worker dequeue steps) that starts with
`shutdown_handler_called` false (in state NONE or any other), at most one step
takes `shutdown_handler_called` from false to true, the shutdown handler is
called at most once in all, and a step that calls it is a step that performs
that transition. -/
theorem shutdown_handler_at_most_once (s : System) (steps : List Step)
    (hcalled : s.pool.shutdown_handler_called = false) :
    (run s steps).countP latches ≤ 1 ∧
    (events (run s steps)).countP is_handler_call ≤ 1 ∧
    ∀ r ∈ run s steps, r.trace.countP is_handler_call ≤ 1 ∧
      (0 < r.trace.countP is_handler_call → latches r = true) := by
  have hj : latch_inv s := by
    intro h; rw [hcalled] at h; cases h
  have := run_latch steps s hj
  rw [hcalled] at this
  simpa using this

/-- C6, at `threadpool_close` on a pool that was never submitted to: the
handler is called once, by the exit of the drain that sets the latch. -/
theorem shutdown_handler_at_most_once_witness :
    (events (run (System.start (pool_init 2))
        [Step.close_begin, Step.dequeue_entry 0, Step.dequeue_iteration, Step.close_end])
      = [Event.shutdown_handler 1 0, Event.provider_close]) ∧
    ((run (System.start (pool_init 2))
        [Step.close_begin, Step.dequeue_entry 0, Step.dequeue_iteration,
          Step.close_end]).countP latches ≤ 1 ∧
      (events (run (System.start (pool_init 2))
        [Step.close_begin, Step.dequeue_entry 0, Step.dequeue_iteration,
          Step.close_end])).countP is_handler_call ≤ 1 ∧
      ∀ r ∈ run (System.start (pool_init 2))
          [Step.close_begin, Step.dequeue_entry 0, Step.dequeue_iteration, Step.close_end],
        r.trace.countP is_handler_call ≤ 1 ∧
          (0 < r.trace.countP is_handler_call → latches r = true)) :=
  ⟨by decide, shutdown_handler_at_most_once (System.start (pool_init 2))
    [Step.close_begin, Step.dequeue_entry 0, Step.dequeue_iteration, Step.close_end] rfl⟩

/-! ## Slot counters -/

/-- A step that changes neither counter nor the ghost state. -/
theorem slots_step_same {bound : Nat} {s : System} {p : threadpool} (st : Step)
    (hi : slots_inv bound s) (hst : st ≠ Step.close_begin) (b : Bool)
    (h1 : p.threads = s.pool.threads) (h2 : p.active_threads = s.pool.active_threads)
    (h3 : p.max_threads = s.pool.max_threads) (h4 : p.provider = s.pool.provider)
    (h5 : s.pool.shutdown_state ≠ SHUTDOWN_STATE_NONE → p.shutdown_state ≠ SHUTDOWN_STATE_NONE) :
    slots_step bound s { s with pool := p, stuck := b } st := by
  obtain ⟨i1, i2, i3, i4, i5, i6⟩ := hi
  refine ⟨⟨?_, ?_, ?_, ?_, ?_, i6⟩, by simp [hst], ?_, ?_, ?_, ?_⟩
  · simp [i1, h2]
  · simp [h1, h2, i2]
  · simp [h1, i3]
  · intro hc; exact h5 (i4 hc)
  · simpa [h3, h4] using i5
  · simp [h1]
  · simp [h1]
  · simp [h2]
  · simp [h2]

theorem step_slots (bound : Nat) (s : System) (st : Step) (hi : slots_inv bound s)
    (hc : s.closes + (if st = Step.close_begin then 1 else 0) ≤ 1) :
    match step s st with
    | Progress.next s1 _ => slots_step bound s s1 st
    | Progress.crash _ => True
    | Progress.blocked => True := by
  cases st with
  | close_end =>
    by_cases h0 : s.closing = 0
    · simp [step, h0]
    · have he := close_end_effect s.pool
      cases ho : close_end s.pool with
      | returned r p t =>
        rw [ho] at he
        have hst : step s Step.close_end
            = Progress.next { s with pool := p, closing := s.closing - 1 } t := by
          simp [step, h0, ho, Progress.of_outcome]
        rw [hst]
        obtain ⟨e1, _, e3, e4, e5, e6, _, _⟩ := he
        obtain ⟨i1, i2, i3, i4, i5, i6⟩ := hi
        refine ⟨⟨?_, ?_, ?_, ?_, ?_, i6⟩, by simp, ?_, ?_, ?_, ?_⟩
        · simp [i1, e4]
        · simp [e3, e4, i2]
        · simp [e3, i3]
        · intro _; simp [e1]
        · simpa [e5, e6] using i5
        · simp [e3]
        · simp [e3]
        · simp [e4]
        · simp [e4]
      | fault t => simp [step, h0, ho, Progress.of_outcome]
      | deadlock p t => rw [ho] at he; exact he.elim
      | out_of_fuel => rw [ho] at he; exact he.elim
  | submit item priority tick1 tick2 res =>
    by_cases h0 : s.stuck = true
    · simp [step, h0]
    · have he := submit_effect s.pool item priority tick1 tick2 res
      cases ho : threadpool_submit s.pool item priority tick1 tick2 res with
      | returned r p t =>
        rw [ho] at he
        have hst : step s (Step.submit item priority tick1 tick2 res)
            = Progress.next { s with pool := p } t := by
          simp [step, h0, ho, Progress.of_outcome]
        rw [hst]
        obtain ⟨⟨c1, _, c3, c4, c5⟩, _, ht⟩ := he
        rcases ht with ht | ⟨t1, t2, t3, t4⟩
        · have := slots_step_same (Step.submit item priority tick1 tick2 res)
            hi (by simp) s.stuck ht c3 c4 c5 (fun h => by simpa [c1] using h)
          simpa using this
        · obtain ⟨i1, i2, i3, i4, i5, i6⟩ := hi
          have hcl : s.closes = 0 := by
            by_contra hne
            exact i4 (Nat.pos_of_ne_zero hne) t1
          have hb : bound = s.pool.max_threads := by
            rcases i5 with h | ⟨_, h⟩
            · exact h
            · exact absurd h t4
          have hinc : inc32 s.pool.threads = s.pool.threads + 1 := inc32_eq (by omega)
          rw [hinc] at t3
          refine ⟨⟨?_, ?_, ?_, ?_, ?_, i6⟩, by simp, ?_, ?_, ?_, ?_⟩
          · simp [i1, c3]
          · simp only [c3, t3]; omega
          · simp only [t3]; omega
          · intro h; simp only at h; omega
          · simpa [c4, c5] using i5
          · simp [t3]
          · simp only [t3]; omega
          · simp [c3]
          · simp [c3]
      | fault t => simp [step, h0, ho, Progress.of_outcome]
      | deadlock p t => rw [ho] at he; exact he.elim
      | out_of_fuel => rw [ho] at he; exact he.elim
  | cancel item =>
    by_cases h0 : s.stuck = true
    · simp [step, h0]
    · have he := cancel_effect s.pool item
      cases ho : threadpool_cancel s.pool item with
      | returned r p t =>
        rw [ho] at he
        have hst : step s (Step.cancel item) = Progress.next { s with pool := p } t := by
          simp [step, h0, ho, Progress.of_outcome]
        rw [hst]
        obtain ⟨⟨c1, _, c3, c4, c5⟩, _, ht⟩ := he
        have := slots_step_same (Step.cancel item)
            hi (by simp) s.stuck ht c3 c4 c5 (fun h => by simpa [c1] using h)
        simpa using this
      | fault t => simp [step, h0, ho, Progress.of_outcome]
      | deadlock p t => rw [ho] at he; exact he.elim
      | out_of_fuel => rw [ho] at he; exact he.elim
  | keepalive tick_count =>
    by_cases h0 : s.stuck = true
    · simp [step, h0]
    · have he := keepalive_effect s.pool tick_count
      cases ho : threadpool_keepalive false s.pool tick_count with
      | returned r p t =>
        rw [ho] at he
        have hst : step s (Step.keepalive tick_count) = Progress.next { s with pool := p } t := by
          simp [step, h0, ho, Progress.of_outcome]
        rw [hst]
        obtain ⟨⟨c1, _, c3, c4, c5⟩, _, ht⟩ := he
        have := slots_step_same (Step.keepalive tick_count)
            hi (by simp) s.stuck ht c3 c4 c5 (fun h => by simpa [c1] using h)
        simpa using this
      | fault t => simp [step, h0, ho, Progress.of_outcome]
      | deadlock p t => rw [ho] at he; exact he.elim
      | out_of_fuel => rw [ho] at he; exact he.elim
  | shutdown abortive tick_count =>
    by_cases h0 : s.stuck = true
    · simp [step, h0]
    · have he := shutdown_effect s.pool abortive tick_count
      cases ho : threadpool_shutdown s.pool abortive tick_count with
      | returned r p t =>
        rw [ho] at he
        have hst : step s (Step.shutdown abortive tick_count)
            = Progress.next { s with pool := p } t := by
          simp [step, h0, ho, Progress.of_outcome]
        rw [hst]
        rcases he with ⟨_, h2, _⟩ | ⟨_, _, _, h4, _, h6, h7, h8, h9, _, _⟩
        · subst h2
          have := slots_step_same (Step.shutdown abortive tick_count)
            hi (by simp) s.stuck rfl rfl rfl rfl (fun h => h)
          simpa using this
        · have := slots_step_same (Step.shutdown abortive tick_count)
            hi (by simp) s.stuck h6 h7 h8 h9 (fun _ => h4)
          simpa using this
      | fault t => simp [step, h0, ho, Progress.of_outcome]
      | deadlock p t =>
        rw [ho] at he
        have hst : step s (Step.shutdown abortive tick_count)
            = Progress.next { s with pool := p, stuck := true } t := by
          simp [step, h0, ho, Progress.of_outcome]
        rw [hst]
        obtain ⟨_, h2, _, h4, h5, h6, h7, _, _⟩ := he
        exact slots_step_same (Step.shutdown abortive tick_count)
            hi (by simp) true h4 h5 h6 h7 (fun _ => h2)
      | out_of_fuel => rw [ho] at he; exact he.elim
  | close_begin =>
    by_cases h0 : s.stuck = true
    · simp [step, h0]
    · have he := close_begin_effect s.pool
      have hst : step s Step.close_begin
          = Progress.next { s with pool := (close_begin s.pool).1, closing := s.closing + 1,
                                   closes := s.closes + 1 } (close_begin s.pool).2 := by
        simp [step, h0]
      rw [hst]
      obtain ⟨e1, _, _, e4, e5, e6, e7, _, _⟩ := he
      obtain ⟨i1, i2, i3, i4, i5, i6⟩ := hi
      simp only [if_true] at hc
      have hcl : s.closes = 0 := by omega
      have hinc : inc32 s.pool.threads = s.pool.threads + 1 := inc32_eq (by omega)
      rw [hinc] at e4
      refine ⟨⟨?_, ?_, ?_, ?_, ?_, i6⟩, by simp, ?_, ?_, ?_, ?_⟩
      · simp [i1, e5]
      · simp only [e4, e5]; omega
      · simp only [e4]; omega
      · intro _; exact e1
      · simpa [e6, e7] using i5
      · simp [e4]
      · simp only [e4]; omega
      · simp [e5]
      · simp [e5]
  | dequeue_entry tick_count =>
    by_cases h0 : s.stuck = true
    · simp [step, h0]
    · cases hd : dequeue_entry s.pool tick_count with
      | mk p b =>
        obtain ⟨e1, _, e3, e4, _, e6⟩ := dequeue_entry_effect s.pool tick_count p b hd
        obtain ⟨i1, i2, i3, i4, i5, i6⟩ := hi
        have hcl : s.closes ≤ 1 := by
          have : 0 ≤ (if Step.dequeue_entry tick_count = Step.close_begin then 1 else 0) :=
            Nat.zero_le _
          omega
        rcases e6 with ⟨rfl, a1, a2, a3, a4⟩ | ⟨rfl, a1, a2, a3⟩ | ⟨rfl, a1, a2, _, _⟩
        · have hst : step s (Step.dequeue_entry tick_count)
              = Progress.next { s with pool := p, in_loop := s.in_loop + 1 } [] := by
            simp [step, h0, hd]
          rw [hst]
          have hinc : inc32 s.pool.active_threads = s.pool.active_threads + 1 :=
            inc32_eq (by omega)
          rw [hinc] at a3
          refine ⟨⟨?_, ?_, ?_, ?_, ?_, i6⟩, by simp, ?_, ?_, ?_, ?_⟩
          · simp [i1, a3]
          · simp only [a2, a3]; omega
          · simp [a2, i3]
          · intro h; simpa [e1] using i4 h
          · simpa [e3, e4] using i5
          · simp [a2]
          · simp [a2]
          · simp [a3]
          · simp only [a3]; omega
        · have hst : step s (Step.dequeue_entry tick_count)
              = Progress.next { s with pool := p } [] := by
            simp [step, h0, hd]
          rw [hst]
          have := slots_step_same (Step.dequeue_entry tick_count)
            ⟨i1, i2, i3, i4, i5, i6⟩ (by simp) s.stuck a2 a3 e3 e4
            (fun h => by simpa [e1] using h)
          simpa using this
        · have hinc : inc32 s.pool.active_threads = s.pool.active_threads + 1 :=
            inc32_eq (by omega)
          omega
  | dequeue_iteration =>
    by_cases h0 : s.stuck = true
    · simp [step, h0]
    · by_cases h1 : s.in_loop = 0
      · simp [step, h0, h1]
      · have he := dequeue_iteration_effect s.pool
        cases hd : dequeue_iteration s.pool with
        | fault t => simp [step, h0, h1, hd]
        | item p t =>
          rw [hd] at he
          have hst : step s Step.dequeue_iteration = Progress.next { s with pool := p } t := by
            simp [step, h0, h1, hd]
          rw [hst]
          obtain ⟨⟨c1, _, c3, c4, c5⟩, ht, _⟩ := he
          have := slots_step_same (Step.dequeue_iteration)
            hi (by simp) s.stuck ht c3 c4 c5 (fun h => by simpa [c1] using h)
          simpa using this
        | empty p t =>
          rw [hd] at he
          obtain ⟨⟨c1, _, c3, c4, c5⟩, ct, _⟩ := he
          have hx := dequeue_exit_effect p
          cases hex : dequeue_exit p with
          | returned r p2 t2 =>
            rw [hex] at hx
            have hst : step s Step.dequeue_iteration
                = Progress.next { s with pool := p2, in_loop := s.in_loop - 1 } (t ++ t2) := by
              simp [step, h0, h1, hd, hex, Outcome.after, Progress.of_outcome]
            rw [hst]
            obtain ⟨x1, x2, x3, x4, x5, _, _⟩ := hx
            obtain ⟨i1, i2, i3, i4, i5, i6⟩ := hi
            have hcl : s.closes ≤ 1 := by
              have : 0 ≤ (if Step.dequeue_iteration = Step.close_begin then 1 else 0) :=
                Nat.zero_le _
              omega
            have ha : 1 ≤ s.pool.active_threads := by omega
            have hd1 : dec32 p.threads = s.pool.threads - 1 := by
              rw [ct]; exact dec32_eq (by omega) (by omega)
            have hd2 : dec32 p.active_threads = s.pool.active_threads - 1 := by
              rw [c3]; exact dec32_eq (by omega) (by omega)
            rw [hd1] at x1
            rw [hd2] at x2
            refine ⟨⟨?_, ?_, ?_, ?_, ?_, i6⟩, by simp, ?_, ?_, ?_, ?_⟩
            · simp only [x2]; omega
            · simp only [x1, x2]; omega
            · simp only [x1]; omega
            · intro h; simpa [x3, c1] using i4 h
            · simpa [x4, x5, c4, c5] using i5
            · simp only [x1]; omega
            · simp only [x1]; omega
            · simp only [x2]; omega
            · simp only [x2]; omega
          | fault t2 => simp [step, h0, h1, hd, hex, Outcome.after, Progress.of_outcome]
          | deadlock p2 t2 => rw [hex] at hx; exact hx.elim
          | out_of_fuel => rw [hex] at hx; exact hx.elim

theorem counters_ok_of_slots {bound : Nat} {s : System} (hi : slots_inv bound s)
    (hc : s.closes ≤ 1) : counters_ok s.pool := by
  obtain ⟨_, i2, i3, _, i5, _⟩ := hi
  refine ⟨i2, ?_⟩
  rcases i5 with h | ⟨h, _⟩ <;> omega

/-- The slot invariant holds before and after every step of an execution in
which `threadpool_close` is called at most once. -/
theorem run_slots (bound : Nat) : ∀ (steps : List Step) (s : System), slots_inv bound s →
    s.closes + steps.count Step.close_begin ≤ 1 →
    ∀ r ∈ run s steps, counters_ok r.pre.pool ∧ counters_ok r.post.pool ∧ no_wrap r
  | [], _, _, _ => by simp [run]
  | st :: rest, s, hi, hc => by
    have hcount : (st :: rest).count Step.close_begin
        = rest.count Step.close_begin + (if st = Step.close_begin then 1 else 0) := by
      rw [List.count_cons]
      by_cases h : st = Step.close_begin <;> simp [h]
    rw [hcount] at hc
    have hs := step_slots bound s st hi (by omega)
    have hpre : counters_ok s.pool := counters_ok_of_slots hi (by omega)
    rw [run_cons]
    cases hst : step s st with
    | blocked => simp
    | crash t =>
      intro r hr
      simp only [List.mem_singleton] at hr
      subst hr
      exact ⟨hpre, hpre, by simp [no_wrap]⟩
    | next s1 t =>
      rw [hst] at hs
      obtain ⟨j1, j2, j3, j4, j5, j6⟩ := hs
      intro r hr
      rcases List.mem_cons.mp hr with rfl | hr2
      · have hc1 : s1.closes ≤ 1 := by omega
        exact ⟨hpre, counters_ok_of_slots j1 hc1, j3, j4, j5, j6⟩
      · exact run_slots bound rest s1 j1 (by omega) r hr2

/-- C8: in every execution of the interleaved model that starts from a pool
with no slot granted (`threads == 0`, `active_threads == 0`) and calls
`threadpool_close` at most once, every state satisfies
`active_threads <= threads <= max_threads + 1` and every step changes each of
the two counters by at most one, so that no decrement goes below zero and no
increment wraps.  The start covers the pool that `threadpool_create` returns,
for every `max_threads` (its provider field is null), and every pool with a
provider whose `max_threads` is below `2 ^ 32 - 1`. -/
theorem counters_invariant (pool : threadpool) (steps : List Step)
    (hthreads : pool.threads = 0) (hactive : pool.active_threads = 0)
    (hstart : pool.provider = 0 ∨ pool.max_threads + 1 < UINT32)
    (hclose : steps.count Step.close_begin ≤ 1) :
    ∀ r ∈ run (System.start pool) steps,
      counters_ok r.pre.pool ∧ counters_ok r.post.pool ∧ no_wrap r := by
  rcases hstart with hp | hm
  · refine run_slots 0 steps (System.start pool) ?_ (by simpa [System.start] using hclose)
    refine ⟨by simp [System.start, hactive], by simp [System.start, hactive],
      by simp [System.start, hthreads], by simp [System.start], Or.inr ⟨rfl, hp⟩, by decide⟩
  · refine run_slots pool.max_threads steps (System.start pool) ?_
      (by simpa [System.start] using hclose)
    refine ⟨by simp [System.start, hactive], by simp [System.start, hactive],
      by simp [System.start, hthreads], by simp [System.start], Or.inl rfl, hm⟩

/-- C8, at the pool that `threadpool_create` returns for
`max_threads == 2 ^ 32 - 1`, with a keep-alive, a spurious worker and a close. -/
theorem counters_invariant_witness :
    threadpool_create 1 4294967295 1 0 mem_init true 0
      = (0, some (some (pool_created 4294967295 1 0))) ∧
    (run (System.start (pool_created 4294967295 1 0))
      [Step.keepalive 0, Step.dequeue_entry 0, Step.close_begin, Step.dequeue_entry 1,
        Step.dequeue_iteration]).length = 5 ∧
    ∀ r ∈ run (System.start (pool_created 4294967295 1 0))
        [Step.keepalive 0, Step.dequeue_entry 0, Step.close_begin, Step.dequeue_entry 1,
          Step.dequeue_iteration],
      counters_ok r.pre.pool ∧ counters_ok r.post.pool ∧ no_wrap r :=
  ⟨rfl, by decide,
   counters_invariant (pool_created 4294967295 1 0) _ rfl rfl (Or.inl rfl) (by decide)⟩

/-! ## The shutdown handler and the queue -/

/-- C7 (what the code does): the shutdown handler is called while the queue
is not empty and not valid.  First, on the pool that `threadpool_create`
returns, `threadpool_shutdown` calls the handler although `list_empty` is false
for every band and the assertion inside `threadpool_queue_isempty` (line 55,
reached from the guard at line 361) fails.  Second and third, after a
`threadpool_cancel` of an item that is not queued has decremented `size`, the
worker exit (guard at line 214) and `threadpool_shutdown` call the handler
while an item is still linked into band NORMAL; that item is never released. -/
theorem shutdown_handler_queue_not_empty :
    (threadpool_create 1 1 1 0 mem_init true 0 = (0, some (some (pool_created 1 1 0))) ∧
      threadpool_queue_isvalid (pool_created 1 1 0).queue = some false ∧
      list_empty (pool_created 1 1 0).queue.mem Ptr.queue_high = some false ∧
      list_empty (pool_created 1 1 0).queue.mem Ptr.queue_normal = some false ∧
      list_empty (pool_created 1 1 0).queue.mem Ptr.queue_low = some false ∧
      (threadpool_shutdown (pool_created 1 1 0) false 0).events
        = [Event.assert_failed 55, Event.shutdown_handler 1 0]) ∧
    ((run (System.start (pool_init 1)) steps_cancel_close).map (fun r => r.trace)
        = [[Event.provider_submit], [Event.assert_failed 125, Event.release 2], [], [],
           [Event.assert_failed 84, Event.assert_failed 55, Event.shutdown_handler 1 0]] ∧
      list_empty (final (System.start (pool_init 1)) steps_cancel_close).pool.queue.mem
        Ptr.queue_normal = some false ∧
      (final (System.start (pool_init 1)) steps_cancel_close).pool.active_threads = 0) ∧
    ((run (System.start (pool_init 1)) steps_cancel_shutdown).map (fun r => r.trace)
        = [[Event.provider_submit], [], [Event.release 9], [],
           [Event.assert_failed 104, Event.action 1, Event.release 1],
           [Event.assert_failed 84],
           [Event.assert_failed 55, Event.shutdown_handler 1 0]] ∧
      list_empty (final (System.start (pool_init 1)) steps_cancel_shutdown).pool.queue.mem
        Ptr.queue_normal = some false ∧
      ((final (System.start (pool_init 1)) steps_cancel_shutdown).pool.queue.mem
        (Ptr.link 2)).next = Ptr.queue_normal) :=
  ⟨⟨rfl, by decide, by decide, by decide, by decide, by decide⟩,
   ⟨by decide, by decide, by decide⟩, ⟨by decide, by decide, by decide⟩⟩

/-! ## Shutdown, creation and the entry of the worker -/

/-- The validity test never faults: the three band heads are not null. -/
theorem threadpool_queue_isvalid_total (q : threadpool_queue) :
    ∃ v, threadpool_queue_isvalid q = some v := by
  simp only [threadpool_queue_isvalid, list_empty_eq _ _ is_head_normal.1,
    list_empty_eq _ _ is_head_low.1, list_empty_eq _ _ is_head_high.1,
    Option.bind_eq_bind, Option.some_bind]
  split <;> exact ⟨_, rfl⟩

theorem only_asserts_check (c : Bool) (line : Nat) : only_asserts (check c line) := by
  intro e he
  cases c <;> simp [check] at he
  exact ⟨line, he⟩

theorem only_asserts_append {s t : List Event} (hs : only_asserts s) (ht : only_asserts t) :
    only_asserts (s ++ t) := by
  intro e he
  rcases List.mem_append.mp he with h | h
  · exact hs e h
  · exact ht e h

/-- C12: on a pool with `shutdown_state` NONE, `threads == 0` and
`active_threads == 0`, `threadpool_shutdown(abortive)` returns having stored
ABORT or WAIT as the flag asks and `shutdown_handler_called = true`, and its
events are failed assertions (none when the queue is well-formed and empty and
the flag was clear) followed by exactly one call of the shutdown handler with
its context when a handler was given; on a pool whose state is not NONE it
returns the pool unchanged, its only event being the failed `assert(false)` of
line 346, so the handler is not called. -/
theorem threadpool_shutdown_no_slots (pool : threadpool) (abortive : Bool) (tick_count : Nat) :
    (pool.shutdown_state = SHUTDOWN_STATE_NONE → pool.threads = 0 → pool.active_threads = 0 →
      ∃ asserts, only_asserts asserts ∧
        (queue_wf pool.queue [] [] [] → pool.shutdown_handler_called = false → asserts = []) ∧
        threadpool_shutdown pool abortive tick_count
          = Outcome.returned ()
              { pool with
                shutdown_state := requested_state abortive
                shutdown_handler_called := true }
              (asserts ++ handler_call pool) ∧
        (handler_call pool).countP (fun e => is_handler_call e)
          = (if pool.shutdown_handler ≠ 0 then 1 else 0) ∧
        (asserts ++ handler_call pool).countP (fun e => is_handler_call e)
          = (if pool.shutdown_handler ≠ 0 then 1 else 0)) ∧
    (pool.shutdown_state ≠ SHUTDOWN_STATE_NONE →
      threadpool_shutdown pool abortive tick_count
        = Outcome.returned () pool [Event.assert_failed 346]) := by
  constructor
  · intro hs ht ha
    obtain ⟨v, hv⟩ := threadpool_queue_isvalid_total pool.queue
    refine ⟨check v 55 ++ check (decide (pool.queue.size = 0)) 361
        ++ check (!pool.shutdown_handler_called) 363, ?_, ?_, ?_, ?_, ?_⟩
    · exact only_asserts_append
        (only_asserts_append (only_asserts_check _ _) (only_asserts_check _ _))
        (only_asserts_check _ _)
    · intro hwf hc
      have h0 : pool.queue.size = 0 := by simpa using hwf.size_eq
      rw [threadpool_queue_isvalid_wf hwf] at hv
      cases hv
      simp [check, h0, hc]
    · simp only [threadpool_shutdown, hs, ht, ha, threadpool_queue_isempty, hv,
        requested_state, handler_call]
      cases abortive <;> simp
    · unfold handler_call
      split <;> simp [is_handler_call]
    · have hq : (check v 55 ++ check (decide (pool.queue.size = 0)) 361
          ++ check (!pool.shutdown_handler_called) 363).countP (fun e => is_handler_call e)
          = 0 := by
        cases v <;> cases decide (pool.queue.size = 0) <;>
          cases pool.shutdown_handler_called <;> simp [check, is_handler_call]
      rw [List.countP_append, hq]
      unfold handler_call
      split <;> simp [is_handler_call]
  · intro hs
    simp [threadpool_shutdown, hs]

/-- C12 at a pool with initialised bands and handler 1 with context 0: the
non-abortive shutdown stores WAIT, sets the flag and calls the handler, with no
failed assertion; a second shutdown changes nothing. -/
theorem threadpool_shutdown_no_slots_witness :
    threadpool_shutdown (pool_init 1) false 0
      = Outcome.returned ()
          { pool_init 1 with
            shutdown_state := SHUTDOWN_STATE_WAIT
            shutdown_handler_called := true }
          [Event.shutdown_handler 1 0] ∧
    threadpool_shutdown
        { pool_init 1 with shutdown_state := SHUTDOWN_STATE_WAIT
                           shutdown_handler_called := true } true 0
      = Outcome.returned ()
          { pool_init 1 with shutdown_state := SHUTDOWN_STATE_WAIT
                             shutdown_handler_called := true }
          [Event.assert_failed 346] := by
  constructor
  · obtain ⟨a, _, h2, h3, _⟩ :=
      (threadpool_shutdown_no_slots (pool_init 1) false 0).1 rfl rfl rfl
    have ha : a = [] := h2 (by constructor <;> decide) rfl
    rw [h3, ha]
    rfl
  · exact (threadpool_shutdown_no_slots
      { pool_init 1 with shutdown_state := SHUTDOWN_STATE_WAIT
                         shutdown_handler_called := true } true 0).2 (by decide)

/-- C13: with a non-null output pointer, `threadpool_create` with
`max_threads == 0` returns `EINVAL` and does not write the output pointer; with
`max_threads >= 1`, when `malloc` and `pthread_mutex_init` succeed, it returns
0 and stores a pool with `max_threads` as given, `threads == 0`,
`active_threads == 0`, `shutdown_state` NONE, `shutdown_handler_called` false
and the handler and its context as given. -/
theorem threadpool_create_result (ppool max_threads shutdown_handler
    shutdown_handler_context : Nat) (heap : Mem) (malloc_ok : Bool) (mutex_init : Nat)
    (hp : ppool ≠ 0) :
    (max_threads = 0 →
      threadpool_create ppool max_threads shutdown_handler shutdown_handler_context heap
        malloc_ok mutex_init = (EINVAL, none)) ∧
    (1 ≤ max_threads → malloc_ok = true → mutex_init = 0 →
      ∃ pool,
        threadpool_create ppool max_threads shutdown_handler shutdown_handler_context heap
          malloc_ok mutex_init = (0, some (some pool)) ∧
        pool.max_threads = max_threads ∧ pool.threads = 0 ∧ pool.active_threads = 0 ∧
        pool.shutdown_state = SHUTDOWN_STATE_NONE ∧ pool.shutdown_handler_called = false ∧
        pool.shutdown_handler = shutdown_handler ∧
        pool.shutdown_handler_context = shutdown_handler_context) := by
  constructor
  · intro h0
    simp [threadpool_create, h0]
  · intro h1 hm hi
    have h0 : max_threads ≠ 0 := by omega
    simp only [threadpool_create, hp, h0, hm, hi, or_self, if_false, ne_eq,
      not_true_eq_false, Bool.true_eq_false]
    exact ⟨_, rfl, rfl, rfl, rfl, rfl, rfl, rfl, rfl⟩

/-- C13 at output pointer 1: `max_threads == 0` gives `EINVAL` and no pool,
`max_threads == 3` with handler 7 and context 8 gives 0 and the pool. -/
theorem threadpool_create_result_witness :
    threadpool_create 1 0 7 8 mem_init true 0 = (EINVAL, none) ∧
    ∃ pool, threadpool_create 1 3 7 8 mem_init true 0 = (0, some (some pool)) ∧
      pool.max_threads = 3 ∧ pool.threads = 0 ∧ pool.active_threads = 0 ∧
      pool.shutdown_state = SHUTDOWN_STATE_NONE ∧ pool.shutdown_handler_called = false ∧
      pool.shutdown_handler = 7 ∧ pool.shutdown_handler_context = 8 :=
  ⟨(threadpool_create_result 1 0 7 8 mem_init true 0 (by decide)).1 rfl,
   (threadpool_create_result 1 3 7 8 mem_init true 0 (by decide)).2 (by decide) rfl rfl⟩

/-- C18 (what the code does): on a pool with `shutdown_state` NONE and
`threads > 0` or `active_threads > 0`, `threadpool_shutdown` stores the
requested state and then calls `threadpool_keepalive`, which locks the mutex
that the call already holds: the call does not return, the mutex stays held and
no event occurs, for either value of the flag and every clock reading. -/
theorem threadpool_shutdown_self_deadlock (pool : threadpool) (abortive : Bool)
    (tick_count : Nat) (hs : pool.shutdown_state = SHUTDOWN_STATE_NONE)
    (hslots : pool.threads > 0 ∨ pool.active_threads > 0) :
    threadpool_shutdown pool abortive tick_count
      = Outcome.deadlock { pool with shutdown_state := requested_state abortive } [] ∧
    (threadpool_shutdown pool abortive tick_count).ret = none ∧
    threadpool_keepalive true { pool with shutdown_state := requested_state abortive }
      tick_count
      = Outcome.deadlock { pool with shutdown_state := requested_state abortive } [] := by
  have h : threadpool_shutdown pool abortive tick_count
      = Outcome.deadlock { pool with shutdown_state := requested_state abortive } [] := by
    simp only [threadpool_shutdown, hs, requested_state, threadpool_keepalive]
    cases abortive <;> simp [hslots]
  refine ⟨h, ?_, ?_⟩
  · rw [h]; rfl
  · simp [threadpool_keepalive]

/-- C18 at the pool of scenario 1 (two slots granted, no worker running yet):
the non-abortive shutdown stores WAIT and blocks on the mutex it holds. -/
theorem threadpool_shutdown_self_deadlock_witness :
    pool_abc.shutdown_state = SHUTDOWN_STATE_NONE ∧ pool_abc.threads = 2 ∧
    threadpool_shutdown pool_abc false 0
      = Outcome.deadlock { pool_abc with shutdown_state := SHUTDOWN_STATE_WAIT } [] ∧
    (threadpool_shutdown pool_abc false 0).ret = none :=
  ⟨by decide, by decide,
   (threadpool_shutdown_self_deadlock pool_abc false 0 (by decide) (Or.inl (by decide))).1,
   (threadpool_shutdown_self_deadlock pool_abc false 0 (by decide) (Or.inl (by decide))).2.1⟩

/-- C20: the second over-grant branch of `thread_pool_async_dequeue` (lines
171-176) is never taken: when the first check does not return,
`active_threads < threads`, so the incremented `active_threads` does not exceed
`threads` (and is `active_threads + 1` for every `uint32_t` value of
`threads`).  Hence the entry either changes `last_tick_count` alone and returns
with no event, or it changes `last_tick_count`, increments `active_threads` and
enters the drain loop. -/
theorem dequeue_second_overgrant_unreachable (pool : threadpool) (tick_count fuel : Nat) :
    (pool.active_threads < pool.threads → inc32 pool.active_threads ≤ pool.threads) ∧
    (pool.active_threads < pool.threads → pool.threads < UINT32 →
      inc32 pool.active_threads = pool.active_threads + 1) ∧
    dequeue_entry pool tick_count
      = (if pool.active_threads ≥ pool.threads then
           ({ pool with last_tick_count := tick_count }, false)
         else
           ({ pool with last_tick_count := tick_count
                        active_threads := inc32 pool.active_threads }, true)) ∧
    thread_pool_async_dequeue fuel pool tick_count
      = (if pool.active_threads ≥ pool.threads then
           Outcome.returned () { pool with last_tick_count := tick_count } []
         else
           (dequeue_loop fuel { pool with last_tick_count := tick_count
                                          active_threads := inc32 pool.active_threads }).andThen
             (fun _ p1 => dequeue_exit p1)) := by
  have hle : pool.active_threads < pool.threads → inc32 pool.active_threads ≤ pool.threads := by
    intro h
    unfold inc32
    exact le_trans (Nat.mod_le _ _) h
  have he : dequeue_entry pool tick_count
      = (if pool.active_threads ≥ pool.threads then
           ({ pool with last_tick_count := tick_count }, false)
         else
           ({ pool with last_tick_count := tick_count
                        active_threads := inc32 pool.active_threads }, true)) := by
    by_cases h : pool.active_threads ≥ pool.threads
    · simp [dequeue_entry, h]
    · have h1 := hle (by omega)
      simp only [dequeue_entry, h, if_false]
      rw [if_neg (by simp; exact h1)]
  refine ⟨hle, ?_, he, ?_⟩
  · intro h ht
    exact inc32_eq (by omega)
  · unfold thread_pool_async_dequeue
    rw [he]
    by_cases h : pool.active_threads ≥ pool.threads
    · simp [h]
    · simp [h]

/-- C20 at the pool of scenario 1 (two slots granted, none active) and at the
same pool with both slots active: the first enters the drain loop with
`active_threads == 1`, the second returns as an over-grant. -/
theorem dequeue_second_overgrant_unreachable_witness :
    inc32 pool_abc.active_threads = 1 ∧
    dequeue_entry pool_abc 7
      = ({ pool_abc with last_tick_count := 7, active_threads := 1 }, true) ∧
    dequeue_entry { pool_abc with active_threads := 2 } 7
      = ({ pool_abc with active_threads := 2, last_tick_count := 7 }, false) := by
  refine ⟨?_, ?_, ?_⟩
  · exact (dequeue_second_overgrant_unreachable pool_abc 7 0).2.1 (by decide) (by decide)
  · rw [(dequeue_second_overgrant_unreachable pool_abc 7 0).2.2.1]
    rfl
  · rw [(dequeue_second_overgrant_unreachable { pool_abc with active_threads := 2 } 7 0).2.2.1]
    rfl

/-! ## The pool that threadpool_create returns -/

theorem inc32_zero : inc32 0 = 1 := inc32_eq (by unfold UINT32; norm_num)

theorem dec32_one : dec32 1 = 0 := dec32_eq (by norm_num) (by unfold UINT32; norm_num)

/-- The fields of the pool that a successful `threadpool_create` stores. -/
theorem threadpool_create_fields {ppool max_threads shutdown_handler
    shutdown_handler_context : Nat} {heap : Mem} {malloc_ok : Bool} {mutex_init ret : Nat}
    {pool : threadpool}
    (hc : threadpool_create ppool max_threads shutdown_handler shutdown_handler_context heap
      malloc_ok mutex_init = (ret, some (some pool))) :
    pool.queue.mem Ptr.queue_high = { next := Ptr.null, prev := Ptr.null } ∧
    pool.queue.mem Ptr.queue_normal = { next := Ptr.null, prev := Ptr.null } ∧
    pool.queue.mem Ptr.queue_low = { next := Ptr.null, prev := Ptr.null } ∧
    pool.queue.size = 0 ∧ pool.provider = 0 ∧ pool.threads = 0 ∧ pool.active_threads = 0 ∧
    pool.max_threads = max_threads ∧ max_threads ≠ 0 ∧
    pool.shutdown_state = SHUTDOWN_STATE_NONE ∧ pool.shutdown_handler_called = false ∧
    pool.shutdown_handler = shutdown_handler ∧
    pool.shutdown_handler_context = shutdown_handler_context := by
  unfold threadpool_create at hc
  split_ifs at hc with h1 h2 h3
  · simp at hc
  · simp at hc
  · simp at hc
  · simp only [Prod.mk.injEq, Option.some.injEq] at hc
    obtain ⟨_, rfl⟩ := hc
    have h0 : max_threads ≠ 0 := fun h => h1 (Or.inr h)
    exact ⟨rfl, rfl, rfl, rfl, rfl, rfl, rfl, rfl, h0, rfl, rfl, rfl, rfl⟩

/-- Inserting at the tail of a list whose head was never initialised stores
through the null `prev` pointer of the head. -/
theorem list_insert_tail_null_prev (m : Mem) (head entry : Ptr)
    (hp : (m head).prev = Ptr.null) : list_insert_tail m head entry = none := by
  by_cases hh : head = Ptr.null
  · simp [list_insert_tail, load, hh]
  · by_cases he : entry = Ptr.null
    · simp [list_insert_tail, load, store_next, hh, he]
    · simp [list_insert_tail, load, store_next, store_prev, hh, he, hp]

/-- The validity test on the queue of a created pool. -/
theorem threadpool_queue_isvalid_created {q : threadpool_queue}
    (hh : q.mem Ptr.queue_high = { next := Ptr.null, prev := Ptr.null })
    (hn : q.mem Ptr.queue_normal = { next := Ptr.null, prev := Ptr.null })
    (hl : q.mem Ptr.queue_low = { next := Ptr.null, prev := Ptr.null })
    (hs : q.size = 0) : threadpool_queue_isvalid q = some false := by
  simp [threadpool_queue_isvalid, list_empty_eq _ _ is_head_normal.1,
    list_empty_eq _ _ is_head_low.1, list_empty_eq _ _ is_head_high.1, hh, hn, hl, hs]

/-- A push of an unlinked item onto the queue of a created pool faults. -/
theorem threadpool_queue_push_created {q : threadpool_queue}
    (hh : q.mem Ptr.queue_high = { next := Ptr.null, prev := Ptr.null })
    (hn : q.mem Ptr.queue_normal = { next := Ptr.null, prev := Ptr.null })
    (hl : q.mem Ptr.queue_low = { next := Ptr.null, prev := Ptr.null })
    (item priority : Nat) (hu : (q.mem (Ptr.link item)).next = Ptr.link item) :
    threadpool_queue_push q item priority = none := by
  have hle : list_empty q.mem (Ptr.link item) = some true := by
    rw [list_empty_eq _ _ (by simp)]; simp [hu]
  simp only [threadpool_queue_push, hle, Option.bind_eq_bind, Option.some_bind,
    Bool.not_true, Bool.false_eq_true, if_false,
    list_insert_tail_null_prev q.mem Ptr.queue_low _ (by rw [hl]),
    list_insert_tail_null_prev q.mem Ptr.queue_high _ (by rw [hh]),
    list_insert_tail_null_prev q.mem Ptr.queue_normal _ (by rw [hn])]
  split_ifs <;> rfl

/-- When the entry checks pass, `thread_pool_async_dequeue` is the drain loop
followed by the exit code. -/
theorem thread_pool_async_dequeue_enter {pool p : threadpool} {tick_count : Nat} {fuel : Nat}
    (he : dequeue_entry pool tick_count = (p, true)) :
    thread_pool_async_dequeue fuel pool tick_count
      = (dequeue_loop fuel p).andThen (fun _ p1 => dequeue_exit p1) := by
  unfold thread_pool_async_dequeue
  rw [he]

/-- C14 (what the code does): the pool that a successful `threadpool_create`
stores has a null `provider` field.  On that pool every `threadpool_submit`
faults (at the push through the uninitialised band head when the item is
unlinked, at `pool->provider->submit()` otherwise) and every
`threadpool_close` faults at `pool->provider->close()`. -/
theorem threadpool_create_no_provider (ppool max_threads shutdown_handler
    shutdown_handler_context : Nat) (heap : Mem) (malloc_ok : Bool) (mutex_init ret : Nat)
    (pool : threadpool)
    (hc : threadpool_create ppool max_threads shutdown_handler shutdown_handler_context heap
      malloc_ok mutex_init = (ret, some (some pool))) :
    pool.provider = 0 ∧
    (∀ item priority tick1 tick2 provider_result,
      ∃ t, threadpool_submit pool item priority tick1 tick2 provider_result
        = Outcome.fault t) ∧
    (∀ fuel tick_count, 0 < fuel →
      ∃ t, threadpool_close fuel pool tick_count = Outcome.fault t) := by
  obtain ⟨hh, hn, hl, hs, hp, ht, ha, hm, h0, hst, hcl, _, _⟩ := threadpool_create_fields hc
  refine ⟨hp, ?_, ?_⟩
  · intro item priority tick1 tick2 r
    have hk : threadpool_keepalive_locked pool tick1 = Outcome.returned () pool [] := by
      simp [threadpool_keepalive_locked, ht, ha]
    by_cases hu : (pool.queue.mem (Ptr.link item)).next = Ptr.link item
    · refine ⟨[], ?_⟩
      simp [threadpool_submit, hst, hk, Outcome.andThen,
        threadpool_queue_push_created hh hn hl item priority hu, Outcome.after]
    · have hpush : threadpool_queue_push pool.queue item priority
          = some (pool.queue, [Event.assert_failed 65]) := by
        simp [threadpool_queue_push, list_empty_eq _ (Ptr.link item) (by simp), hu]
      refine ⟨[Event.assert_failed 65], ?_⟩
      have hm0 : ¬ (0 ≥ pool.max_threads) := by rw [hm]; omega
      simp [threadpool_submit, hst, hk, Outcome.andThen, hpush, ht, hm0, hp, Outcome.after]
  · intro fuel tick_count hf
    obtain ⟨n, rfl⟩ : ∃ n, fuel = n + 1 := ⟨fuel - 1, by omega⟩
    have hv := threadpool_queue_isvalid_created hh hn hl hs
    have i0 := inc32_zero
    have d1 := dec32_one
    have hpop : threadpool_queue_pop pool.queue
        = some (Ptr.null, pool.queue, [Event.assert_failed 84]) := by
      simp [threadpool_queue_pop, hv, check, hs]
    have hb : close_begin pool
        = ({ pool with shutdown_state := SHUTDOWN_STATE_ABORT, threads := 1 }, []) := by
      simp [close_begin, hst, ht, check, i0]
    have he : dequeue_entry
        { pool with shutdown_state := SHUTDOWN_STATE_ABORT, threads := 1 } tick_count
        = ({ pool with shutdown_state := SHUTDOWN_STATE_ABORT, threads := 1,
                       last_tick_count := tick_count, active_threads := 1 }, true) := by
      simp [dequeue_entry, ha, i0]
    have hi : dequeue_iteration
        { pool with shutdown_state := SHUTDOWN_STATE_ABORT, threads := 1,
                    last_tick_count := tick_count, active_threads := 1 }
        = Iteration.empty
            { pool with shutdown_state := SHUTDOWN_STATE_ABORT, threads := 1,
                        last_tick_count := tick_count, active_threads := 1 }
            [Event.assert_failed 84] := by
      simp [dequeue_iteration, hpop, check]
    have hx : ∃ t, dequeue_exit
        { pool with shutdown_state := SHUTDOWN_STATE_ABORT, threads := 1,
                    last_tick_count := tick_count, active_threads := 1 }
        = Outcome.returned ()
            { pool with shutdown_state := SHUTDOWN_STATE_ABORT, threads := 0,
                        last_tick_count := tick_count, active_threads := 0,
                        shutdown_handler_called := true } t := by
      simp [dequeue_exit, d1, hcl, threadpool_queue_isempty, hv, hs]
    obtain ⟨t, hx⟩ := hx
    refine ⟨[Event.assert_failed 84] ++ t, ?_⟩
    have hloop : dequeue_loop (n + 1)
        { pool with shutdown_state := SHUTDOWN_STATE_ABORT, threads := 1,
                    last_tick_count := tick_count, active_threads := 1 }
        = Outcome.returned ()
            { pool with shutdown_state := SHUTDOWN_STATE_ABORT, threads := 1,
                        last_tick_count := tick_count, active_threads := 1 }
            [Event.assert_failed 84] := by
      rw [dequeue_loop, hi]
    have hend : close_end
        { pool with shutdown_state := SHUTDOWN_STATE_ABORT, threads := 0,
                    last_tick_count := tick_count, active_threads := 0,
                    shutdown_handler_called := true } = Outcome.fault [] := by
      simp [close_end, hp]
    have hdq : thread_pool_async_dequeue (n + 1)
        { pool with shutdown_state := SHUTDOWN_STATE_ABORT, threads := 1 } tick_count
        = Outcome.returned ()
            { pool with shutdown_state := SHUTDOWN_STATE_ABORT, threads := 0,
                        last_tick_count := tick_count, active_threads := 0,
                        shutdown_handler_called := true } ([Event.assert_failed 84] ++ t) := by
      rw [thread_pool_async_dequeue_enter he, hloop]
      simp only [Outcome.andThen]
      rw [hx]
      simp only [Outcome.after]
    unfold threadpool_close
    rw [hb]
    simp only []
    rw [hdq]
    simp only [Outcome.andThen]
    rw [hend]
    simp [Outcome.after]

/-- C14 at `threadpool_create(&pool, 1, handler 1, context 0)` with items that
were initialised by `list_init`: the provider is null, the submission of item 1
faults, and `threadpool_close` faults after the handler call, without a call
of `provider.close`. -/
theorem threadpool_create_no_provider_witness :
    threadpool_create 1 1 1 0 mem_init true 0 = (0, some (some (pool_created 1 1 0))) ∧
    (pool_created 1 1 0).provider = 0 ∧
    (∃ t, threadpool_submit (pool_created 1 1 0) 1 THREAD_POOL_PRIORITY_NORMAL 0 0 true
      = Outcome.fault t) ∧
    (∃ t, threadpool_close 1 (pool_created 1 1 0) 0 = Outcome.fault t) ∧
    (threadpool_close 1 (pool_created 1 1 0) 0).events
      = [Event.assert_failed 84, Event.assert_failed 55, Event.shutdown_handler 1 0] :=
  ⟨rfl,
   (threadpool_create_no_provider 1 1 1 0 mem_init true 0 0 (pool_created 1 1 0) rfl).1,
   (threadpool_create_no_provider 1 1 1 0 mem_init true 0 0 (pool_created 1 1 0) rfl).2.1
     1 THREAD_POOL_PRIORITY_NORMAL 0 0 true,
   (threadpool_create_no_provider 1 1 1 0 mem_init true 0 0 (pool_created 1 1 0) rfl).2.2
     1 0 (by decide),
   by decide⟩

/-- C17 (what the code does): in the pool that a successful
`threadpool_create` stores, `size` is 0 but the three band heads hold null
pointers, so `list_empty` is false for every band, `threadpool_queue_isvalid`
is false and the queue is not well-formed for any contents;
`threadpool_queue_isempty` answers true with its assertion (line 55) failed,
the first push of an unlinked item faults, the first pop returns null with its
assertion (line 84) failed, and the no-slot `threadpool_shutdown` calls the
handler after the assertion of line 55 has failed. -/
theorem threadpool_create_queue_invalid (ppool max_threads shutdown_handler
    shutdown_handler_context : Nat) (heap : Mem) (malloc_ok : Bool) (mutex_init ret : Nat)
    (pool : threadpool)
    (hc : threadpool_create ppool max_threads shutdown_handler shutdown_handler_context heap
      malloc_ok mutex_init = (ret, some (some pool))) :
    pool.queue.size = 0 ∧
    list_empty pool.queue.mem Ptr.queue_high = some false ∧
    list_empty pool.queue.mem Ptr.queue_normal = some false ∧
    list_empty pool.queue.mem Ptr.queue_low = some false ∧
    threadpool_queue_isvalid pool.queue = some false ∧
    (∀ hi no lo, ¬ queue_wf pool.queue hi no lo) ∧
    threadpool_queue_isempty pool.queue = some (true, [Event.assert_failed 55]) ∧
    (∀ item priority, unlinked pool.queue.mem item →
      threadpool_queue_push pool.queue item priority = none) ∧
    threadpool_queue_pop pool.queue = some (Ptr.null, pool.queue, [Event.assert_failed 84]) ∧
    (∀ abortive tick_count,
      threadpool_shutdown pool abortive tick_count
        = Outcome.returned ()
            { pool with shutdown_state := requested_state abortive
                        shutdown_handler_called := true }
            (Event.assert_failed 55 :: handler_call pool)) := by
  obtain ⟨hh, hn, hl, hs, hp, ht, ha, hm, h0, hst, hcl, _, _⟩ := threadpool_create_fields hc
  have hv := threadpool_queue_isvalid_created hh hn hl hs
  have hemp : threadpool_queue_isempty pool.queue = some (true, [Event.assert_failed 55]) := by
    simp [threadpool_queue_isempty, hv, hs, check]
  refine ⟨hs, ?_, ?_, ?_, hv, ?_, hemp, ?_, ?_, ?_⟩
  · simp [list_empty_eq _ _ is_head_high.1, hh]
  · simp [list_empty_eq _ _ is_head_normal.1, hn]
  · simp [list_empty_eq _ _ is_head_low.1, hl]
  · intro hi no lo hwf
    rw [threadpool_queue_isvalid_wf hwf] at hv
    simp at hv
  · intro item priority hu
    exact threadpool_queue_push_created hh hn hl item priority (by rw [hu])
  · simp [threadpool_queue_pop, hv, check, hs]
  · intro abortive tick_count
    simp only [threadpool_shutdown, hst, ht, ha, hemp, requested_state, handler_call, hcl]
    cases abortive <;> simp [check]

/-- C17 at `threadpool_create(&pool, 1, handler 1, context 0)` with items that
were initialised by `list_init`: the band heads are not empty lists, the queue
is invalid, and the first push (of item 1, NORMAL) faults. -/
theorem threadpool_create_queue_invalid_witness :
    threadpool_create 1 1 1 0 mem_init true 0 = (0, some (some (pool_created 1 1 0))) ∧
    (pool_created 1 1 0).queue.mem Ptr.queue_normal = { next := Ptr.null, prev := Ptr.null } ∧
    list_empty (pool_created 1 1 0).queue.mem Ptr.queue_normal = some false ∧
    threadpool_queue_isvalid (pool_created 1 1 0).queue = some false ∧
    threadpool_queue_push (pool_created 1 1 0).queue 1 THREAD_POOL_PRIORITY_NORMAL = none :=
  ⟨rfl, rfl,
   (threadpool_create_queue_invalid 1 1 1 0 mem_init true 0 0 (pool_created 1 1 0) rfl).2.2.1,
   (threadpool_create_queue_invalid 1 1 1 0 mem_init true 0 0 (pool_created 1 1 0) rfl).2.2.2.2.1,
   (threadpool_create_queue_invalid 1 1 1 0 mem_init true 0 0 (pool_created 1 1 0)
      rfl).2.2.2.2.2.2.2.1 1 THREAD_POOL_PRIORITY_NORMAL (by decide)⟩

/-! ## Pop and the size invariant -/

/-- A well-formed queue with `size == 0` has three empty bands. -/
theorem queue_wf.bands_nil {q : threadpool_queue} {hi no lo : List Nat}
    (h : queue_wf q hi no lo) (h0 : q.size = 0) : hi = [] ∧ no = [] ∧ lo = [] := by
  have hs := h.size_eq
  rw [h0] at hs
  refine ⟨List.length_eq_zero.mp (by omega), List.length_eq_zero.mp (by omega),
    List.length_eq_zero.mp (by omega)⟩

/-- The contents of a band are determined by the memory. -/
theorem chain_unique {m : Mem} {head : Ptr} (hh : is_head head) :
    ∀ (xs ys : List Nat) (a : Ptr), chain m a (xs.map Ptr.link) head →
      chain m a (ys.map Ptr.link) head → xs = ys := by
  intro xs
  induction xs with
  | nil =>
    intro ys a h1 h2
    cases ys with
    | nil => rfl
    | cons y ys =>
      simp only [List.map_nil, List.map_cons, chain] at h1 h2
      exact absurd (h1.1.symm.trans h2.1) (hh.2 y)
  | cons x xs ih =>
    intro ys a h1 h2
    cases ys with
    | nil =>
      simp only [List.map_nil, List.map_cons, chain] at h1 h2
      exact absurd (h2.1.symm.trans h1.1) (hh.2 x)
    | cons y ys =>
      simp only [List.map_cons, chain] at h1 h2
      have hxy : x = y := by
        have := h1.1.symm.trans h2.1
        simpa using this
      subst hxy
      rw [ih ys (Ptr.link x) h1.2.2 h2.2.2]

theorem ring_unique {m : Mem} {head : Ptr} (hh : is_head head) {xs ys : List Nat}
    (h1 : ring m head xs) (h2 : ring m head ys) : xs = ys :=
  chain_unique hh xs ys head h1 h2

/-- What `threadpool_queue_remove` does with an unlinked item on a well-formed
queue that is not empty: the bands stay as they are and `size` is decremented. -/
theorem threadpool_queue_remove_unlinked {q : threadpool_queue} {hi no lo : List Nat}
    (hwf : queue_wf q hi no lo) (hs : q.size ≠ 0) {item : Nat} (hu : unlinked q.mem item) :
    threadpool_queue_remove q item
      = some (true, { mem := q.mem, size := q.size - 1 },
          check (decide (q.size ≠ 1)) 125) := by
  have hpos : 0 < q.size := Nat.pos_of_ne_zero hs
  have hn : (q.mem (Ptr.link item)).next = Ptr.link item := by rw [hu]
  have hp : (q.mem (Ptr.link item)).prev = Ptr.link item := by rw [hu]
  have hmem : list_remove_entry q.mem (Ptr.link item) = some (true, q.mem) := by
    simp [list_remove_entry, load, store_next, store_prev, hn, hp, update_self_next,
      update_self_prev]
    exact hu.symm
  have hinit : list_init q.mem (Ptr.link item) = some q.mem := by
    simp [list_init, store_next, store_prev, hn, hp, update_self_next, update_self_prev]
    exact hu.symm
  have hd : dec32 q.size = q.size - 1 := dec32_eq hpos hwf.size_lt
  have hne : ¬ (hi = [] ∧ no = [] ∧ lo = []) := by
    rintro ⟨rfl, rfl, rfl⟩
    exact hs (by simpa using hwf.size_eq)
  have hv : threadpool_queue_isvalid { mem := q.mem, size := q.size - 1 }
      = some (decide (q.size ≠ 1)) := by
    simp only [threadpool_queue_isvalid, list_empty_ring is_head_normal hwf.ring_normal,
      list_empty_ring is_head_low hwf.ring_low, list_empty_ring is_head_high hwf.ring_high,
      Option.bind_eq_bind, Option.some_bind]
    have h1 : q.size - 1 ≠ 0 ↔ q.size ≠ 1 := by omega
    cases hi <;> cases no <;> cases lo <;> simp [h1] at hne ⊢
  simp [threadpool_queue_remove, list_empty_eq, hn, threadpool_queue_isempty_wf hwf, hs,
    hmem, hinit, hpos, hd, hv]

/-- C15: on a well-formed queue `threadpool_queue_pop` returns null and changes
nothing when `size` is 0; otherwise it returns the head of the first non-empty
band in the order HIGH, NORMAL, LOW, removes it from that band and leaves every
band otherwise as it was (the same items in the same order), leaves the link
of the returned item self-referential, decrements `size` by one, and no
assertion fails. -/
theorem threadpool_queue_pop_spec (q : threadpool_queue) (hi no lo : List Nat)
    (hwf : queue_wf q hi no lo) :
    (q.size = 0 → threadpool_queue_pop q = some (Ptr.null, q, [])) ∧
    (q.size ≠ 0 →
      ∃ x q1, first_band_head hi no lo = some x ∧
        threadpool_queue_pop q = some (Ptr.link x, q1, []) ∧
        queue_wf q1 (popped_high hi) (popped_normal hi no) (popped_low hi no lo) ∧
        unlinked q1.mem x ∧ q1.size + 1 = q.size) := by
  constructor
  · intro h0
    obtain ⟨rfl, rfl, rfl⟩ := hwf.bands_nil h0
    exact threadpool_queue_pop_nil hwf
  · intro hne
    cases hi with
    | cons x hi =>
      obtain ⟨q1, e, w, u, s, _⟩ := threadpool_queue_pop_high hwf
      exact ⟨x, q1, rfl, e, by simpa [popped_high, popped_normal, popped_low] using w, u, s⟩
    | nil =>
      cases no with
      | cons x no =>
        obtain ⟨q1, e, w, u, s, _⟩ := threadpool_queue_pop_normal hwf
        exact ⟨x, q1, rfl, e, by simpa [popped_high, popped_normal, popped_low] using w, u, s⟩
      | nil =>
        cases lo with
        | cons x lo =>
          obtain ⟨q1, e, w, u, s, _⟩ := threadpool_queue_pop_low hwf
          exact ⟨x, q1, rfl, e, by simpa [popped_high, popped_normal, popped_low] using w,
            u, s⟩
        | nil =>
          exact absurd (by simpa using hwf.size_eq) hne

/-- C15 at the queue of scenario 1 (HIGH holds item 3, NORMAL holds items 1
and 2): the pop returns item 3, leaves NORMAL as it was and `size` at 2; and at
the empty queue of a pool with initialised bands the pop returns null. -/
theorem threadpool_queue_pop_spec_witness :
    (∃ q1, threadpool_queue_pop pool_abc.queue = some (Ptr.link 3, q1, []) ∧
      queue_wf q1 [] [1, 2] [] ∧ unlinked q1.mem 3 ∧ q1.size = 2) ∧
    threadpool_queue_pop (pool_init 1).queue = some (Ptr.null, (pool_init 1).queue, []) := by
  constructor
  · obtain ⟨x, q1, hx, e, w, u, s⟩ :=
      (threadpool_queue_pop_spec pool_abc.queue [3] [1, 2] []
        (by constructor <;> decide)).2 (by decide)
    have h3 : x = 3 := by
      simp [first_band_head] at hx
      exact hx.symm
    subst h3
    have hs : pool_abc.queue.size = 3 := by decide
    refine ⟨q1, e, by simpa [popped_high, popped_normal, popped_low] using w, u, ?_⟩
    omega
  · exact (threadpool_queue_pop_spec (pool_init 1).queue [] [] []
      (by constructor <;> decide)).1 (by decide)

/-- C16 (amended): on a well-formed queue (the three bands are rings and
`size` is the sum of their lengths), a push of an unlinked item with any
priority keeps the queue well-formed provided fewer than `2 ^ 32 - 1` items are
queued, and a pop keeps it well-formed; after either, `size` is the sum of the
lengths of the bands, `threadpool_queue_isvalid` holds and no assertion
fails. -/
theorem size_invariant_push_pop (q : threadpool_queue) (hi no lo : List Nat)
    (hwf : queue_wf q hi no lo) :
    (∀ item priority, unlinked q.mem item → q.size + 1 < UINT32 →
      ∃ q1, threadpool_queue_push q item priority = some (q1, []) ∧
        queue_wf q1 (pushed_high priority item hi) (pushed_normal priority item no)
          (pushed_low priority item lo) ∧
        q1.size = (pushed_high priority item hi).length
          + (pushed_normal priority item no).length + (pushed_low priority item lo).length ∧
        threadpool_queue_isvalid q1 = some true) ∧
    (∃ p q1 hi1 no1 lo1, threadpool_queue_pop q = some (p, q1, []) ∧
      queue_wf q1 hi1 no1 lo1 ∧
      q1.size = hi1.length + no1.length + lo1.length ∧
      threadpool_queue_isvalid q1 = some true) := by
  constructor
  · intro item priority hu hsz
    obtain ⟨q1, e, w, _, _⟩ := threadpool_queue_push_wf hwf item priority (by rw [hu]) hsz
    exact ⟨q1, e, w, w.size_eq, threadpool_queue_isvalid_wf w⟩
  · by_cases h0 : q.size = 0
    · obtain ⟨rfl, rfl, rfl⟩ := hwf.bands_nil h0
      exact ⟨Ptr.null, q, [], [], [], threadpool_queue_pop_nil hwf, hwf, hwf.size_eq,
        threadpool_queue_isvalid_wf hwf⟩
    · have hne : pop_order hi no lo ≠ [] := by
        intro hnil
        apply h0
        have := hwf.size_eq
        simp only [pop_order, List.append_eq_nil] at hnil
        obtain ⟨⟨rfl, rfl⟩, rfl⟩ := hnil
        simpa using this
      obtain ⟨x, rest, hx⟩ := List.exists_cons_of_ne_nil hne
      obtain ⟨q1, hi1, no1, lo1, e, w, _⟩ := threadpool_queue_pop_wf hwf hx
      exact ⟨Ptr.link x, q1, hi1, no1, lo1, e, w, w.size_eq, threadpool_queue_isvalid_wf w⟩

/-- C16 (amended) at the queue of scenario 1: pushing the unlinked item 4 with
priority LOW gives bands `[3]`, `[1, 2]`, `[4]` and `size == 4`. -/
theorem size_invariant_push_pop_witness :
    ∃ q1, threadpool_queue_push pool_abc.queue 4 THREAD_POOL_PRIORITY_LOW = some (q1, []) ∧
      queue_wf q1 [3] [1, 2] [4] ∧ q1.size = 4 := by
  obtain ⟨q1, e, w, s, _⟩ :=
    (size_invariant_push_pop pool_abc.queue [3] [1, 2] [] (by constructor <;> decide)).1
      4 THREAD_POOL_PRIORITY_LOW (by decide) (by decide)
  exact ⟨q1, e, by simpa [pushed_high, pushed_normal, pushed_low, THREAD_POOL_PRIORITY_LOW,
    THREAD_POOL_PRIORITY_HIGH] using w,
    by simpa [pushed_high, pushed_normal, pushed_low, THREAD_POOL_PRIORITY_LOW,
      THREAD_POOL_PRIORITY_HIGH] using s⟩

/-- C16 as stated fails at two inputs.  On the queue of scenario 1 (items 3, 1
and 2 queued, `size == 3`) the remove of the unlinked item 9 returns true and
decrements `size` to 2 while the three items stay in their bands, so the result
is well-formed for no contents.  On a queue with `2 ^ 32 - 1` items the push of
one more unlinked item wraps `size` to 0 while the bands are not empty: the
validity test fails (assertion of line 75) and the result is well-formed for no
contents. -/
theorem size_invariant_counterexample :
    (queue_wf pool_abc.queue [3] [1, 2] [] ∧ unlinked pool_abc.queue.mem 9 ∧
      ∃ q1, threadpool_queue_remove pool_abc.queue 9 = some (true, q1, []) ∧
        q1.size = 2 ∧ ring q1.mem Ptr.queue_high [3] ∧ ring q1.mem Ptr.queue_normal [1, 2] ∧
        ring q1.mem Ptr.queue_low [] ∧ ∀ hi no lo, ¬ queue_wf q1 hi no lo) ∧
    (queue_wf pool_full.queue [] (List.range 4294967295) [] ∧
      unlinked pool_full.queue.mem 4294967295 ∧
      (threadpool_queue_push pool_full.queue 4294967295 THREAD_POOL_PRIORITY_LOW).map
          (fun r => (r.1.size, list_empty r.1.mem Ptr.queue_low,
            list_empty r.1.mem Ptr.queue_normal, threadpool_queue_isvalid r.1, r.2))
        = some (0, some false, some false, some false, [Event.assert_failed 75]) ∧
      ∀ q1 t, threadpool_queue_push pool_full.queue 4294967295 THREAD_POOL_PRIORITY_LOW
          = some (q1, t) → ∀ hi no lo, ¬ queue_wf q1 hi no lo) := by
  have hwf : queue_wf pool_abc.queue [3] [1, 2] [] := by constructor <;> decide
  have hpush : (threadpool_queue_push pool_full.queue 4294967295 THREAD_POOL_PRIORITY_LOW).map
      (fun r => (r.1.size, list_empty r.1.mem Ptr.queue_low,
        list_empty r.1.mem Ptr.queue_normal, threadpool_queue_isvalid r.1, r.2))
      = some (0, some false, some false, some false, [Event.assert_failed 75]) := by decide
  refine ⟨⟨hwf, by decide, ⟨{ mem := pool_abc.queue.mem, size := pool_abc.queue.size - 1 },
    ?_, by decide, by decide, by decide, by decide, ?_⟩⟩,
    ⟨queue_wf_mem_full 4294967295 (by decide), by decide, hpush, ?_⟩⟩
  · rw [threadpool_queue_remove_unlinked hwf (by decide) (by decide)]
    rfl
  · intro hi no lo w
    have h1 : hi = [3] := ring_unique is_head_high w.ring_high (by decide)
    have h2 : no = [1, 2] := ring_unique is_head_normal w.ring_normal (by decide)
    have h3 : lo = [] := ring_unique is_head_low w.ring_low (by decide)
    have hs := w.size_eq
    subst h1 h2 h3
    revert hs
    decide
  · intro q1 t h hi no lo w
    rw [h] at hpush
    simp only [Option.map_some', Option.some.injEq, Prod.mk.injEq] at hpush
    have hv := threadpool_queue_isvalid_wf w
    rw [hpush.2.2.2.1] at hv
    simp at hv

/-! ## The keep-alive probe and a refused submission -/

/-- The test of the keep-alive probe in plain arithmetic, for `uint64_t`
values of `last_tick_count` and of the clock reading. -/
theorem keepalive_due_iff (pool : threadpool) (now : Nat)
    (hl : pool.last_tick_count < UINT64) (hn : now < UINT64) :
    keepalive_due pool now ↔
      pool.active_threads < pool.threads ∧
        ((pool.last_tick_count ≤ now ∧
            now - pool.last_tick_count ≥ THREAD_POOL_KEEP_ALIVE_TIMEOUT) ∨
         (now < pool.last_tick_count ∧
            pool.last_tick_count - now ≤ UINT64 - THREAD_POOL_KEEP_ALIVE_TIMEOUT)) := by
  have h64 : UINT64 = 18446744073709551616 := by unfold UINT64; norm_num
  unfold keepalive_due THREAD_POOL_KEEP_ALIVE_TIMEOUT
  rw [h64] at hl hn ⊢
  constructor
  · rintro ⟨h1, h2⟩
    refine ⟨h1, ?_⟩
    omega
  · rintro ⟨h1, h2⟩
    refine ⟨h1, ?_⟩
    omega

/-- Right after the probe has fired at the reading `now`, it is not due at `now`. -/
theorem keepalive_not_due_again (pool : threadpool) (now : Nat) :
    ¬ keepalive_due { pool with last_tick_count := now } now := by
  have h64 : UINT64 = 18446744073709551616 := by unfold UINT64; norm_num
  unfold keepalive_due THREAD_POOL_KEEP_ALIVE_TIMEOUT
  rw [h64]
  simp only [not_and]
  intro _
  omega

/-- C19 (amended): on a pool with a provider, for `uint64_t` values of
`last_tick_count` and of the clock reading `now`, the keep-alive probe fires
exactly when `active_threads < threads` and `now - last_tick_count` taken
modulo `2 ^ 64` is at least 150000, that is when `last_tick_count <= now` and
`now - last_tick_count >= 150000`, or when `now < last_tick_count` and
`last_tick_count - now <= 2 ^ 64 - 150000`.  When it fires it calls
`provider.submit_lost_work(active_threads, threads)` once and stores `now` in
`last_tick_count`, changing nothing else; otherwise it makes no call and
changes no field; a second probe at the same reading makes no call and changes
no field. -/
theorem threadpool_keepalive_locked_probe (pool : threadpool) (now : Nat)
    (hp : pool.provider ≠ 0) (hl : pool.last_tick_count < UINT64) (hn : now < UINT64) :
    (keepalive_due pool now ↔
      pool.active_threads < pool.threads ∧
        ((pool.last_tick_count ≤ now ∧
            now - pool.last_tick_count ≥ THREAD_POOL_KEEP_ALIVE_TIMEOUT) ∨
         (now < pool.last_tick_count ∧
            pool.last_tick_count - now ≤ UINT64 - THREAD_POOL_KEEP_ALIVE_TIMEOUT))) ∧
    (keepalive_due pool now →
      threadpool_keepalive_locked pool now
        = Outcome.returned () { pool with last_tick_count := now }
            [Event.provider_submit_lost_work pool.active_threads pool.threads]) ∧
    (¬ keepalive_due pool now →
      threadpool_keepalive_locked pool now = Outcome.returned () pool []) ∧
    (∀ p1 t, threadpool_keepalive_locked pool now = Outcome.returned () p1 t →
      threadpool_keepalive_locked p1 now = Outcome.returned () p1 []) := by
  have he := threadpool_keepalive_locked_eq pool now hp
  refine ⟨keepalive_due_iff pool now hl hn, ?_, ?_, ?_⟩
  · intro hd
    rw [he, if_pos hd]
  · intro hd
    rw [he, if_neg hd]
  · intro p1 t h
    by_cases hd : keepalive_due pool now
    · rw [he, if_pos hd] at h
      simp only [Outcome.returned.injEq, true_and] at h
      obtain ⟨rfl, _⟩ := h
      rw [threadpool_keepalive_locked_eq { pool with last_tick_count := now } now hp,
        if_neg (keepalive_not_due_again pool now)]
    · rw [he, if_neg hd] at h
      simp only [Outcome.returned.injEq, true_and] at h
      obtain ⟨rfl, _⟩ := h
      rw [he, if_neg hd]

/-- C19 (amended) at a pool with one idle granted slot and
`last_tick_count == 200000`: at the reading 350000 the probe fires and stores
350000, at the reading 349999 it does nothing. -/
theorem threadpool_keepalive_locked_probe_witness :
    threadpool_keepalive_locked pool_stale 350000
      = Outcome.returned () { pool_stale with last_tick_count := 350000 }
          [Event.provider_submit_lost_work 0 1] ∧
    threadpool_keepalive_locked pool_stale 349999 = Outcome.returned () pool_stale [] :=
  ⟨(threadpool_keepalive_locked_probe pool_stale 350000 (by decide) (by decide)
      (by decide)).2.1 (by decide),
   (threadpool_keepalive_locked_probe pool_stale 349999 (by decide) (by decide)
      (by decide)).2.2.1 (by decide)⟩

/-- C19 as stated fails at two inputs.  With `last_tick_count == 200000` and
the clock reading 0 (what `threadpool_get_tickcount` returns when
`clock_gettime` fails) the clock has not advanced, yet the unsigned difference
wraps and the probe fires and stores 0; the same at the reading 100000.  With
no provider installed and the clock 150000 past `last_tick_count` the probe
faults at `pool->provider->submit_lost_work()`. -/
theorem threadpool_keepalive_counterexample :
    (threadpool_get_tickcount none = 0 ∧ ¬ clock_advanced pool_stale 0 ∧
      threadpool_keepalive_locked pool_stale 0
        = Outcome.returned () { pool_stale with last_tick_count := 0 }
            [Event.provider_submit_lost_work 0 1] ∧
      ¬ clock_advanced pool_stale 100000 ∧
      threadpool_keepalive_locked pool_stale 100000
        = Outcome.returned () { pool_stale with last_tick_count := 100000 }
            [Event.provider_submit_lost_work 0 1]) ∧
    (clock_advanced { pool_stale with provider := 0 } 350000 ∧
      threadpool_keepalive_locked { pool_stale with provider := 0 } 350000
        = Outcome.fault []) :=
  ⟨⟨rfl, by decide, rfl, by decide, rfl⟩, ⟨by decide, rfl⟩⟩

/-- What `threadpool_close` returns on a well-formed queue when no worker is
active: the pool and the events, in full. -/
theorem threadpool_close_wf (pool : threadpool) (hi no lo : List Nat)
    (tick_count fuel : Nat)
    (hwf : queue_wf pool.queue hi no lo) (hr : pool.in_range)
    (hst : pool.shutdown_state ≠ SHUTDOWN_STATE_COMPLETE)
    (hact : pool.active_threads = 0)
    (hthreads : pool.threads + 1 < UINT32)
    (hp : pool.provider ≠ 0)
    (hfuel : (pop_order hi no lo).length < fuel) :
    ∃ q1, queue_wf q1 [] [] [] ∧
      threadpool_close fuel pool tick_count
        = Outcome.returned ()
            { pool with
              queue := q1
              last_tick_count := tick_count
              shutdown_state := SHUTDOWN_STATE_COMPLETE
              shutdown_handler_called := true }
            (drain_callbacks
                (if pool.shutdown_state = SHUTDOWN_STATE_WAIT then SHUTDOWN_STATE_WAIT
                 else SHUTDOWN_STATE_ABORT)
                (pop_order hi no lo)
              ++ (if pool.shutdown_handler_called = true then [] else handler_call pool)
              ++ [Event.provider_close]) := by
  have hst2 : (if pool.shutdown_state = SHUTDOWN_STATE_NONE then SHUTDOWN_STATE_ABORT
      else pool.shutdown_state)
      = (if pool.shutdown_state = SHUTDOWN_STATE_WAIT then SHUTDOWN_STATE_WAIT
         else SHUTDOWN_STATE_ABORT) := by
    cases hs : pool.shutdown_state <;> simp_all
  have hb := close_begin_eq pool hst hthreads
  rw [hst2] at hb
  obtain ⟨q1, w1, _, _, e⟩ := thread_pool_async_dequeue_wf
    { pool with
      shutdown_state :=
        if pool.shutdown_state = SHUTDOWN_STATE_WAIT then SHUTDOWN_STATE_WAIT
        else SHUTDOWN_STATE_ABORT
      threads := pool.threads + 1 }
    hi no lo tick_count fuel hwf
    ⟨hthreads, hr.active_threads_lt, hr.max_threads_lt, hr.last_tick_count_lt⟩
    (by simp [hact]) (by simp only; split <;> simp) hfuel
  have hemp : threadpool_queue_isempty q1 = some (true, []) := by
    rw [threadpool_queue_isempty_wf w1]
    have : q1.size = 0 := by simpa using w1.size_eq
    simp [this]
  have hnn : (if pool.shutdown_state = SHUTDOWN_STATE_WAIT then SHUTDOWN_STATE_WAIT
      else SHUTDOWN_STATE_ABORT) ≠ SHUTDOWN_STATE_NONE := by split <;> simp
  refine ⟨q1, w1, ?_⟩
  simp only [threadpool_close, hb, e, Outcome.andThen, close_end, hp, hemp,
    Outcome.after, check]
  simp [hnn, handler_call, hact]

/-- The pop order of an empty queue after one push. -/
theorem pop_order_pushed (priority item : Nat) :
    pop_order (pushed_high priority item []) (pushed_normal priority item [])
      (pushed_low priority item []) = [item] := by
  unfold pop_order pushed_high pushed_normal pushed_low
  have hne : THREAD_POOL_PRIORITY_HIGH ≠ THREAD_POOL_PRIORITY_LOW := by decide
  by_cases h1 : priority = THREAD_POOL_PRIORITY_HIGH
  · simp [h1, hne]
  · by_cases h2 : priority = THREAD_POOL_PRIORITY_LOW
    · simp [h2, hne.symm]
    · simp [h1, h2]

/-- C11: on a pool with a well-formed empty queue, `shutdown_state` NONE,
`threads == 0` and `active_threads == 0`, when the submission of an unlinked
item is answered by `provider.submit` (the call occurs among its events) and
the answer is false, `threadpool_submit` returns `ECANCELED`; its only event is
that call (no callback), the item is queued (it is the whole pop order,
`size == 1`) and `threads` is 1.  A `threadpool_close` that follows (given fuel
for two passes of the drain loop) returns; its events are `release` of the
item, then at most the call of the shutdown handler, then `provider.close`;
`release` of the item occurs once and its `action` never; the queue ends empty
and `shutdown_state` is COMPLETE. -/
theorem threadpool_submit_provider_refuses (pool : threadpool)
    (item priority tick1 tick2 tick3 fuel : Nat)
    (hwf : queue_wf pool.queue [] [] [])
    (hs : pool.shutdown_state = SHUTDOWN_STATE_NONE)
    (ht : pool.threads = 0) (ha : pool.active_threads = 0)
    (hu : unlinked pool.queue.mem item)
    (hcall : Event.provider_submit
      ∈ (threadpool_submit pool item priority tick1 tick2 false).events)
    (hr : pool.in_range) (htick : tick2 < UINT64) (hfuel : 1 < fuel) :
    ∃ p1 p2 tail,
      threadpool_submit pool item priority tick1 tick2 false
        = Outcome.returned ECANCELED p1 [Event.provider_submit] ∧
      queue_wf p1.queue (pushed_high priority item []) (pushed_normal priority item [])
        (pushed_low priority item []) ∧
      pop_order (pushed_high priority item []) (pushed_normal priority item [])
        (pushed_low priority item []) = [item] ∧
      p1.queue.size = 1 ∧ p1.threads = 1 ∧ p1.active_threads = 0 ∧
      p1.shutdown_state = SHUTDOWN_STATE_NONE ∧
      threadpool_close fuel p1 tick3
        = Outcome.returned () p2 ([Event.release item] ++ tail ++ [Event.provider_close]) ∧
      (tail = [] ∨ tail = handler_call pool) ∧
      ([Event.release item] ++ tail ++ [Event.provider_close]).count (Event.release item) = 1 ∧
      ([Event.release item] ++ tail ++ [Event.provider_close]).count (Event.action item) = 0 ∧
      queue_wf p2.queue [] [] [] ∧
      p2.shutdown_state = SHUTDOWN_STATE_COMPLETE := by
  have h0 : pool.queue.size = 0 := by simpa using hwf.size_eq
  have h1 : pool.queue.size + 1 < UINT32 := by
    rw [h0]; unfold UINT32; norm_num
  obtain ⟨q1, e, w, s, _⟩ := threadpool_queue_push_wf hwf item priority (by rw [hu]) h1
  have hk : threadpool_keepalive_locked pool tick1 = Outcome.returned () pool [] := by
    simp [threadpool_keepalive_locked, ht, ha]
  have hi1 : inc32 pool.threads = 1 := by rw [ht]; exact inc32_zero
  have hm0 : ¬ (pool.threads ≥ pool.max_threads) := by
    intro hge
    have h : threadpool_submit pool item priority tick1 tick2 false
        = Outcome.returned 0 { pool with queue := q1 } [] := by
      unfold threadpool_submit
      rw [if_neg (by simp [hs]), hk]
      simp only [Outcome.andThen, e]
      rw [if_pos hge]
      simp [Outcome.after]
    rw [h] at hcall
    simp [Outcome.events] at hcall
  have hp : pool.provider ≠ 0 := by
    intro h0
    have h : threadpool_submit pool item priority tick1 tick2 false = Outcome.fault [] := by
      unfold threadpool_submit
      rw [if_neg (by simp [hs]), hk]
      simp only [Outcome.andThen, e]
      rw [if_neg hm0, if_pos h0]
      simp [Outcome.after]
    rw [h] at hcall
    simp [Outcome.events] at hcall
  have hsub : threadpool_submit pool item priority tick1 tick2 false
      = Outcome.returned ECANCELED
          { pool with queue := q1, threads := 1, last_tick_count := tick2 }
          [Event.provider_submit] := by
    unfold threadpool_submit
    rw [if_neg (by simp [hs]), hk]
    simp only [Outcome.andThen, e]
    rw [if_neg hm0, hi1, if_neg hp]
    simp [Outcome.after]
  have h2 : (1 : Nat) + 1 < UINT32 := by unfold UINT32; norm_num
  have hpo := pop_order_pushed priority item
  obtain ⟨q2, w2, ec⟩ := threadpool_close_wf
    { pool with queue := q1, threads := 1, last_tick_count := tick2 }
    (pushed_high priority item []) (pushed_normal priority item [])
    (pushed_low priority item []) tick3 fuel w
    ⟨by show (1 : Nat) < UINT32; unfold UINT32; norm_num, hr.active_threads_lt,
      hr.max_threads_lt, htick⟩
    (by simp [hs]) ha h2 hp (by rw [hpo]; simpa using hfuel)
  rw [hpo] at ec
  have hz1 : (if pool.shutdown_handler_called = true then [] else handler_call pool).count
      (Event.release item) = 0 := by
    split
    · simp
    · exact count_handler_call _ _ rfl
  have hz2 : (if pool.shutdown_handler_called = true then [] else handler_call pool).count
      (Event.action item) = 0 := by
    split
    · simp
    · exact count_handler_call _ _ rfl
  refine ⟨{ pool with queue := q1, threads := 1, last_tick_count := tick2 },
    { pool with queue := q2, threads := 1, last_tick_count := tick3,
                shutdown_state := SHUTDOWN_STATE_COMPLETE, shutdown_handler_called := true },
    if pool.shutdown_handler_called = true then [] else handler_call pool,
    hsub, w, hpo, by rw [s, h0], rfl, ha, hs, ?_, ?_, ?_, ?_, w2, rfl⟩
  · rw [ec]
    simp [hs, drain_callbacks, item_callbacks, handler_call]
  · split
    · exact Or.inl rfl
    · exact Or.inr rfl
  · simp only [List.count_append, hz1]
    simp
  · simp only [List.count_append, hz2]
    simp

/-- C11 at a pool with initialised bands, a provider, handler 1 with context 0
and one slot: the refused submission of item 1 returns `ECANCELED` with the
item queued and `threads == 1`; the close releases item 1, calls the handler
and closes the provider. -/
theorem threadpool_submit_provider_refuses_witness :
    ∃ p1 p2,
      threadpool_submit (pool_init 1) 1 THREAD_POOL_PRIORITY_NORMAL 0 0 false
        = Outcome.returned ECANCELED p1 [Event.provider_submit] ∧
      queue_wf p1.queue [] [1] [] ∧ p1.threads = 1 ∧
      threadpool_close 2 p1 0
        = Outcome.returned () p2
            [Event.release 1, Event.shutdown_handler 1 0, Event.provider_close] ∧
      queue_wf p2.queue [] [] [] ∧ p2.shutdown_state = SHUTDOWN_STATE_COMPLETE := by
  obtain ⟨p1, p2, tail, h1, h2, _, _, h5, _, _, h8, h9, _, _, h12, h13⟩ :=
    threadpool_submit_provider_refuses (pool_init 1) 1 THREAD_POOL_PRIORITY_NORMAL 0 0 0 2
      (by constructor <;> decide) rfl rfl rfl (by decide) (by decide)
      (by constructor <;> decide) (by decide) (by decide)
  have hsub : threadpool_submit (pool_init 1) 1 THREAD_POOL_PRIORITY_NORMAL 0 0 false
      = Outcome.returned ECANCELED
          { pool_init 1 with
            queue := ((threadpool_submit (pool_init 1) 1 THREAD_POOL_PRIORITY_NORMAL 0 0
              false).pool_or (pool_init 1)).queue
            threads := 1 }
          [Event.provider_submit] := rfl
  have hp1 : p1 = { pool_init 1 with
            queue := ((threadpool_submit (pool_init 1) 1 THREAD_POOL_PRIORITY_NORMAL 0 0
              false).pool_or (pool_init 1)).queue
            threads := 1 } := by
    rw [hsub] at h1
    simp only [Outcome.returned.injEq, true_and, and_true] at h1
    exact h1.symm
  have hev : (threadpool_close 2 p1 0).events
      = [Event.release 1, Event.shutdown_handler 1 0, Event.provider_close] := by
    rw [hp1]; decide
  refine ⟨p1, p2, h1, ?_, h5, ?_, h12, h13⟩
  · simpa [pushed_high, pushed_normal, pushed_low, THREAD_POOL_PRIORITY_NORMAL,
      THREAD_POOL_PRIORITY_LOW, THREAD_POOL_PRIORITY_HIGH] using h2
  · rw [h8] at hev ⊢
    simp only [Outcome.events] at hev
    rw [hev]

end Threadpool
